import Mathlib

/-!
# Redux store core (`src/bundle.js`): a shallow embedding

The bundle is a closure-based, single-threaded state container.  The embedding
makes the closure variables of `createStore` an explicit `Store` record, makes
the two listener arrays explicit heap objects (so that aliasing between
`currentListeners` and `nextListeners` is visible), and represents user
callbacks (reducers, listeners) as interaction trees over the store operations,
so that a callback may re-enter the store exactly as JavaScript code can.

The other parts of the bundle follow the store: `compose` and
`applyMiddleware` (middlewares are setup programs that end in a handler),
`combineReducers` (child reducers are functions that return or raise; the
bundle's own effects, among them the messages passed to `warning`, are kept in
an `Effects` record) and `bindActionCreators`.
-/

namespace Redux

/-! ## JavaScript values -/

/-- The results of the `typeof` operator. -/
inductive JsType where
  | undefined | object | boolean | number | string | function | symbol | bigint
  deriving DecidableEq, Repr

/-- JavaScript values.  Functions and objects carry a reference used for
identity (`===`).  An object carries its own properties and its prototype
chain, nearest prototype first; the chain ends in `null`. -/
inductive Val where
  | undefined
  | null
  | bool (b : Bool)
  | num (n : Int)
  | str (s : String)
  | symbol (id : Nat)
  | bigint (n : Int)
  | fn (id : Nat)
  | obj (ref : Nat) (fields : List (String × Val))
      (protos : List (Nat × List (String × Val)))

/-- The `typeof` operator. -/
def typeOf : Val → JsType
  | .undefined => .undefined
  | .null => .object
  | .bool _ => .boolean
  | .num _ => .number
  | .str _ => .string
  | .symbol _ => .symbol
  | .bigint _ => .bigint
  | .fn _ => .function
  | .obj _ _ _ => .object

/-- Strict equality `===`: primitives by value, functions and objects by
reference. -/
def strictEq : Val → Val → Bool
  | .undefined, .undefined => true
  | .null, .null => true
  | .bool a, .bool b => a == b
  | .num a, .num b => a == b
  | .str a, .str b => a == b
  | .symbol a, .symbol b => a == b
  | .bigint a, .bigint b => a == b
  | .fn a, .fn b => a == b
  | .obj a _ _, .obj b _ _ => a == b
  | _, _ => false

/-- The built-in `Object.getPrototypeOf` on an object value. -/
def getPrototypeOf : Val → Val
  | .obj _ _ ((r, fs) :: ps) => .obj r fs ps
  | _ => .null

/-- The loop of `isPlainObject`:
`while (Object.getPrototypeOf(proto) !== null) proto = Object.getPrototypeOf(proto)`,
started at the object with reference `ref`, own properties `fields` and the
given prototype chain. -/
def protoLoop (ref : Nat) (fields : List (String × Val)) :
    List (Nat × List (String × Val)) → Val
  | [] => .obj ref fields []
  | (r, fs) :: ps => protoLoop r fs ps

/-- Translation of `isPlainObject(obj)` (bundle.js 30-39). -/
def isPlainObject (obj : Val) : Bool :=
  if typeOf obj ≠ .object || strictEq obj .null then false
  else
    match obj with
    | .obj r fs ps => strictEq (getPrototypeOf obj) (protoLoop r fs ps)
    | _ => false

/-- Lookup of a key along a prototype chain. -/
def lookupProtos (key : String) : List (Nat × List (String × Val)) → Val
  | [] => .undefined
  | (_, fs) :: ps =>
    match fs.lookup key with
    | some v => v
    | none => lookupProtos key ps

/-- Property read `v.key` on an object: own properties first, then the
prototype chain; `undefined` when absent. -/
def getProp (v : Val) (key : String) : Val :=
  match v with
  | .obj _ fs ps =>
    match fs.lookup key with
    | some x => x
    | none => lookupProtos key ps
  | _ => .undefined

/-! ## Errors -/

/-- A raised JavaScript exception: an `Error` object created by the bundle
with the given message, or an arbitrary value thrown by user code. -/
inductive Err where
  | error (msg : String)
  | thrown (v : Val)

/-! ## Callbacks

Reducers and listeners are user code.  A callback is an interaction tree: it
returns, raises, or calls one of the store operations and continues with the
result of that call (a value, or the exception it raised, which the callback
may handle or re-raise). -/

/-- User code interacting with the store. -/
inductive Prog where
  | ret (v : Val)
  | throw (e : Err)
  | getState (k : Except Err Val → Prog)
  | dispatch (action : Val) (k : Except Err Val → Prog)
  | subscribe (listener : Val) (k : Except Err Nat → Prog)
  | unsubscribe (handle : Nat) (k : Except Err Unit → Prog)
  | replaceReducer (nextReducer : Val) (k : Except Err Unit → Prog)

/-- The ambient program: the body of every function value, the realm's
`Object.prototype`, the references given to objects the bundle allocates, and
the results of the two `randomString()` calls of `ActionTypes`.  Further:
`randomProbe k` is the result of `randomString()` in the `k`-th call of
`ActionTypes.PROBE_UNKNOWN_ACTION`; `production` tells whether
`process.env.NODE_ENV` is `'production'`; `stringOf` is the conversion
`String(v)`, which returns a string or raises, for the values it does not
print as they are written here (objects and functions, whose conversion runs
user code or fails for want of a method, symbols, and numbers from `1e+21`
on); `classOf` is the class named by `{}.toString.call(v)` for objects;
`primProp` is the property read on a primitive or function value. -/
structure Env where
  body : Nat → List Val → Prog
  objectPrototype : Nat × List (String × Val)
  objRef : Nat → Nat
  randomInit : String
  randomReplace : String
  randomProbe : Nat → String := fun _ => ""
  production : Bool := false
  stringOf : Val → Except Err String := fun _ => .ok "[object Object]"
  classOf : Val → String := fun _ => "Object"
  primProp : Val → String → Val := fun _ _ => .undefined

/-- The constant `ActionTypes.INIT` (bundle.js 21). -/
def ActionTypes.INIT (env : Env) : String := "@@redux/INIT" ++ env.randomInit

/-- The constant `ActionTypes.REPLACE` (bundle.js 22). -/
def ActionTypes.REPLACE (env : Env) : String := "@@redux/REPLACE" ++ env.randomReplace

/-! ## The store -/

/-- The closure of one `unsubscribe` function returned by `subscribe`: the
listener it captured and its `isSubscribed` variable. -/
structure Handle where
  listener : Val
  isSubscribed : Bool

/-- Observation record: calls into user code and state replacement, tagged
with the nesting level (remaining call depth) of the `dispatch` call that
produced them; a call also records the value `isDispatching` had when the
callee was entered. -/
inductive Event where
  | reduce (level : Nat) (reducer : Val) (state : Val) (action : Val) (dispatching : Bool)
  | assign (level : Nat) (state : Val)
  | notify (level : Nat) (listener : Val) (args : List Val) (dispatching : Bool)

/-- The closure variables of `createStore` (bundle.js 84-88), the heap of
listener arrays they point into, the closures of the unsubscribe functions
handed out so far, the number of objects allocated by the bundle, and the
observation record. -/
structure Store where
  currentReducer : Val
  currentState : Val
  arrays : List (List Val)
  currentListeners : Nat
  nextListeners : Nat
  isDispatching : Bool
  handles : List Handle
  allocated : Nat
  log : List Event

/-- Result of running code against the store: normal return, exception, or
exhaustion of the call-depth / iteration budget.  Exhaustion aborts the run
where it stands; the store reached so far is kept for inspection. -/
inductive Outcome (α : Type) where
  | ok (v : α) (s : Store)
  | raise (e : Err) (s : Store)
  | diverge (s : Store)

/-- The store in which an outcome was produced. -/
def Outcome.store {α : Type} : Outcome α → Store
  | .ok _ s => s
  | .raise _ s => s
  | .diverge s => s

/-- The array a reference points to. -/
def Store.array (s : Store) (ref : Nat) : List Val := s.arrays.getD ref []

/-- Evaluation of an object literal `{ type: t }` by the bundle. -/
def typeLiteral (env : Env) (s : Store) (t : String) : Val × Store :=
  (.obj (env.objRef s.allocated) [("type", .str t)] [env.objectPrototype],
   { s with allocated := s.allocated + 1 })

def msgGetState : String :=
  "You may not call store.getState() while the reducer is executing. " ++
  "The reducer has already received the state as an argument. " ++
  "Pass it down from the top reducer instead of reading it from the store."

def msgListener : String := "Expected the listener to be a function."

def msgSubscribe : String :=
  "You may not call store.subscribe() while the reducer is executing. " ++
  "If you would like to be notified after the store has been updated, subscribe from a " ++
  "component and invoke store.getState() in the callback to access the latest state. " ++
  "See https://redux.js.org/api-reference/store#subscribe(listener) for more details."

def msgUnsubscribe : String :=
  "You may not unsubscribe from a store listener while the reducer is executing. " ++
  "See https://redux.js.org/api-reference/store#subscribe(listener) for more details."

def msgPlain : String :=
  "Actions must be plain objects. " ++ "Use custom middleware for async actions."

def msgType : String :=
  "Actions may not have an undefined \"type\" property. " ++ "Have you misspelled a constant?"

def msgDispatch : String := "Reducers may not dispatch actions."

def msgNextReducer : String := "Expected the nextReducer to be a function."

def msgEnhancer : String := "Expected the enhancer to be a function."

def msgReducer : String := "Expected the reducer to be a function."

/-- The `TypeError` raised by the language when a non-function is called. -/
def notCallable : Err := .thrown (.str "TypeError: not a function")

/-- Translation of `ensureCanMutateNextListeners` (bundle.js 90-94):
`slice()` allocates a fresh array holding a copy. -/
def ensureCanMutateNextListeners (s : Store) : Store :=
  if s.nextListeners = s.currentListeners then
    { s with
      arrays := s.arrays ++ [s.array s.currentListeners],
      nextListeners := s.arrays.length }
  else s

/-- Translation of `getState` (bundle.js 101-111). -/
def getState (s : Store) : Outcome Val :=
  if s.isDispatching then .raise (.error msgGetState) s
  else .ok s.currentState s

/-- `Array.prototype.indexOf` (strict equality), counting from `i`. -/
def indexOfFrom (x : Val) : List Val → Nat → Int
  | [], _ => -1
  | y :: ys, i => if strictEq y x then (i : Int) else indexOfFrom x ys (i + 1)

/-- `arr.indexOf(x)`: the first index holding `x`, or `-1`. -/
def indexOf (arr : List Val) (x : Val) : Int := indexOfFrom x arr 0

/-- The array after `arr.splice(start, deleteCount)`: a negative `start`
counts from the end. -/
def splice (arr : List Val) (start deleteCount : Int) : List Val :=
  let len : Int := arr.length
  let actualStart : Int := if start < 0 then max (len + start) 0 else min start len
  let actualDeleteCount : Int := min (max deleteCount 0) (len - actualStart)
  arr.take actualStart.toNat ++ arr.drop (actualStart.toNat + actualDeleteCount.toNat)

/-- Translation of `subscribe` (bundle.js 136-154).  The result is the index
of the closure of the returned `unsubscribe` function. -/
def subscribe (listener : Val) (s : Store) : Outcome Nat :=
  if typeOf listener ≠ .function then .raise (.error msgListener) s
  else if s.isDispatching then .raise (.error msgSubscribe) s
  else
    let s1 : Store := { s with handles := s.handles ++ [{ listener := listener, isSubscribed := true }] }
    let s2 := ensureCanMutateNextListeners s1
    let s3 : Store := { s2 with
      arrays := s2.arrays.set s2.nextListeners (s2.array s2.nextListeners ++ [listener]) }
    .ok s.handles.length s3

/-- Translation of a call of the `unsubscribe` function with closure number
`h` (bundle.js 155-172). -/
def unsubscribe (h : Nat) (s : Store) : Outcome Unit :=
  match s.handles.get? h with
  | none => .raise notCallable s
  | some c =>
    if !c.isSubscribed then .ok () s
    else if s.isDispatching then .raise (.error msgUnsubscribe) s
    else
      let s1 : Store := { s with handles := s.handles.set h { c with isSubscribed := false } }
      let s2 := ensureCanMutateNextListeners s1
      let index := indexOf (s2.array s2.nextListeners) c.listener
      let s3 : Store := { s2 with
        arrays := s2.arrays.set s2.nextListeners (splice (s2.array s2.nextListeners) index 1) }
      .ok () s3

/-- Translation of `replaceReducer` (bundle.js 245-252), with the store's
`dispatch` passed as `disp`. -/
def replaceReducerWith (env : Env) (disp : Val → Store → Outcome Val)
    (nextReducer : Val) (s : Store) : Outcome Unit :=
  if typeOf nextReducer ≠ .function then .raise (.error msgNextReducer) s
  else
    let s1 : Store := { s with currentReducer := nextReducer }
    let (action, s2) := typeLiteral env s1 (ActionTypes.REPLACE env)
    match disp action s2 with
    | .ok _ s3 => .ok () s3
    | .raise e s3 => .raise e s3
    | .diverge s3 => .diverge s3

/-- Execution of user code against the store; `disp` is the store's
`dispatch`. -/
def run (env : Env) (disp : Val → Store → Outcome Val) : Prog → Store → Outcome Val
  | .ret v, s => .ok v s
  | .throw e, s => .raise e s
  | .getState k, s =>
    match getState s with
    | .ok v s1 => run env disp (k (.ok v)) s1
    | .raise e s1 => run env disp (k (.error e)) s1
    | .diverge s1 => .diverge s1
  | .dispatch action k, s =>
    match disp action s with
    | .ok v s1 => run env disp (k (.ok v)) s1
    | .raise e s1 => run env disp (k (.error e)) s1
    | .diverge s1 => .diverge s1
  | .subscribe listener k, s =>
    match subscribe listener s with
    | .ok h s1 => run env disp (k (.ok h)) s1
    | .raise e s1 => run env disp (k (.error e)) s1
    | .diverge s1 => .diverge s1
  | .unsubscribe h k, s =>
    match unsubscribe h s with
    | .ok u s1 => run env disp (k (.ok u)) s1
    | .raise e s1 => run env disp (k (.error e)) s1
    | .diverge s1 => .diverge s1
  | .replaceReducer r k, s =>
    match replaceReducerWith env disp r s with
    | .ok u s1 => run env disp (k (.ok u)) s1
    | .raise e s1 => run env disp (k (.error e)) s1
    | .diverge s1 => .diverge s1

/-- A call `f(args...)` of a value: the body of a function value is run, any
other value raises the language's `TypeError`. -/
def callFn (env : Env) (disp : Val → Store → Outcome Val) (f : Val) (args : List Val)
    (s : Store) : Outcome Val :=
  match f with
  | .fn id => run env disp (env.body id args) s
  | _ => .raise notCallable s

/-- The notification loop of `dispatch` (bundle.js 227-230):
`for (let i = 0; i < listeners.length; i++) listeners[i]()`, where `listeners`
is a reference to a heap array that is read again at every iteration. -/
def notifyListeners (env : Env) (disp : Val → Store → Outcome Val) (level : Nat)
    (listeners : Nat) : Nat → Nat → Store → Outcome Unit
  | 0, _, s => .diverge s
  | gas + 1, i, s =>
    if i < (s.array listeners).length then
      let listener := (s.array listeners).getD i .undefined
      let s1 : Store := { s with log := s.log ++ [.notify level listener [] s.isDispatching] }
      match callFn env disp listener [] s1 with
      | .ok _ s2 => notifyListeners env disp level listeners gas (i + 1) s2
      | .raise e s2 => .raise e s2
      | .diverge s2 => .diverge s2
    else .ok () s

/-- Translation of the body of `dispatch` (bundle.js 200-233); nested calls
of `dispatch` made by user code go to `disp`. -/
def dispatchBody (env : Env) (disp : Val → Store → Outcome Val) (level : Nat)
    (action : Val) (s : Store) : Outcome Val :=
  if !isPlainObject action then .raise (.error msgPlain) s
  else if typeOf (getProp action "type") = .undefined then .raise (.error msgType) s
  else if s.isDispatching then .raise (.error msgDispatch) s
  else
    let s0 : Store := { s with isDispatching := true }
    let s1 : Store := { s0 with
      log := s0.log ++ [.reduce level s0.currentReducer s0.currentState action s0.isDispatching] }
    match callFn env disp s1.currentReducer [s1.currentState, action] s1 with
    | .diverge s2 => .diverge s2
    | .raise e s2 => .raise e { s2 with isDispatching := false }
    | .ok v s2 =>
      let s3 : Store := { s2 with
        currentState := v,
        isDispatching := false,
        log := s2.log ++ [.assign level v] }
      let s4 : Store := { s3 with currentListeners := s3.nextListeners }
      match notifyListeners env disp level s4.currentListeners level 0 s4 with
      | .ok _ s5 => .ok action s5
      | .raise e s5 => .raise e s5
      | .diverge s5 => .diverge s5

/-- The store's `dispatch`: `fuel` bounds the depth of nested `dispatch`
calls and the iterations of each notification loop, so a call needs more fuel
than it has listeners to notify.  The fuel left is also the nesting level
under which the call records its events. -/
def dispatch (env : Env) : Nat → Val → Store → Outcome Val
  | 0 => fun _ s => .diverge s
  | fuel + 1 => dispatchBody env (dispatch env fuel) (fuel + 1)

/-- The store's `replaceReducer`. -/
def replaceReducer (env : Env) (fuel : Nat) (nextReducer : Val) (s : Store) : Outcome Unit :=
  replaceReducerWith env (dispatch env fuel) nextReducer s

/-- Result of `createStore`. -/
inductive Created where
  | store (s : Store)
  | raised (e : Err)
  | delegated (enhancer : Val) (reducer : Val) (preloadedState : Val)
  | diverged

/-- The closure variables as initialised by `createStore` (bundle.js 84-88). -/
def initialStore (reducer preloadedState : Val) : Store :=
  { currentReducer := reducer
    currentState := preloadedState
    arrays := [[]]
    currentListeners := 0
    nextListeners := 0
    isDispatching := false
    handles := []
    allocated := 0
    log := [] }

/-- Translation of `createStore(reducer, preloadedState, enhancer)`
(bundle.js 66-305).  With an enhancer the construction is handed to
`enhancer(createStore)(reducer, preloadedState)`. -/
def createStore (env : Env) (fuel : Nat) (reducer preloadedState enhancer : Val) : Created :=
  let shift : Bool := typeOf preloadedState = .function && typeOf enhancer = .undefined
  let enhancer1 := if shift then preloadedState else enhancer
  let preloadedState1 := if shift then Val.undefined else preloadedState
  if typeOf enhancer1 ≠ .undefined then
    if typeOf enhancer1 ≠ .function then .raised (.error msgEnhancer)
    else .delegated enhancer1 reducer preloadedState1
  else if typeOf reducer ≠ .function then .raised (.error msgReducer)
  else
    let (action, s) := typeLiteral env (initialStore reducer preloadedState1) (ActionTypes.INIT env)
    match dispatch env fuel action s with
    | .ok _ s1 => .store s1
    | .raise e _ => .raised e
    | .diverge _ => .diverged

/-! ## Outcomes and the record of events -/

/-- The outcome is a normal return or an exception. -/
def Outcome.Completed {α : Type} : Outcome α → Prop
  | .ok _ _ => True
  | .raise _ _ => True
  | .diverge _ => False

/-- The outcome is a normal return. -/
def Outcome.Returned {α : Type} : Outcome α → Prop
  | .ok _ _ => True
  | .raise _ _ => False
  | .diverge _ => False

/-- The nesting level at which an event was recorded. -/
def Event.level : Event → Nat
  | .reduce l _ _ _ _ => l
  | .assign l _ => l
  | .notify l _ _ _ => l

/-- The events a `dispatch` call of depth at most `n` records: a reducer is
entered with `isDispatching` set, a listener is entered with no argument and
`isDispatching` clear. -/
def Event.Emitted (n : Nat) : Event → Prop
  | .reduce l _ _ _ d => l ≤ n ∧ d = true
  | .assign l _ => l ≤ n
  | .notify l _ args d => l ≤ n ∧ args = [] ∧ d = false

/-- A recorded call was entered with the right value of `isDispatching`: set
for a reducer, clear for a listener. -/
def Event.FlagOk : Event → Prop
  | .reduce _ _ _ _ d => d = true
  | .assign _ _ => True
  | .notify _ _ _ d => d = false

/-- The events of a record that were produced at nesting level `m`. -/
def eventsAt (m : Nat) (log : List Event) : List Event :=
  log.filter (fun e => e.level == m)

/-- The record of one notification pass at `level` over the listeners `ls`:
each is called once, in order, with no argument and `isDispatching` clear. -/
def notifyEvents (level : Nat) (ls : List Val) : List Event :=
  ls.map (fun l => Event.notify level l [] false)

/-! ## The phases of `dispatch` -/

/-- An action that passes the two checks at the head of `dispatch`. -/
def ValidAction (a : Val) : Prop :=
  isPlainObject a = true ∧ typeOf (getProp a "type") ≠ .undefined

/-- The store in which `dispatch` enters the reducer: `isDispatching` has been
set and the call is recorded. -/
def reducerEntry (level : Nat) (action : Val) (s : Store) : Store :=
  { s with
    isDispatching := true,
    log := s.log ++ [.reduce level s.currentReducer s.currentState action true] }

/-- The store in which `dispatch` starts notifying: the reducer returned `v`
in store `s2`. -/
def notifyEntry (level : Nat) (v : Val) (s2 : Store) : Store :=
  { s2 with
    currentState := v,
    isDispatching := false,
    log := s2.log ++ [.assign level v],
    currentListeners := s2.nextListeners }

/-- The part of `dispatch` that follows the reducer call (bundle.js 221-232),
as a function of the outcome of that call. -/
def afterReducer (env : Env) (disp : Val → Store → Outcome Val) (level : Nat)
    (action : Val) : Outcome Val → Outcome Val
  | .diverge s2 => .diverge s2
  | .raise e s2 => .raise e { s2 with isDispatching := false }
  | .ok v s2 =>
    match notifyListeners env disp level s2.nextListeners level 0 (notifyEntry level v s2) with
    | .ok _ s5 => .ok action s5
    | .raise e s5 => .raise e s5
    | .diverge s5 => .diverge s5

/-- The bootstrap action `{ type: ActionTypes.INIT }` built by `createStore`. -/
def initAction (env : Env) : Val :=
  .obj (env.objRef 0) [("type", .str (ActionTypes.INIT env))] [env.objectPrototype]

/-! ## Predicates on stores -/

/-- Closure of a store predicate under every elementary update the store
operations perform, events being recorded at levels up to `n`. -/
structure Stable (n : Nat) (P : Store → Prop) : Prop where
  log : ∀ (s : Store) (e : Event), e.Emitted n → P s → P { s with log := s.log ++ [e] }
  flag : ∀ (s : Store) (b : Bool), P s → P { s with isDispatching := b }
  state : ∀ (s : Store) (v : Val), P s → P { s with currentState := v }
  reducer : ∀ (s : Store) (r : Val), P s → P { s with currentReducer := r }
  alloc : ∀ (s : Store), P s → P { s with allocated := s.allocated + 1 }
  promote : ∀ (s : Store), P s → P { s with currentListeners := s.nextListeners }
  subscribe : ∀ (s s1 : Store) (l : Val) (h : Nat), subscribe l s = .ok h s1 → P s → P s1
  unsubscribe : ∀ (s s1 : Store) (h : Nat), unsubscribe h s = .ok () s1 → P s → P s1

/-- An outcome that returned or raised left `isDispatching` as it was in `s`. -/
def KeepsFlag {α : Type} (s : Store) : Outcome α → Prop
  | .ok _ s1 => s1.isDispatching = s.isDispatching
  | .raise _ s1 => s1.isDispatching = s.isDispatching
  | .diverge _ => True

/-- Store `s1` differs from `s` at most in `currentReducer` and in the count
of allocated objects. -/
def SameButReducer (s s1 : Store) : Prop :=
  s1.currentState = s.currentState ∧ s1.arrays = s.arrays ∧
  s1.currentListeners = s.currentListeners ∧ s1.nextListeners = s.nextListeners ∧
  s1.isDispatching = s.isDispatching ∧ s1.handles = s.handles ∧ s1.log = s.log

/-- The heap array `L` holds `A` and is out of reach of writes: writes go to
the array `nextListeners` points to, and only after
`ensureCanMutateNextListeners` made it differ from `currentListeners`. -/
def Frozen (L : Nat) (A : List Val) (s : Store) : Prop :=
  L < s.arrays.length ∧ (s.nextListeners = L → s.currentListeners = L) ∧ s.array L = A

/-- The listeners of the live subscriptions, in the order the subscriptions
were registered. -/
def activeListeners (s : Store) : List Val :=
  (s.handles.filter (fun c => c.isSubscribed)).map (fun c => c.listener)

/-- Removal of the first entry strictly equal to `x`. -/
def eraseFirst (x : Val) : List Val → List Val
  | [] => []
  | y :: ys => if strictEq y x then ys else y :: eraseFirst x ys

/-- The listener registry is consistent: every subscription is of a function,
`nextListeners` points into the heap, the array it points to holds the
listeners of the live subscriptions, each as often as it has live
subscriptions, and in registration order when no function was subscribed
twice. -/
def Subscribed (s : Store) : Prop :=
  (∀ c ∈ s.handles, typeOf c.listener = .function) ∧
  s.nextListeners < s.arrays.length ∧
  List.Perm (s.array s.nextListeners) (activeListeners s) ∧
  ((s.handles.map (fun c => c.listener)).Nodup → s.array s.nextListeners = activeListeners s)

/-! ## Sequences of top-level calls -/

/-- The function value `fn f` is a pure, total reducer computing `r`. -/
def PureReducer (env : Env) (f : Nat) (r : Val → Val → Val) : Prop :=
  ∀ st a, env.body f [st, a] = .ret (r st a)

/-- Top-level dispatch of a list of actions in order; `none` as soon as one of
the calls does not return normally. -/
def dispatchAll (env : Env) (fuel : Nat) : List Val → Store → Option Store
  | [], s => some s
  | a :: rest, s =>
    match dispatch env fuel a s with
    | .ok _ s1 => dispatchAll env fuel rest s1
    | _ => none

/-- What `getState()` returns after `createStore(reducer, preloadedState)`
followed by top-level dispatches of `actions`, when every call returns. -/
def getStateAfter (env : Env) (fuel : Nat) (reducer preloadedState : Val)
    (actions : List Val) : Option Val :=
  match createStore env fuel reducer preloadedState .undefined with
  | .store s0 =>
    match dispatchAll env fuel actions s0 with
    | some s =>
      match getState s with
      | .ok v _ => some v
      | _ => none
    | none => none
  | _ => none

/-- A top-level call of `subscribe` or of an unsubscribe function. -/
inductive SubCall where
  | subscribe (listener : Val)
  | unsubscribe (handle : Nat)

/-- The store after a sequence of top-level subscribe / unsubscribe calls. -/
def applyCalls : List SubCall → Store → Store
  | [], s => s
  | .subscribe l :: rest, s => applyCalls rest (subscribe l s).store
  | .unsubscribe h :: rest, s => applyCalls rest (unsubscribe h s).store

/-- No entry other than `x` comes after an entry identical to `x`. -/
def trailing (x : Val) : List Val → Bool
  | [] => true
  | y :: ys => if strictEq y x then ys.all (fun z => strictEq z x) else trailing x ys

/-- A call of the unsubscribe function number `h` keeps the registration
order: the subscription is already cancelled, or among the live subscriptions
registered before it none of another function comes after one of its own
function, so that the first occurrence of its function in the listener array,
which is the one `splice` removes, is its own entry or is followed only by
entries of the same function up to its own. -/
def keepsOrder (s : Store) (h : Nat) : Bool :=
  match s.handles.get? h with
  | some c =>
    !c.isSubscribed ||
      trailing c.listener
        (((s.handles.take h).filter (fun c => c.isSubscribed)).map (fun c => c.listener))
  | none => true

/-- Every unsubscribe call of the sequence, made in the store the calls
before it produced, keeps the registration order. -/
def orderly : List SubCall → Store → Bool
  | [], _ => true
  | .subscribe l :: rest, s => orderly rest (subscribe l s).store
  | .unsubscribe h :: rest, s => keepsOrder s h && orderly rest (unsubscribe h s).store

/-! ## Example programs and stores -/

/-- The reducer `(state = 0, action) => action.type === 'INC' ? state + 1 : state`
on numeric states. -/
def counter (state action : Val) : Val :=
  let st := if strictEq state .undefined then Val.num 0 else state
  if strictEq (getProp action "type") (.str "INC") then
    match st with
    | .num n => .num (n + 1)
    | v => v
  else st

/-- A program in which function 0 is `counter`. -/
def counterEnv : Env :=
  { body := fun id args =>
      match id, args with
      | 0, [s, a] => .ret (counter s a)
      | _, _ => .ret .undefined
    objectPrototype := (0, [])
    objRef := fun n => n + 1
    randomInit := "a.b.c"
    randomReplace := "x.y.z" }

/-- A reducer that calls `store.getState()` when it receives `{ type: 'READ' }`
and lets the exception escape; on other actions it is `counter`. -/
def readingReducer (state action : Val) : Prog :=
  if strictEq (getProp action "type") (.str "READ") then
    .getState fun r =>
      match r with
      | .ok v => .ret v
      | .error e => .throw e
  else .ret (counter state action)

/-- A program in which function 0 is `counter`, function 1 is
`readingReducer` and function 2 is a listener that does nothing. -/
def readingEnv : Env :=
  { body := fun id args =>
      match id, args with
      | 0, [s, a] => .ret (counter s a)
      | 1, [s, a] => readingReducer s a
      | _, _ => .ret .undefined
    objectPrototype := (0, [])
    objRef := fun n => n + 1
    randomInit := "a.b.c"
    randomReplace := "x.y.z" }

/-- A program in which function 0 is `counter`, function 3 is a listener that
throws, function 4 is a listener that subscribes function 2, and every other
function returns `undefined`. -/
def listenerEnv : Env :=
  { body := fun id args =>
      match id, args with
      | 0, [s, a] => .ret (counter s a)
      | 3, [] => .throw (.thrown (.str "boom"))
      | 4, [] => .subscribe (.fn 2) fun _ => .ret .undefined
      | _, _ => .ret .undefined
    objectPrototype := (0, [])
    objRef := fun n => n + 1
    randomInit := "a.b.c"
    randomReplace := "x.y.z" }

/-- The action `{ type: 'INC' }`. -/
def incAction : Val := .obj 100 [("type", .str "INC")] [(0, [])]

/-- The action `{ type: 'READ' }`. -/
def readAction : Val := .obj 101 [("type", .str "READ")] [(0, [])]

/-- The action `{ type: 0 }`. -/
def zeroTypeAction : Val := .obj 102 [("type", .num 0)] [(0, [])]

/-- An idle store holding 0 whose reducer is function `f`, with no listener. -/
def idleStore (f : Nat) : Store :=
  { currentReducer := .fn f, currentState := .num 0, arrays := [[]],
    currentListeners := 0, nextListeners := 0, isDispatching := false, handles := [],
    allocated := 1, log := [] }

/-- A store caught while its reducer runs, with one live subscription of
function 2. -/
def busyStore : Store :=
  { currentReducer := .fn 0, currentState := .num 0, arrays := [[.fn 2]],
    currentListeners := 0, nextListeners := 0, isDispatching := true,
    handles := [{ listener := .fn 2, isSubscribed := true }],
    allocated := 1, log := [] }

/-- An idle store holding 0 with reducer `counter` and one live subscription
of the function `l`. -/
def storeWithListener (l : Nat) : Store :=
  { currentReducer := .fn 0, currentState := .num 0, arrays := [[.fn l]],
    currentListeners := 0, nextListeners := 0, isDispatching := false,
    handles := [{ listener := .fn l, isSubscribed := true }],
    allocated := 1, log := [] }

/-- Subscriptions of function 2, function 5 and function 2 again, followed by
a call of the unsubscribe function of the third subscription. -/
def duplicateCalls : List SubCall :=
  [.subscribe (.fn 2), .subscribe (.fn 5), .subscribe (.fn 2), .unsubscribe 2]

/-- Subscriptions of function 2 and of function 5. -/
def distinctCalls : List SubCall := [.subscribe (.fn 2), .subscribe (.fn 5)]

/-- A subscription of function 2 that is cancelled, then subscriptions of
function 2 again and of function 5. -/
def resubscribeCalls : List SubCall :=
  [.subscribe (.fn 2), .unsubscribe 0, .subscribe (.fn 2), .subscribe (.fn 5)]

/-- Subscriptions of function 2, function 5 and function 2 again, none
cancelled. -/
def repeatedCalls : List SubCall :=
  [.subscribe (.fn 2), .subscribe (.fn 5), .subscribe (.fn 2)]

/-! ## Replacing the reducer -/

/-- The action `{ type: ActionTypes.REPLACE }` that `replaceReducer` builds
when called on store `s`. -/
def replaceAction (env : Env) (s : Store) : Val :=
  .obj (env.objRef s.allocated) [("type", .str (ActionTypes.REPLACE env))] [env.objectPrototype]

/-- A listener that returns and leaves `currentState` and `currentReducer` as
they are, in whatever idle store it is called. -/
def QuietListener (env : Env) (disp : Val → Store → Outcome Val) (l : Val) : Prop :=
  ∀ s : Store, s.isDispatching = false →
    ∃ v s1, callFn env disp l [] s = .ok v s1 ∧ s1.currentState = s.currentState ∧
      s1.currentReducer = s.currentReducer

/-- A listener that leaves `currentState` as it is, in whatever idle store it
is called and whether it returns or not. -/
def SteadyListener (env : Env) (disp : Val → Store → Outcome Val) (l : Val) : Prop :=
  ∀ s : Store, s.isDispatching = false →
    (callFn env disp l [] s).store.currentState = s.currentState

/-- A reducer that calls `store.replaceReducer(counter)`, swallows the
exception and returns the state it was given. -/
def swappingReducer (state : Val) : Prog :=
  .replaceReducer (.fn 0) fun _ => .ret state

/-- A program in which function 0 is `counter` and function 8 is
`swappingReducer`. -/
def swapEnv : Env :=
  { body := fun id args =>
      match id, args with
      | 0, [s, a] => .ret (counter s a)
      | 8, [s, _] => swappingReducer s
      | _, _ => .ret .undefined
    objectPrototype := (0, [])
    objRef := fun n => n + 1
    randomInit := "a.b.c"
    randomReplace := "x.y.z" }

/-- An idle store holding 0 whose reducer is function `f`, with one live
subscription of the function `l`. -/
def storeWith (f l : Nat) : Store :=
  { currentReducer := .fn f, currentState := .num 0, arrays := [[.fn l]],
    currentListeners := 0, nextListeners := 0, isDispatching := false,
    handles := [{ listener := .fn l, isSubscribed := true }],
    allocated := 1, log := [] }

/-! ## Function composition and the middleware pipeline -/

/-- Translation of `compose(...funcs)` (bundle.js 566-576) for functions that
may have effects: a call `b(...args)` is a computation in the monad `m`, and
`(...args) => a(b(...args))` runs `b` and passes its result to `a`. -/
def compose {m : Type → Type} [Monad m] {α : Type} : List (α → m α) → α → m α
  | [] => fun arg => pure arg
  | [f] => f
  | f :: g :: rest => (g :: rest).foldl (fun a b => fun args => b args >>= a) f

/-- Right-to-left application of `fs` to `x`: the last function first. -/
def applyRightToLeft {m : Type → Type} [Monad m] {α : Type} (fs : List (α → m α)) (x : α) :
    m α :=
  fs.foldr (fun f acc => acc >>= f) (pure x)

/-- A listener that reads the state and, when it is 0, dispatches
`{ type: 'INC' }`. -/
def eagerListener : Prog :=
  .getState fun r =>
    match r with
    | .ok v =>
      if strictEq v (.num 0) then .dispatch incAction fun _ => .ret .undefined
      else .ret .undefined
    | .error _ => .ret .undefined

/-- A program in which function 0 is `counter`, function 1 is
`readingReducer` and function 6 is `eagerListener`. -/
def eagerEnv : Env :=
  { body := fun id args =>
      match id, args with
      | 0, [s, a] => .ret (counter s a)
      | 1, [s, a] => readingReducer s a
      | 6, [] => eagerListener
      | _, _ => .ret .undefined
    objectPrototype := (0, [])
    objRef := fun n => n + 1
    randomInit := "a.b.c"
    randomReplace := "x.y.z" }

/-- The number of listener calls on record. -/
def notifications (log : List Event) : Nat :=
  log.countP fun e =>
    match e with
    | .notify _ _ _ _ => true
    | _ => false

/-- A program in which function 0 is `counter`, function 1 the reducer
`(state, action) => state`, function 6 the listener `() => { throw 'boom' }`
and function 7 the listener
`() => { unsubscribe(); store.replaceReducer(f1) }`, where `unsubscribe` is
the function its own subscription returned (closure 0) and `f1` is
function 1; every other function returns `undefined`. -/
def rudeEnv : Env :=
  { body := fun id args =>
      match id, args with
      | 0, [s, a] => .ret (counter s a)
      | 1, [s, _] => .ret s
      | 6, [] => .throw (.thrown (.str "boom"))
      | 7, [] => .unsubscribe 0 fun _ => .replaceReducer (.fn 1) fun _ => .ret .undefined
      | _, _ => .ret .undefined
    objectPrototype := (0, [])
    objRef := fun n => n + 1
    randomInit := "a.b.c"
    randomReplace := "x.y.z" }

/-- An idle store holding 0 whose reducer is function `f`, with live
subscriptions of the functions `l1` and `l2`, in this order. -/
def storeWithTwo (f l1 l2 : Nat) : Store :=
  { currentReducer := .fn f, currentState := .num 0, arrays := [[.fn l1, .fn l2]],
    currentListeners := 0, nextListeners := 0, isDispatching := false,
    handles := [{ listener := .fn l1, isSubscribed := true },
      { listener := .fn l2, isSubscribed := true }],
    allocated := 1, log := [] }

/-- The store `storeWith 1 7` after `replaceReducer(counter)` in `rudeEnv`:
the listener cancelled its subscription and replaced the reducer by
function 1. -/
def swappedStore : Store :=
  { currentReducer := .fn 1, currentState := .num 0, arrays := [[.fn 7], []],
    currentListeners := 1, nextListeners := 1, isDispatching := false,
    handles := [{ listener := .fn 7, isSubscribed := false }], allocated := 3,
    log := [.reduce 2 (.fn 0) (.num 0) (.obj 2 [("type", .str "@@redux/REPLACEx.y.z")] [(0, [])]) true,
      .assign 2 (.num 0), .notify 2 (.fn 7) [] false,
      .reduce 1 (.fn 1) (.num 0) (.obj 3 [("type", .str "@@redux/REPLACEx.y.z")] [(0, [])]) true,
      .assign 1 (.num 0)] }

/-! ## Middleware -/

/-- The type of a `dispatch` function: the store's own or a wrapped one. -/
abbrev Dispatch : Type := Val → Store → Outcome Val

/-- The object `middlewareAPI` (bundle.js 604-607). -/
structure MiddlewareAPI where
  getState : Store → Outcome Val
  dispatch : Dispatch

/-- The function `next => action => ...` a middleware returns, as a function
of the API object its closure captured. -/
abbrev Handler : Type := MiddlewareAPI → Dispatch → Dispatch

/-- The body of a middleware `api => ...`: user code that may call the two
functions of the API object it is given, and returns its handler or raises. -/
inductive Middleware where
  | done (handler : Handler)
  | throw (e : Err)
  | getState (k : Except Err Val → Middleware)
  | dispatch (action : Val) (k : Except Err Val → Middleware)

/-- The function `observable` of a store (bundle.js 259-292), represented by
the two functions of the store its closure refers to. -/
structure ObservableAdapter where
  outerSubscribe : Val → Store → Outcome Nat
  getState : Store → Outcome Val

/-- A store object: the fields of the object `createStore` returns
(bundle.js 299-305). -/
structure StoreApi where
  dispatch : Dispatch
  subscribe : Val → Store → Outcome Nat
  getState : Store → Outcome Val
  replaceReducer : Val → Store → Outcome Unit
  observable : ObservableAdapter

/-- The store object returned by `createStore`, its `dispatch` running with
the call-depth budget `fuel`. -/
def storeApi (env : Env) (fuel : Nat) : StoreApi :=
  { dispatch := dispatch env fuel
    subscribe := subscribe
    getState := getState
    replaceReducer := replaceReducer env fuel
    observable := { outerSubscribe := subscribe, getState := getState } }

def msgConstructing : String :=
  "Dispatching while constructing your middleware is not allowed. " ++
  "Other middleware would not be applied to this dispatch."

/-- The function first bound to the variable `dispatch` of `applyMiddleware`
(bundle.js 597-602). -/
def placeholderDispatch : Dispatch := fun _ s => .raise (.error msgConstructing) s

/-- The object `middlewareAPI` (bundle.js 604-607); `current` is the function
the variable `dispatch` holds when `middlewareAPI.dispatch` is called. -/
def middlewareAPI (store : StoreApi) (current : Dispatch) : MiddlewareAPI :=
  { getState := store.getState
    dispatch := fun action s => current action s }

/-- A call `middleware(api)`. -/
def runSetup (api : MiddlewareAPI) : Middleware → Store → Outcome Handler
  | .done h, s => .ok h s
  | .throw e, s => .raise e s
  | .getState k, s =>
    match api.getState s with
    | .ok v s1 => runSetup api (k (.ok v)) s1
    | .raise e s1 => runSetup api (k (.error e)) s1
    | .diverge s1 => .diverge s1
  | .dispatch action k, s =>
    match api.dispatch action s with
    | .ok v s1 => runSetup api (k (.ok v)) s1
    | .raise e s1 => runSetup api (k (.error e)) s1
    | .diverge s1 => .diverge s1

/-- The expression `middlewares.map(middleware => middleware(middlewareAPI))`
(bundle.js 608): the middlewares are called in the order listed. -/
def mapSetup (api : MiddlewareAPI) : List Middleware → Store → Outcome (List Handler)
  | [], s => .ok [] s
  | m :: rest, s =>
    match runSetup api m s with
    | .ok h s1 =>
      match mapSetup api rest s1 with
      | .ok hs s2 => .ok (h :: hs) s2
      | .raise e s2 => .raise e s2
      | .diverge s2 => .diverge s2
    | .raise e s1 => .raise e s1
    | .diverge s1 => .diverge s1

/-- The function `compose(...chain)(store.dispatch)` assigned to the variable
`dispatch` (bundle.js 609), `chain` being the handlers the middlewares
returned.  Each handler holds the API object, whose `dispatch` calls the
function being defined: `depth` bounds the nesting of such calls. -/
def composedDispatch (store : StoreApi) (chain : List Handler) : Nat → Dispatch
  | 0 => fun _ s => .diverge s
  | depth + 1 =>
    compose (m := Id)
      (chain.map fun h => h (middlewareAPI store (composedDispatch store chain depth)))
      store.dispatch

/-- Result of `applyMiddleware(...middlewares)(createStore)(...args)`. -/
inductive Enhanced where
  | store (api : StoreApi) (s : Store)
  | raised (e : Err)
  | delegated (enhancer : Val) (reducer : Val) (preloadedState : Val)
  | diverged

/-- Translation of `applyMiddleware(...middlewares)(createStore)(reducer,
preloadedState, enhancer)` (bundle.js 594-616) for the bundle's own
`createStore`. -/
def applyMiddleware (env : Env) (fuel : Nat) (middlewares : List Middleware)
    (reducer preloadedState enhancer : Val) : Enhanced :=
  match createStore env fuel reducer preloadedState enhancer with
  | .raised e => .raised e
  | .delegated e r p => .delegated e r p
  | .diverged => .diverged
  | .store s =>
    let store := storeApi env fuel
    let api := middlewareAPI store placeholderDispatch
    match mapSetup api middlewares s with
    | .raise e _ => .raised e
    | .diverge _ => .diverged
    | .ok chain s1 => .store { store with dispatch := composedDispatch store chain fuel } s1

/-- Top-level calls of `d` on a list of actions in order, each made in the
store the previous one left: the outcome of every call.  Nothing follows a
call that exhausts its budget. -/
def dispatchEach (d : Dispatch) : List Val → Store → List (Outcome Val)
  | [], _ => []
  | a :: rest, s =>
    match d a s with
    | .diverge s1 => [.diverge s1]
    | .ok v s1 => .ok v s1 :: dispatchEach d rest s1
    | .raise e s1 => .raise e s1 :: dispatchEach d rest s1

/-- A handler that passes each action to `next` once, returns what `next`
returns and leaves the store to `next`: on an idle store, with the store's
`getState` in the API object and a `next` that leaves `isDispatching` as it
found it, the handler is `next`. -/
def ForwardingHandler (h : Handler) : Prop :=
  ∀ (api : MiddlewareAPI) (next : Dispatch),
    (∀ t, api.getState t = getState t) →
    (∀ a t, t.isDispatching = false → KeepsFlag t (next a t)) →
    ∀ a s, s.isDispatching = false → h api next a s = next a s

/-- A middleware without setup effects whose handler forwards. -/
def Forwarding (m : Middleware) : Prop :=
  ∃ h : Handler, m = .done h ∧ ForwardingHandler h

/-- The handler of a logging middleware: it reads the state, passes the
action on, reads the state again and returns the result of `next`. -/
def loggerHandler : Handler := fun api next action s =>
  match api.getState s with
  | .diverge s1 => .diverge s1
  | .raise e s1 => .raise e s1
  | .ok _ s1 =>
    match next action s1 with
    | .diverge s2 => .diverge s2
    | .raise e s2 => .raise e s2
    | .ok result s2 =>
      match api.getState s2 with
      | .diverge s3 => .diverge s3
      | .raise e s3 => .raise e s3
      | .ok _ s3 => .ok result s3

/-- The middleware `api => next => action => ...` with handler
`loggerHandler`. -/
def loggerMiddleware : Middleware := .done loggerHandler

/-- The action `{ type: t }` with reference `ref`. -/
def actionOf (ref : Nat) (t : String) : Val := .obj ref [("type", .str t)] [(0, [])]

/-- A handler that passes `dst` to `next` in place of an action of type
`src`, and any other action unchanged. -/
def renameHandler (src : String) (dst : Val) : Handler := fun _ next action s =>
  if strictEq (getProp action "type") (.str src) then next dst s else next action s

/-- The middleware `api => next => action => ...` with handler
`renameHandler src dst`. -/
def renameMiddleware (src : String) (dst : Val) : Middleware := .done (renameHandler src dst)

/-- A handler that, on an action of type `'TWICE'`, calls
`api.dispatch({ type: 'A' })` twice and returns the action, and passes any
other action to `next`. -/
def twiceHandler : Handler := fun api next action s =>
  if strictEq (getProp action "type") (.str "TWICE") then
    match api.dispatch (actionOf 200 "A") s with
    | .diverge s1 => .diverge s1
    | .raise e s1 => .raise e s1
    | .ok _ s1 =>
      match api.dispatch (actionOf 201 "A") s1 with
      | .diverge s2 => .diverge s2
      | .raise e s2 => .raise e s2
      | .ok _ s2 => .ok action s2
  else next action s

/-- The middleware with handler `twiceHandler`. -/
def twiceMiddleware : Middleware := .done twiceHandler

/-- A middleware that calls `api.dispatch({ type: 'INC' })` while it is set
up, and lets the exception escape. -/
def eagerMiddleware : Middleware :=
  .dispatch incAction fun r =>
    match r with
    | .ok _ => .done fun _ next => next
    | .error e => .throw e

/-- The store and the result of `dispatch(action)` after
`applyMiddleware(...middlewares)(createStore)(reducer)`. -/
def enhancedDispatchOnce (env : Env) (fuel : Nat) (middlewares : List Middleware)
    (reducer action : Val) : Option (Outcome Val) :=
  match applyMiddleware env fuel middlewares reducer .undefined .undefined with
  | .store api s => some (api.dispatch action s)
  | _ => none

/-- The store `createStore(counter)` returns in `counterEnv`: the state is 0
and the bootstrap dispatch is on record. -/
def counterStore (fuel : Nat) : Store :=
  { currentReducer := .fn 0, currentState := .num 0, arrays := [[]],
    currentListeners := 0, nextListeners := 0, isDispatching := false, handles := [],
    allocated := 1,
    log := [.reduce fuel (.fn 0) .undefined (initAction counterEnv) true, .assign fuel (.num 0)] }

/-- The value returned and the state left by a call that returned. -/
def returnedWith {α : Type} (o : Option (Outcome α)) : Option (α × Val) :=
  match o with
  | some (.ok v s) => some (v, s.currentState)
  | _ => none

/-! ## Reducer composition

Child reducers are user functions that return or raise and have no other
effect; `Calls` gives the result of each call.  The bundle's own effects while
it builds and runs a composed reducer are kept in an `Effects` record.
Property lists hold each key once, in enumeration order, so that
`Object.keys(o)` followed by `o[key]` visits the own entries in order and an
assignment to a key not yet present appends an entry. -/

/-- The result of calling function `id` on `args`. -/
abbrev Calls : Type := Nat → List Val → Except Err Val

/-- The effects of `combineReducers` and of the reducer it returns: objects
allocated, calls of `ActionTypes.PROBE_UNKNOWN_ACTION` made, messages passed
to `warning`, calls of user functions made (in order), and the own properties
of the object `unexpectedKeyCache`. -/
structure Effects where
  allocated : Nat
  probes : Nat
  warnings : List String
  calls : List (Val × List Val)
  unexpectedKeyCache : List (String × Val)

/-- Conversion to boolean in a condition. -/
def truthy : Val → Bool
  | .undefined => false
  | .null => false
  | .bool b => b
  | .num n => n != 0
  | .str s => s != ""
  | .bigint n => n != 0
  | .symbol _ => true
  | .fn _ => true
  | .obj _ _ _ => true

/-- The conversion `String(v)`: an integer below `1e+21` in magnitude and a
`BigInt` are printed in decimal digits; the conversion of any other number, of
an object, a function or a symbol is that of the ambient program and may
raise. -/
def toStr (env : Env) : Val → Except Err String
  | .undefined => .ok "undefined"
  | .null => .ok "null"
  | .bool true => .ok "true"
  | .bool false => .ok "false"
  | .num n => if n.natAbs < 10 ^ 21 then .ok (toString n) else env.stringOf (.num n)
  | .str s => .ok s
  | .bigint n => .ok (toString n)
  | v => env.stringOf v

/-- The `TypeError` raised by a property read on `undefined` or `null`, or by
`Object.keys` on them. -/
def nullAccess : Err := .thrown (.str "TypeError: undefined or null has no properties")

/-- Property read `v[key]` on any value. -/
def getPropE (env : Env) (v : Val) (key : String) : Except Err Val :=
  match v with
  | .undefined => .error nullAccess
  | .null => .error nullAccess
  | .obj _ _ _ => .ok (getProp v key)
  | _ => .ok (env.primProp v key)

/-- The own enumerable entries of a value: `Object.keys(v)` with `v[key]` for
each key.  A string has its characters at the decimal indices. -/
def ownEntries (v : Val) : Except Err (List (String × Val)) :=
  match v with
  | .undefined => .error nullAccess
  | .null => .error nullAccess
  | .obj _ fs _ => .ok fs
  | .str s => .ok (s.data.enum.map fun p => (toString p.1, Val.str (String.singleton p.2)))
  | _ => .ok []

/-- Evaluation of an object literal `{ type: t }` by the bundle. -/
def typeObject (env : Env) (w : Effects) (t : String) : Val × Effects :=
  (.obj (env.objRef w.allocated) [("type", .str t)] [env.objectPrototype],
   { w with allocated := w.allocated + 1 })

/-- Evaluation of an object literal `{}` by the bundle. -/
def emptyObject (env : Env) (w : Effects) : Val × Effects :=
  (.obj (env.objRef w.allocated) [] [env.objectPrototype],
   { w with allocated := w.allocated + 1 })

/-- A call `f(args...)` of a user function, recorded. -/
def callTraced (call : Calls) (f : Val) (args : List Val) (w : Effects) :
    Except Err Val × Effects :=
  match f with
  | .fn id => (call id args, { w with calls := w.calls ++ [(f, args)] })
  | _ => (.error notCallable, w)

/-- Translation of `warning(message)` (bundle.js 313-325). -/
def warning (message : String) (w : Effects) : Effects :=
  { w with warnings := w.warnings ++ [message] }

/-- The expression `v && v[key]`. -/
def andProp (env : Env) (v : Val) (key : String) : Except Err Val :=
  if truthy v then getPropE env v key else .ok v

/-- Translation of `getUndefinedStateErrorMessage(key, action)`
(bundle.js 327-337). -/
def getUndefinedStateErrorMessage (env : Env) (key : String) (action : Val) :
    Except Err String :=
  match andProp env action "type" with
  | .error e => .error e
  | .ok actionType =>
    let actionDescription : Except Err String :=
      if truthy actionType then
        match toStr env actionType with
        | .ok str => .ok ("action \"" ++ str ++ "\"")
        | .error e => .error e
      else .ok "an action"
    match actionDescription with
    | .error e => .error e
    | .ok description =>
      .ok ("Given " ++ description ++ ", reducer \"" ++ key ++ "\" returned undefined. " ++
        "To ignore an action, you must explicitly return the previous state. " ++
        "If you want this reducer to hold no value, you can return null instead of undefined.")

def msgNoReducer : String :=
  "Store does not have a valid reducer. Make sure the argument passed " ++
  "to combineReducers is an object whose values are reducers."

/-- The class name `{}.toString.call(v).match(/\s([a-z|A-Z]+)/)[1]`. -/
def className (env : Env) : Val → String
  | .undefined => "Undefined"
  | .null => "Null"
  | .bool _ => "Boolean"
  | .num _ => "Number"
  | .str _ => "String"
  | .symbol _ => "Symbol"
  | .bigint _ => "BigInt"
  | .fn _ => "Function"
  | v => env.classOf v

/-- The call `reducers.hasOwnProperty(key)` on the object `finalReducers`:
the built-in unless a child reducer is declared under the key
`hasOwnProperty`, which is then the function called. -/
def hasOwnProperty (call : Calls) (reducers : List (String × Val)) (key : String)
    (w : Effects) : Except Err Bool × Effects :=
  match reducers.lookup "hasOwnProperty" with
  | some f =>
    match callTraced call f [.str key] w with
    | (.ok v, w1) => (.ok (truthy v), w1)
    | (.error e, w1) => (.error e, w1)
  | none => (.ok (reducers.lookup key).isSome, w)

/-- The filter `key => !reducers.hasOwnProperty(key) && !unexpectedKeyCache[key]`
over the keys of the input state (bundle.js 367-369). -/
def unexpectedKeysOf (env : Env) (call : Calls) (reducers : List (String × Val)) :
    List String → Effects → Except Err (List String) × Effects
  | [], w => (.ok [], w)
  | key :: rest, w =>
    match hasOwnProperty call reducers key w with
    | (.error e, w1) => (.error e, w1)
    | (.ok own, w1) =>
      let keep := !own &&
        !truthy (getProp (.obj 0 w1.unexpectedKeyCache [env.objectPrototype]) key)
      match unexpectedKeysOf env call reducers rest w1 with
      | (.error e, w2) => (.error e, w2)
      | (.ok ks, w2) => (.ok (if keep then key :: ks else ks), w2)

/-- The loop `unexpectedKeys.forEach(key => { unexpectedKeyCache[key] = true })`
(bundle.js 371-373). -/
def markUnexpected (cache : List (String × Val)) : List String → List (String × Val)
  | [] => cache
  | key :: rest =>
    markUnexpected
      (if (cache.lookup key).isSome then cache.map fun p => if p.1 == key then (key, .bool true) else p
       else cache ++ [(key, .bool true)]) rest

/-- Translation of `getUnexpectedStateShapeWarningMessage(inputState, reducers,
action, unexpectedKeyCache)` (bundle.js 339-385); `none` is `undefined`. -/
def getUnexpectedStateShapeWarningMessage (env : Env) (call : Calls) (inputState : Val)
    (reducers : List (String × Val)) (action : Val) (w : Effects) :
    Except Err (Option String) × Effects :=
  let reducerKeys := reducers.map Prod.fst
  match andProp env action "type" with
  | .error e => (.error e, w)
  | .ok t =>
    let argumentName :=
      if truthy action && strictEq t (.str (ActionTypes.INIT env)) then
        "preloadedState argument passed to createStore"
      else "previous state received by the reducer"
    if reducerKeys.length = 0 then (.ok (some msgNoReducer), w)
    else if !isPlainObject inputState then
      let w1 := (emptyObject env w).2
      (.ok (some ("The " ++ argumentName ++ " has unexpected type of \"" ++
        className env inputState ++
        "\". Expected argument to be an object with the following " ++
        "keys: \"" ++ String.intercalate "\", \"" reducerKeys ++ "\"")), w1)
    else
      match ownEntries inputState with
      | .error e => (.error e, w)
      | .ok entries =>
        match unexpectedKeysOf env call reducers (entries.map Prod.fst) w with
        | (.error e, w1) => (.error e, w1)
        | (.ok unexpectedKeys, w1) =>
          let w2 : Effects := { w1 with
            unexpectedKeyCache := markUnexpected w1.unexpectedKeyCache unexpectedKeys }
          match andProp env action "type" with
          | .error e => (.error e, w2)
          | .ok t2 =>
            if truthy action && strictEq t2 (.str (ActionTypes.REPLACE env)) then (.ok none, w2)
            else if unexpectedKeys.length > 0 then
              (.ok (some ("Unexpected " ++ (if unexpectedKeys.length > 1 then "keys" else "key") ++
                " " ++ "\"" ++ String.intercalate "\", \"" unexpectedKeys ++ "\" found in " ++
                argumentName ++ ". " ++
                "Expected to find one of the known reducer keys instead: " ++
                "\"" ++ String.intercalate "\", \"" reducerKeys ++
                "\". Unexpected keys will be ignored.")), w2)
            else (.ok none, w2)

def msgInitUndefined (key : String) : String :=
  "Reducer \"" ++ key ++ "\" returned undefined during initialization. " ++
  "If the state passed to the reducer is undefined, you must " ++
  "explicitly return the initial state. The initial state may " ++
  "not be undefined. If you don\x27t want to set a value for this reducer, " ++
  "you can use null instead of undefined."

def msgProbeUndefined (env : Env) (key : String) : String :=
  "Reducer \"" ++ key ++ "\" returned undefined when probed with a random type. " ++
  "Don\x27t try to handle " ++ ActionTypes.INIT env ++ " or other actions in \"redux/*\" " ++
  "namespace. They are considered private. Instead, you must return the " ++
  "current state for any unknown actions, unless it is undefined, " ++
  "in which case you must return the initial state, regardless of the " ++
  "action type. The initial state may not be undefined, but can be null."

/-- The call `ActionTypes.PROBE_UNKNOWN_ACTION()` (bundle.js 23). -/
def ActionTypes.PROBE_UNKNOWN_ACTION (env : Env) (w : Effects) : String × Effects :=
  ("@@redux/PROBE_UNKNOWN_ACTION" ++ env.randomProbe w.probes, { w with probes := w.probes + 1 })

/-- Translation of `assertReducerShape(reducers)` (bundle.js 387-419), as a
loop over the own entries of `reducers`. -/
def assertReducerShape (env : Env) (call : Calls) :
    List (String × Val) → Effects → Except Err Unit × Effects
  | [], w => (.ok (), w)
  | (key, reducer) :: rest, w =>
    let (initAct, w1) := typeObject env w (ActionTypes.INIT env)
    match callTraced call reducer [.undefined, initAct] w1 with
    | (.error e, w2) => (.error e, w2)
    | (.ok initialState, w2) =>
      if typeOf initialState = .undefined then (.error (.error (msgInitUndefined key)), w2)
      else
        let (probeType, w3) := ActionTypes.PROBE_UNKNOWN_ACTION env w2
        let (probeAct, w4) := typeObject env w3 probeType
        match callTraced call reducer [.undefined, probeAct] w4 with
        | (.error e, w5) => (.error e, w5)
        | (.ok probed, w5) =>
          if typeOf probed = .undefined then
            (.error (.error (msgProbeUndefined env key)), w5)
          else assertReducerShape env call rest w5

/-- The variables the function `combination` closes over: the own entries of
`finalReducers` (their keys are `finalReducerKeys`) and `shapeAssertionError`,
`none` while it is `undefined`. -/
structure Combined where
  finalReducers : List (String × Val)
  shapeAssertionError : Option Err

/-- The first loop of `combineReducers` (bundle.js 440-452) over the own
entries of `reducers`: the callable entries, and the warnings given. -/
def collectReducers (env : Env) :
    List (String × Val) → List (String × Val) → Effects → List (String × Val) × Effects
  | [], final, w => (final, w)
  | (key, v) :: rest, final, w =>
    let w1 :=
      if !env.production && typeOf v = .undefined then
        warning ("No reducer provided for key \"" ++ key ++ "\"") w
      else w
    let final1 := if typeOf v = .function then final ++ [(key, v)] else final
    collectReducers env rest final1 w1

/-- Translation of `combineReducers(reducers)` (bundle.js 437-500): the
closure of the function `combination` it returns. -/
def combineReducers (env : Env) (call : Calls) (reducers : Val) (w : Effects) :
    Except Err Combined × Effects :=
  match ownEntries reducers with
  | .error e => (.error e, w)
  | .ok entries =>
    let w1 := (emptyObject env w).2
    let (finalReducers, w2) := collectReducers env entries [] w1
    let w3 : Effects :=
      if !env.production then { (emptyObject env w2).2 with unexpectedKeyCache := [] } else w2
    match assertReducerShape env call finalReducers w3 with
    | (.ok _, w4) => (.ok { finalReducers := finalReducers, shapeAssertionError := none }, w4)
    | (.error e, w4) =>
      (.ok { finalReducers := finalReducers, shapeAssertionError := some e }, w4)

/-- The condition `if (shapeAssertionError)`: an `Error` object is truthy, any
other caught value counts by its own truthiness. -/
def Combined.raises (c : Combined) : Option Err :=
  match c.shapeAssertionError with
  | some (.error msg) => some (.error msg)
  | some (.thrown v) => if truthy v then some (.thrown v) else none
  | none => none

/-- The loop of `combination` (bundle.js 486-497) over the own entries of
`finalReducers`, from the values `hasChanged` and `nextState` have. -/
def combineLoop (env : Env) (call : Calls) (state action : Val) :
    List (String × Val) → Bool → List (String × Val) → Effects →
      Except Err (Bool × List (String × Val)) × Effects
  | [], hasChanged, nextState, w => (.ok (hasChanged, nextState), w)
  | (key, reducer) :: rest, hasChanged, nextState, w =>
    match getPropE env state key with
    | .error e => (.error e, w)
    | .ok previousStateForKey =>
      match callTraced call reducer [previousStateForKey, action] w with
      | (.error e, w1) => (.error e, w1)
      | (.ok nextStateForKey, w1) =>
        if typeOf nextStateForKey = .undefined then
          match getUndefinedStateErrorMessage env key action with
          | .ok errorMessage => (.error (.error errorMessage), w1)
          | .error e => (.error e, w1)
        else
          combineLoop env call state action rest
            (hasChanged || !strictEq nextStateForKey previousStateForKey)
            (nextState ++ [(key, nextStateForKey)]) w1

/-- The diagnostic step of `combination` (bundle.js 473-483). -/
def shapeWarning (env : Env) (call : Calls) (c : Combined) (state action : Val) (w : Effects) :
    Except Err Unit × Effects :=
  if !env.production then
    match getUnexpectedStateShapeWarningMessage env call state c.finalReducers action w with
    | (.error e, w1) => (.error e, w1)
    | (.ok (some warningMessage), w1) =>
      (.ok (), if warningMessage != "" then warning warningMessage w1 else w1)
    | (.ok none, w1) => (.ok (), w1)
  else (.ok (), w)

/-- Translation of the function `combination(state = {}, action)` returned by
`combineReducers` (bundle.js 468-499). -/
def combination (env : Env) (call : Calls) (c : Combined) (state action : Val) (w : Effects) :
    Except Err Val × Effects :=
  let (state1, w1) := if typeOf state = .undefined then emptyObject env w else (state, w)
  match c.raises with
  | some e => (.error e, w1)
  | none =>
    match shapeWarning env call c state1 action w1 with
    | (.error e, w2) => (.error e, w2)
    | (.ok _, w2) =>
      let w3 := (emptyObject env w2).2
      match combineLoop env call state1 action c.finalReducers false [] w3 with
      | (.error e, w4) => (.error e, w4)
      | (.ok (hasChanged, nextState), w4) =>
        (.ok (if hasChanged then .obj (env.objRef w2.allocated) nextState [env.objectPrototype]
          else state1), w4)

/-- The program of a function that returns or raises at once. -/
def Prog.ofResult : Except Err Val → Prog
  | .ok v => .ret v
  | .error e => .throw e

/-- The effects record before anything happened. -/
def Effects.initial : Effects :=
  { allocated := 0, probes := 0, warnings := [], calls := [], unexpectedKeyCache := [] }

/-- Calls in which function 0 is `counter`, function 1 the identity reducer
`(state, action) => state`, and every other function returns `undefined`. -/
def counterCalls : Calls := fun id args =>
  match id, args with
  | 0, [s, a] => .ok (counter s a)
  | 1, [s, _] => .ok s
  | _, _ => .ok .undefined

/-- The mapping `{ count: counter }`. -/
def countReducers : Val := .obj 50 [("count", .fn 0)] [(0, [])]

/-- The state `{ count: 0 }`. -/
def countState : Val := .obj 60 [("count", .num 0)] [(0, [])]

/-- The action `{ type: 'NOOP' }`. -/
def noopAction : Val := actionOf 103 "NOOP"

/-- The closure of the reducer `combineReducers(reducers)` returns when
called before anything else happened, and the effects of that call. -/
def combinedOf (env : Env) (call : Calls) (reducers : Val) : Combined × Effects :=
  match combineReducers env call reducers Effects.initial with
  | (.ok c, w) => (c, w)
  | (.error _, w) => ({ finalReducers := [], shapeAssertionError := none }, w)

/-! ### Vocabulary for the claims on reducer composition -/

/-- The value `f` is a function that returns on every call. -/
def AlwaysReturns (call : Calls) (f : Val) : Prop :=
  ∃ id, f = .fn id ∧ ∀ args, ∃ v, call id args = .ok v

/-- The callable entries of a property list. -/
def callableEntries (entries : List (String × Val)) : List (String × Val) :=
  entries.filter fun p => typeOf p.2 = .function

/-- The value `m[k](s[k], a)` for the entry `p = (k, m[k])`. -/
def childValue (env : Env) (call : Calls) (state action : Val) (p : String × Val) :
    Except Err Val :=
  match getPropE env state p.1 with
  | .error e => .error e
  | .ok prev =>
    match p.2 with
    | .fn id => call id [prev, action]
    | _ => .error notCallable

/-- The child of entry `p` returns a defined value for `(s[k], a)`. -/
def ReturnsDefined (env : Env) (call : Calls) (state action : Val) (p : String × Val) : Prop :=
  ∃ v, childValue env call state action p = .ok v ∧ typeOf v ≠ .undefined

/-- The child of entry `p` returns for `(s[k], a)` a value identical to
`s[k]`. -/
def Unchanged (env : Env) (call : Calls) (state action : Val) (p : String × Val) : Prop :=
  ∃ prev v, getPropE env state p.1 = .ok prev ∧ childValue env call state action p = .ok v ∧
    strictEq v prev = true

/-- The action object `{ type: t }` allocated as the `n`-th object. -/
def typeActionAt (env : Env) (n : Nat) (t : String) : Val :=
  .obj (env.objRef n) [("type", .str t)] [env.objectPrototype]

/-- The function `f` returns a defined value for an undefined state and the
bootstrap action, and for an undefined state and a probe action. -/
def PassesProbes (env : Env) (call : Calls) (f : Val) : Prop :=
  ∃ id, f = .fn id ∧
    (∀ n, ∃ v, call id [.undefined, typeActionAt env n (ActionTypes.INIT env)] = .ok v ∧
      typeOf v ≠ .undefined) ∧
    (∀ n k, ∃ v, call id [.undefined,
        typeActionAt env n ("@@redux/PROBE_UNKNOWN_ACTION" ++ env.randomProbe k)] = .ok v ∧
      typeOf v ≠ .undefined)

/-- The function `f` returns `undefined` for an undefined state and the
bootstrap action. -/
def FailsInit (env : Env) (call : Calls) (f : Val) : Prop :=
  ∃ id, f = .fn id ∧
    ∀ n, call id [.undefined, typeActionAt env n (ActionTypes.INIT env)] = .ok .undefined

/-- The function `f` returns a defined value for an undefined state and the
bootstrap action, and `undefined` for an undefined state and a probe action. -/
def FailsRandom (env : Env) (call : Calls) (f : Val) : Prop :=
  ∃ id, f = .fn id ∧
    (∀ n, ∃ v, call id [.undefined, typeActionAt env n (ActionTypes.INIT env)] = .ok v ∧
      typeOf v ≠ .undefined) ∧
    (∀ n k, call id [.undefined,
        typeActionAt env n ("@@redux/PROBE_UNKNOWN_ACTION" ++ env.randomProbe k)] =
      .ok .undefined)

/-- The reducer `(state = 0, action) => action.type === 0 ? undefined : state`. -/
def forgetful (state action : Val) : Val :=
  if strictEq (getProp action "type") (.num 0) then .undefined
  else if strictEq state .undefined then .num 0 else state

/-- The reducer `(state, action) => action.type === ActionTypes.INIT ? 0 : state`
of a program that handles the bootstrap action by name. -/
def initOnly (state action : Val) : Val :=
  if strictEq (getProp action "type") (.str (ActionTypes.INIT counterEnv)) then .num 0 else state

/-- Calls in which function 0 is `counter`, function 1 the identity reducer,
function 2 is `forgetful`, function 3 is `initOnly` and every other function
returns `undefined`. -/
def exampleCalls : Calls := fun id args =>
  match id, args with
  | 0, [s, a] => .ok (counter s a)
  | 1, [s, _] => .ok s
  | 2, [s, a] => .ok (forgetful s a)
  | 3, [s, a] => .ok (initOnly s a)
  | _, _ => .ok .undefined

/-- The value of the parameter `state` of `combination` once its default
`{}` has been applied. -/
def defaulted (env : Env) (state : Val) (w : Effects) : Val :=
  (if typeOf state = .undefined then emptyObject env w else (state, w)).1

/-- The reference of an object value; 0 for any other value. -/
def refOf : Val → Nat
  | .obj ref _ _ => ref
  | _ => 0

/-- The effects in which a call of a composed reducer starts in the example
programs, whose `n`-th object has reference `n + 1`: those in which
`combineReducers` returned, with the count of allocated objects moved up to
the reference of the state passed, so that an object allocated by the call
differs from the state and from the objects allocated to build it. -/
def Effects.resumed (w : Effects) (state : Val) : Effects :=
  { w with allocated := max w.allocated (refOf state) }

/-- A program in which function 9 is the reducer
`combineReducers({ count: counter })`. -/
def combinedEnv : Env :=
  { body := fun id args =>
      match id, args with
      | 9, [s, a] =>
        Prog.ofResult (combination counterEnv exampleCalls
          (combinedOf counterEnv exampleCalls countReducers).1 s a
          ((combinedOf counterEnv exampleCalls countReducers).2.resumed s)).1
      | _, _ => .ret .undefined
    objectPrototype := (0, [])
    objRef := fun n => n + 1
    randomInit := "a.b.c"
    randomReplace := "x.y.z" }

/-- The mapping `{ count: forgetful }`. -/
def forgetReducers : Val := .obj 52 [("count", .fn 2)] [(0, [])]

/-- The message of `getUndefinedStateErrorMessage` for a description of the
action. -/
def undefinedStateMessage (actionDescription key : String) : String :=
  "Given " ++ actionDescription ++ ", reducer \"" ++ key ++ "\" returned undefined. " ++
  "To ignore an action, you must explicitly return the previous state. " ++
  "If you want this reducer to hold no value, you can return null instead of undefined."

/-- The effects once the default of the parameter `state` has been applied. -/
def defaultedEffects (env : Env) (state : Val) (w : Effects) : Effects :=
  (if typeOf state = .undefined then emptyObject env w else (state, w)).2

/-- The description of the action in the message of
`getUndefinedStateErrorMessage`, for the value `t` of `action && action.type`. -/
def actionDescriptionOf (env : Env) (t : Val) : Except Err String :=
  if truthy t then
    match toStr env t with
    | .ok str => .ok ("action \"" ++ str ++ "\"")
    | .error e => .error e
  else .ok "an action"

/-- The mapping `{ a: counter, b: (state, action) => state }`. -/
def identityReducers : Val := .obj 53 [("a", .fn 0), ("b", .fn 1)] [(0, [])]

/-- The mapping `{ a: counter, b: initOnly }`. -/
def initOnlyReducers : Val := .obj 54 [("a", .fn 0), ("b", .fn 3)] [(0, [])]

/-- A program in which function 9 is the reducer `combineReducers(reducers)`. -/
def combinedEnvOf (reducers : Val) : Env :=
  { body := fun id args =>
      match id, args with
      | 9, [s, a] =>
        Prog.ofResult (combination counterEnv exampleCalls
          (combinedOf counterEnv exampleCalls reducers).1 s a
          ((combinedOf counterEnv exampleCalls reducers).2.resumed s)).1
      | _, _ => .ret .undefined
    objectPrototype := (0, [])
    objRef := fun n => n + 1
    randomInit := "a.b.c"
    randomReplace := "x.y.z" }

/-- The action passes the test `action && action.type === ActionTypes.REPLACE`. -/
def IsReplace (env : Env) (action : Val) : Prop :=
  ∃ t, andProp env action "type" = .ok t ∧ truthy action = true ∧
    strictEq t (.str (ActionTypes.REPLACE env)) = true

/-- The action `{ type: ActionTypes.REPLACE }` of `counterEnv`. -/
def replaceExample : Val := actionOf 106 (ActionTypes.REPLACE counterEnv)

/-- The mapping `{}`. -/
def noReducers : Val := .obj 55 [] [(0, [])]

/-- The state `{ count: 0, extra: 7 }`, with a key no reducer is declared for. -/
def extraState : Val := .obj 61 [("count", .num 0), ("extra", .num 7)] [(0, [])]

/-- The diagnostic step of `combination` returns for this state and action. -/
def DiagnosticsReturn (env : Env) (call : Calls) (c : Combined) (state action : Val)
    (w : Effects) : Prop :=
  (shapeWarning env call c (defaulted env state w) action (defaultedEffects env state w)).1 =
    .ok ()

/-- Calls in which function 4 is
`function (state, action) { if (arguments.length < 2) throw 'arity'; return 0 }`,
function 5 is
`(state = 0, action) => typeof action.type === 'object' ? undefined : state`,
and the other functions are those of `exampleCalls`. -/
def guardedCalls : Calls := fun id args =>
  match id, args with
  | 4, [_, _] => .ok (.num 0)
  | 4, _ => .error (.thrown (.str "arity"))
  | 5, [s, a] =>
    .ok (if typeOf (getProp a "type") = .object then .undefined
      else if strictEq s .undefined then .num 0 else s)
  | _, _ => exampleCalls id args

/-- The mapping `{ hasOwnProperty: f4, count: forgetful }`, with `f4` the
function 4 of `guardedCalls`. -/
def guardReducers : Val := .obj 56 [("hasOwnProperty", .fn 4), ("count", .fn 2)] [(0, [])]

/-- The state `{ hasOwnProperty: h, count: 0 }`. -/
def guardState (h : Int) : Val :=
  .obj 62 [("hasOwnProperty", .num h), ("count", .num 0)] [(0, [])]

/-- The mapping `{ count: f5 }`, with `f5` the function 5 of `guardedCalls`. -/
def objectTypeReducers : Val := .obj 57 [("count", .fn 5)] [(0, [])]

/-- The mapping `{ count: forgetful, other: forgetful }`. -/
def twoForgetReducers : Val := .obj 58 [("count", .fn 2), ("other", .fn 2)] [(0, [])]

/-- The state `{ a: 0, b: 1 }`. -/
def pairState : Val := .obj 63 [("a", .num 0), ("b", .num 1)] [(0, [])]

/-- The error `String` raises for an object that has neither `toString` nor
`valueOf`. -/
def notPrimitive : Err := .thrown (.str "TypeError: Cannot convert object to primitive value")

/-- The program `counterEnv` with the conversion `String(v)` of objects: it
raises for an object without properties and without prototype, such as
`Object.create(null)`. -/
def bareEnv : Env :=
  { counterEnv with
    stringOf := fun v =>
      match v with
      | .obj _ [] [] => .error notPrimitive
      | _ => .ok "[object Object]" }

/-- The action `{ type: Object.create(null) }`. -/
def bareTypeAction : Val := .obj 108 [("type", .obj 109 [] [])] [(0, [])]

/-- The listener `() => { if (store.getState().count === 0) store.dispatch({ type: 'INC' }) }`. -/
def countListener : Prog :=
  .getState fun r =>
    match r with
    | .ok v =>
      if strictEq (getProp v "count") (.num 0) then .dispatch incAction fun _ => .ret .undefined
      else .ret .undefined
    | .error _ => .ret .undefined

/-- The program `combinedEnv` in which function 6 is `countListener`. -/
def listeningEnv : Env :=
  { combinedEnv with
    body := fun id args =>
      match id, args with
      | 6, [] => countListener
      | _, _ => combinedEnv.body id args }

/-- An idle store holding `{ count: 0 }` whose reducer is function 9 and whose
one listener is function `l`. -/
def countStore (l : Nat) : Store :=
  { currentReducer := .fn 9, currentState := countState, arrays := [[.fn l]],
    currentListeners := 0, nextListeners := 0, isDispatching := false,
    handles := [{ listener := .fn l, isSubscribed := true }],
    allocated := 1, log := [] }

/-! ## Binding action creators -/

/-- A function created by `bindActionCreator`, represented by what a call of
it with the given arguments does. -/
abbrev Bound : Type := List Val → Store → Outcome Val

/-- Translation of `bindActionCreator(actionCreator, dispatch)`
(bundle.js 502-506).  The action creator is a user function that returns or
raises and has no other effect. -/
def bindActionCreator (call : Calls) (actionCreator : Val) (dispatch : Dispatch) : Bound :=
  fun args s =>
    match actionCreator with
    | .fn id =>
      match call id args with
      | .ok action => dispatch action s
      | .error e => .raise e s
    | _ => .raise notCallable s

/-- The string a `typeof` expression evaluates to. -/
def JsType.name : JsType → String
  | .undefined => "undefined"
  | .object => "object"
  | .boolean => "boolean"
  | .number => "number"
  | .string => "string"
  | .function => "function"
  | .symbol => "symbol"
  | .bigint => "bigint"

/-- The message of the error `bindActionCreators` raises (bundle.js 535-541). -/
def msgBind (actionCreators : Val) : String :=
  "bindActionCreators expected an object or a function, instead received " ++
  (if strictEq actionCreators .null then "null" else (typeOf actionCreators).name) ++ ". " ++
  "Did you write \"import ActionCreators from\" instead of " ++
  "\"import * as ActionCreators from\"?"

/-- What `bindActionCreators` returns: a bound function, or the object
`boundActionCreators` with its reference and its own properties. -/
inductive BoundCreators where
  | function (g : Bound)
  | mapping (ref : Nat) (fields : List (String × Bound))

/-- The loop of `bindActionCreators` (bundle.js 545-551) over the own entries
of `actionCreators`. -/
def bindEntries (call : Calls) (dispatch : Dispatch) :
    List (String × Val) → List (String × Bound) → List (String × Bound)
  | [], bound => bound
  | (key, actionCreator) :: rest, bound =>
    bindEntries call dispatch rest
      (if typeOf actionCreator = .function then
        bound ++ [(key, bindActionCreator call actionCreator dispatch)]
       else bound)

/-- Translation of `bindActionCreators(actionCreators, dispatch)`
(bundle.js 529-553); `allocated` is the number of objects allocated so far. -/
def bindActionCreators (env : Env) (call : Calls) (allocated : Nat) (actionCreators : Val)
    (dispatch : Dispatch) : Except Err BoundCreators :=
  if typeOf actionCreators = .function then
    .ok (.function (bindActionCreator call actionCreators dispatch))
  else if typeOf actionCreators ≠ .object || strictEq actionCreators .null then
    .error (.error (msgBind actionCreators))
  else
    match ownEntries actionCreators with
    | .error e => .error e
    | .ok entries => .ok (.mapping (env.objRef allocated) (bindEntries call dispatch entries []))

/-- Calls in which function 0 is the action creator `() => ({ type: 'INC' })`,
function 1 is `t => ({ type: t })` on strings, and every other function
raises. -/
def creatorCalls : Calls := fun id args =>
  match id, args with
  | 0, _ => .ok incAction
  | 1, [.str t] => .ok (actionOf 400 t)
  | _, _ => .error (.thrown (.str "boom"))

/-- The mapping `{ inc: creator 0, n: 3, named: creator 1 }`. -/
def creators : Val := .obj 70 [("inc", .fn 0), ("n", .num 3), ("named", .fn 1)] [(0, [])]

/-- The outcome of calling the function bound under `key` with `args`. -/
def callBound (b : Except Err BoundCreators) (key : String) (args : List Val) (s : Store) :
    Option (Outcome Val) :=
  match b with
  | .ok (.mapping _ fields) =>
    match fields.lookup key with
    | some g => some (g args s)
    | none => none
  | .ok (.function g) => some (g args s)
  | .error _ => none

/-! ## Reachable stores -/

/-- The stores an execution can pass through: the store `createStore`
returns, and every store obtained from one of them by an elementary update
of `dispatch` or `replaceReducer` or by a `subscribe` or unsubscribe call that
returns.  The stores a callback sees, and the stores the top-level
operations end in, are among these. -/
inductive Reachable (env : Env) : Store → Prop
  | create (fuel : Nat) (reducer preloadedState enhancer : Val) (s : Store) :
      createStore env fuel reducer preloadedState enhancer = .store s → Reachable env s
  | log (s : Store) (e : Event) : Reachable env s → Reachable env { s with log := s.log ++ [e] }
  | flag (s : Store) (b : Bool) : Reachable env s → Reachable env { s with isDispatching := b }
  | state (s : Store) (v : Val) : Reachable env s → Reachable env { s with currentState := v }
  | reducer (s : Store) (r : Val) : Reachable env s →
      Reachable env { s with currentReducer := r }
  | alloc (s : Store) : Reachable env s → Reachable env { s with allocated := s.allocated + 1 }
  | promote (s : Store) : Reachable env s →
      Reachable env { s with currentListeners := s.nextListeners }
  | subscribe (s s1 : Store) (l : Val) (h : Nat) : Redux.subscribe l s = .ok h s1 →
      Reachable env s → Reachable env s1
  | unsubscribe (s s1 : Store) (h : Nat) : Redux.unsubscribe h s = .ok () s1 →
      Reachable env s → Reachable env s1

/-- The number of entries of `arr` identical to `l`. -/
def occurrences (l : Val) (arr : List Val) : Nat := arr.countP fun x => strictEq x l

/-- The store `createStore(counter)` returns, after `subscribe(f2)`,
`subscribe(f5)` and `subscribe(f2)`. -/
def threeSubscriptions : Store :=
  applyCalls [.subscribe (.fn 2), .subscribe (.fn 5), .subscribe (.fn 2)] (counterStore 1)

/-! ## Theorems -/

/-! ### Values and the elementary operations -/

@[simp]
theorem typeOf_undefined : typeOf .undefined = .undefined := rfl
@[simp]
theorem typeOf_null : typeOf .null = .object := rfl
@[simp]
theorem typeOf_fn (id : Nat) : typeOf (.fn id) = .function := rfl
@[simp]
theorem typeOf_obj (r : Nat) (fs : List (String × Val))
    (ps : List (Nat × List (String × Val))) : typeOf (.obj r fs ps) = .object := rfl
@[simp]
theorem typeOf_str (x : String) : typeOf (.str x) = .string := rfl
@[simp]
theorem typeOf_num (x : Int) : typeOf (.num x) = .number := rfl
@[simp]
theorem typeOf_bool (x : Bool) : typeOf (.bool x) = .boolean := rfl

theorem getState_store (s : Store) : (getState s).store = s := by
  unfold getState; split <;> rfl

theorem subscribe_raise {l : Val} {s s1 : Store} {e : Err}
    (h : subscribe l s = .raise e s1) : s1 = s := by
  unfold subscribe at h
  split at h
  · injection h with _ h2; exact h2.symm
  · split at h
    · injection h with _ h2; exact h2.symm
    · simp at h

theorem subscribe_diverge {l : Val} {s s1 : Store} : subscribe l s ≠ .diverge s1 := by
  unfold subscribe
  split
  · simp
  · split <;> simp

theorem unsubscribe_raise {h : Nat} {s s1 : Store} {e : Err}
    (hu : unsubscribe h s = .raise e s1) : s1 = s := by
  unfold unsubscribe at hu
  split at hu
  · injection hu with _ h2; exact h2.symm
  · split at hu
    · simp at hu
    · split at hu
      · injection hu with _ h2; exact h2.symm
      · simp at hu

theorem unsubscribe_diverge {h : Nat} {s s1 : Store} : unsubscribe h s ≠ .diverge s1 := by
  unfold unsubscribe
  split
  · simp
  · split
    · simp
    · split <;> simp

/-- The store after a successful `subscribe`. -/
theorem subscribe_ok {l : Val} {s s1 : Store} {h : Nat} (hs : subscribe l s = .ok h s1) :
    typeOf l = .function ∧ s.isDispatching = false ∧ h = s.handles.length ∧
    s1 = { ensureCanMutateNextListeners
            { s with handles := s.handles ++ [{ listener := l, isSubscribed := true }] } with
           arrays :=
            (ensureCanMutateNextListeners
              { s with handles := s.handles ++ [{ listener := l, isSubscribed := true }] }).arrays.set
              (ensureCanMutateNextListeners
                { s with handles := s.handles ++ [{ listener := l, isSubscribed := true }] }).nextListeners
              ((ensureCanMutateNextListeners
                { s with handles := s.handles ++ [{ listener := l, isSubscribed := true }] }).array
                (ensureCanMutateNextListeners
                  { s with handles := s.handles ++ [{ listener := l, isSubscribed := true }] }).nextListeners
                ++ [l]) } := by
  unfold subscribe at hs
  split at hs
  · simp at hs
  · split at hs
    · simp at hs
    · rename_i h1 h2
      injection hs with h3 h4
      exact ⟨by simpa using h1, by simpa using h2, h3.symm, h4.symm⟩

/-- The store after an effective `unsubscribe`. -/
theorem unsubscribe_ok {h : Nat} {s s1 : Store} (hs : unsubscribe h s = .ok () s1) :
    ∃ c, s.handles.get? h = some c ∧
      ((c.isSubscribed = false ∧ s1 = s) ∨
       (c.isSubscribed = true ∧ s.isDispatching = false ∧
        s1 = { ensureCanMutateNextListeners
                { s with handles := s.handles.set h { c with isSubscribed := false } } with
               arrays :=
                (ensureCanMutateNextListeners
                  { s with handles := s.handles.set h { c with isSubscribed := false } }).arrays.set
                  (ensureCanMutateNextListeners
                    { s with handles := s.handles.set h { c with isSubscribed := false } }).nextListeners
                  (splice
                    ((ensureCanMutateNextListeners
                      { s with handles := s.handles.set h { c with isSubscribed := false } }).array
                      (ensureCanMutateNextListeners
                        { s with handles := s.handles.set h { c with isSubscribed := false } }).nextListeners)
                    (indexOf
                      ((ensureCanMutateNextListeners
                        { s with handles := s.handles.set h { c with isSubscribed := false } }).array
                        (ensureCanMutateNextListeners
                          { s with handles := s.handles.set h { c with isSubscribed := false } }).nextListeners)
                      c.listener) 1) })) := by
  unfold unsubscribe at hs
  split at hs
  · simp at hs
  · rename_i c hc
    refine ⟨c, hc, ?_⟩
    split at hs
    · rename_i h1
      injection hs with _ h4
      exact Or.inl ⟨by simpa using h1, h4.symm⟩
    · split at hs
      · simp at hs
      · rename_i h1 h2
        injection hs with _ h4
        exact Or.inr ⟨by simpa using h1, by simpa using h2, h4.symm⟩

@[simp]
theorem ensure_log (s : Store) : (ensureCanMutateNextListeners s).log = s.log := by
  unfold ensureCanMutateNextListeners; split <;> rfl

@[simp]
theorem ensure_isDispatching (s : Store) :
    (ensureCanMutateNextListeners s).isDispatching = s.isDispatching := by
  unfold ensureCanMutateNextListeners; split <;> rfl

@[simp]
theorem ensure_currentState (s : Store) :
    (ensureCanMutateNextListeners s).currentState = s.currentState := by
  unfold ensureCanMutateNextListeners; split <;> rfl

@[simp]
theorem ensure_currentReducer (s : Store) :
    (ensureCanMutateNextListeners s).currentReducer = s.currentReducer := by
  unfold ensureCanMutateNextListeners; split <;> rfl

@[simp]
theorem ensure_allocated (s : Store) :
    (ensureCanMutateNextListeners s).allocated = s.allocated := by
  unfold ensureCanMutateNextListeners; split <;> rfl

@[simp]
theorem ensure_handles (s : Store) :
    (ensureCanMutateNextListeners s).handles = s.handles := by
  unfold ensureCanMutateNextListeners; split <;> rfl

@[simp]
theorem ensure_currentListeners (s : Store) :
    (ensureCanMutateNextListeners s).currentListeners = s.currentListeners := by
  unfold ensureCanMutateNextListeners; split <;> rfl

theorem subscribe_ok_log {l : Val} {s s1 : Store} {h : Nat} (hs : subscribe l s = .ok h s1) :
    s1.log = s.log := by
  obtain ⟨_, _, _, rfl⟩ := subscribe_ok hs
  simp

theorem unsubscribe_ok_log {h : Nat} {s s1 : Store} (hs : unsubscribe h s = .ok () s1) :
    s1.log = s.log := by
  obtain ⟨c, _, h1 | h1⟩ := unsubscribe_ok hs
  · rw [h1.2]
  · obtain ⟨_, _, rfl⟩ := h1
    simp

/-! ### The branches of `dispatch` -/

theorem dispatchBody_accepted (env : Env) (disp : Val → Store → Outcome Val) (level : Nat)
    (a : Val) (s : Store) (ha : ValidAction a) (hidle : s.isDispatching = false) :
    dispatchBody env disp level a s =
      afterReducer env disp level a
        (callFn env disp s.currentReducer [s.currentState, a] (reducerEntry level a s)) := by
  obtain ⟨ha1, ha2⟩ := ha
  simp only [dispatchBody, ha1, ha2, hidle, reducerEntry]
  simp only [Bool.not_true, Bool.false_eq_true, if_false]
  cases callFn env disp s.currentReducer [s.currentState, a]
      { s with isDispatching := true,
               log := s.log ++ [.reduce level s.currentReducer s.currentState a true] } <;> rfl

theorem dispatchBody_not_plain (env : Env) (disp : Val → Store → Outcome Val) (level : Nat)
    (a : Val) (s : Store) (ha : isPlainObject a = false) :
    dispatchBody env disp level a s = .raise (.error msgPlain) s := by
  simp [dispatchBody, ha]

theorem dispatchBody_no_type (env : Env) (disp : Val → Store → Outcome Val) (level : Nat)
    (a : Val) (s : Store) (ha : isPlainObject a = true)
    (ht : typeOf (getProp a "type") = .undefined) :
    dispatchBody env disp level a s = .raise (.error msgType) s := by
  simp [dispatchBody, ha, ht]

theorem dispatchBody_dispatching (env : Env) (disp : Val → Store → Outcome Val) (level : Nat)
    (a : Val) (s : Store) (ha : ValidAction a) (hd : s.isDispatching = true) :
    dispatchBody env disp level a s = .raise (.error msgDispatch) s := by
  obtain ⟨ha1, ha2⟩ := ha
  simp [dispatchBody, ha1, ha2, hd]

/-- Whatever the action, `dispatch` on a store that is dispatching leaves the
store as it is. -/
theorem dispatchBody_dispatching_store (env : Env) (disp : Val → Store → Outcome Val)
    (level : Nat) (a : Val) (s : Store) (hd : s.isDispatching = true) :
    ∃ e, dispatchBody env disp level a s = .raise e s := by
  unfold dispatchBody
  split
  · exact ⟨_, rfl⟩
  · split
    · exact ⟨_, rfl⟩
    · simp [hd]

/-! ### `isDispatching` across the operations -/

theorem getState_keepsFlag (s : Store) : KeepsFlag s (getState s) := by
  unfold getState; split <;> rfl

theorem subscribe_keepsFlag (l : Val) (s : Store) : KeepsFlag s (subscribe l s) := by
  cases h : subscribe l s with
  | ok v s1 =>
    obtain ⟨_, _, _, rfl⟩ := subscribe_ok h
    simp [KeepsFlag]
  | raise e s1 => rw [subscribe_raise h]; rfl
  | diverge s1 => trivial

theorem unsubscribe_keepsFlag (h : Nat) (s : Store) : KeepsFlag s (unsubscribe h s) := by
  cases hu : unsubscribe h s with
  | ok v s1 =>
    obtain ⟨c, _, h1 | h1⟩ := unsubscribe_ok hu
    · rw [h1.2]; rfl
    · obtain ⟨_, _, rfl⟩ := h1
      simp [KeepsFlag]
  | raise e s1 => rw [unsubscribe_raise hu]; rfl
  | diverge s1 => trivial

theorem replaceReducerWith_keepsFlag (env : Env) (disp : Val → Store → Outcome Val)
    (hd : ∀ a s, KeepsFlag s (disp a s)) (r : Val) (s : Store) :
    KeepsFlag s (replaceReducerWith env disp r s) := by
  unfold replaceReducerWith
  split
  · rfl
  · simp only [typeLiteral]
    have h2 := hd (.obj (env.objRef s.allocated) [("type", .str (ActionTypes.REPLACE env))]
      [env.objectPrototype]) { s with currentReducer := r, allocated := s.allocated + 1 }
    revert h2
    cases disp _ _ <;> exact id

theorem keepsFlag_trans {β : Type} {s s1 : Store} {o : Outcome β}
    (h1 : s1.isDispatching = s.isDispatching) (h2 : KeepsFlag s1 o) : KeepsFlag s o := by
  cases o with
  | ok v s2 => exact Eq.trans h2 h1
  | raise e s2 => exact Eq.trans h2 h1
  | diverge s2 => trivial

theorem run_keepsFlag (env : Env) (disp : Val → Store → Outcome Val)
    (hd : ∀ a s, KeepsFlag s (disp a s)) (p : Prog) :
    ∀ s, KeepsFlag s (run env disp p s) := by
  induction p with
  | ret v => intro s; rfl
  | throw e => intro s; rfl
  | getState k ih =>
    intro s
    have h1 := getState_keepsFlag s
    unfold run
    cases h : getState s with
    | ok v s1 => rw [h] at h1; exact keepsFlag_trans h1 (ih _ _)
    | raise e s1 => rw [h] at h1; exact keepsFlag_trans h1 (ih _ _)
    | diverge s1 => trivial
  | dispatch a k ih =>
    intro s
    have h1 := hd a s
    unfold run
    cases h : disp a s with
    | ok v s1 => rw [h] at h1; exact keepsFlag_trans h1 (ih _ _)
    | raise e s1 => rw [h] at h1; exact keepsFlag_trans h1 (ih _ _)
    | diverge s1 => trivial
  | subscribe l k ih =>
    intro s
    have h1 := subscribe_keepsFlag l s
    unfold run
    cases h : subscribe l s with
    | ok v s1 => rw [h] at h1; exact keepsFlag_trans h1 (ih _ _)
    | raise e s1 => rw [h] at h1; exact keepsFlag_trans h1 (ih _ _)
    | diverge s1 => trivial
  | unsubscribe u k ih =>
    intro s
    have h1 := unsubscribe_keepsFlag u s
    unfold run
    cases h : unsubscribe u s with
    | ok v s1 => rw [h] at h1; exact keepsFlag_trans h1 (ih _ _)
    | raise e s1 => rw [h] at h1; exact keepsFlag_trans h1 (ih _ _)
    | diverge s1 => trivial
  | replaceReducer r k ih =>
    intro s
    have h1 := replaceReducerWith_keepsFlag env disp hd r s
    unfold run
    cases h : replaceReducerWith env disp r s with
    | ok v s1 => rw [h] at h1; exact keepsFlag_trans h1 (ih _ _)
    | raise e s1 => rw [h] at h1; exact keepsFlag_trans h1 (ih _ _)
    | diverge s1 => trivial

theorem callFn_keepsFlag (env : Env) (disp : Val → Store → Outcome Val)
    (hd : ∀ a s, KeepsFlag s (disp a s)) (f : Val) (args : List Val) (s : Store) :
    KeepsFlag s (callFn env disp f args s) := by
  unfold callFn
  split
  · exact run_keepsFlag env disp hd _ s
  · rfl

theorem notifyListeners_keepsFlag (env : Env) (disp : Val → Store → Outcome Val)
    (hd : ∀ a s, KeepsFlag s (disp a s)) (level ls gas : Nat) :
    ∀ (i : Nat) (s : Store), KeepsFlag s (notifyListeners env disp level ls gas i s) := by
  induction gas with
  | zero => intro i s; trivial
  | succ g ih =>
    intro i s
    unfold notifyListeners
    split
    · have h1 := callFn_keepsFlag env disp hd ((s.array ls).getD i .undefined) []
        { s with log := s.log ++ [.notify level ((s.array ls).getD i .undefined) []
            s.isDispatching] }
      simp only []
      cases h : callFn env disp ((s.array ls).getD i .undefined) []
        { s with log := s.log ++ [.notify level ((s.array ls).getD i .undefined) []
            s.isDispatching] } with
      | ok v s2 => rw [h] at h1; exact keepsFlag_trans h1 (ih _ _)
      | raise e s2 => rw [h] at h1; exact h1
      | diverge s2 => trivial
    · rfl

theorem afterReducer_idle (env : Env) (disp : Val → Store → Outcome Val)
    (hd : ∀ a s, KeepsFlag s (disp a s)) (level : Nat) (a : Val) (o : Outcome Val) :
    ∀ s : Store, s.isDispatching = false → KeepsFlag s (afterReducer env disp level a o) := by
  intro s hs
  cases o with
  | diverge s2 => trivial
  | raise e s2 => exact hs.symm
  | ok v s2 =>
    have h5 := notifyListeners_keepsFlag env disp hd level s2.nextListeners level 0
      (notifyEntry level v s2)
    simp only [afterReducer]
    revert h5
    cases notifyListeners env disp level s2.nextListeners level 0 (notifyEntry level v s2) with
    | ok u s5 => intro h5; exact Eq.trans h5 hs.symm
    | raise e s5 => intro h5; exact Eq.trans h5 hs.symm
    | diverge s5 => intro _; trivial

theorem dispatchBody_keepsFlag (env : Env) (disp : Val → Store → Outcome Val)
    (hd : ∀ a s, KeepsFlag s (disp a s)) (level : Nat) (a : Val) (s : Store) :
    KeepsFlag s (dispatchBody env disp level a s) := by
  by_cases h1 : isPlainObject a = true
  · by_cases h2 : typeOf (getProp a "type") = .undefined
    · rw [dispatchBody_no_type env disp level a s h1 h2]; rfl
    · cases h3 : s.isDispatching with
      | true => rw [dispatchBody_dispatching env disp level a s ⟨h1, h2⟩ h3]; rfl
      | false =>
        rw [dispatchBody_accepted env disp level a s ⟨h1, h2⟩ h3]
        exact afterReducer_idle env disp hd level a
          (callFn env disp s.currentReducer [s.currentState, a] (reducerEntry level a s)) s h3
  · rw [dispatchBody_not_plain env disp level a s (by simpa using h1)]; rfl

/-- Whenever `dispatch` returns or raises, `isDispatching` is what it was. -/
theorem dispatch_keepsFlag (env : Env) (fuel : Nat) :
    ∀ (a : Val) (s : Store), KeepsFlag s (dispatch env fuel a s) := by
  induction fuel with
  | zero => intro a s; trivial
  | succ m ih => intro a s; exact dispatchBody_keepsFlag env (dispatch env m) ih (m + 1) a s

/-! ### Preservation of stable predicates -/

theorem replaceReducerWith_stable {n : Nat} {P : Store → Prop} (env : Env)
    (disp : Val → Store → Outcome Val) (hP : Stable n P)
    (hd : ∀ a s, P s → P (disp a s).store) (r : Val) (s : Store) (hs : P s) :
    P (replaceReducerWith env disp r s).store := by
  unfold replaceReducerWith
  split
  · exact hs
  · simp only [typeLiteral]
    have h2 := hd (.obj (env.objRef s.allocated) [("type", .str (ActionTypes.REPLACE env))]
      [env.objectPrototype]) _ (hP.alloc _ (hP.reducer s r hs))
    revert h2
    cases disp _ _ <;> exact id

theorem run_stable {n : Nat} {P : Store → Prop} (env : Env)
    (disp : Val → Store → Outcome Val) (hP : Stable n P)
    (hd : ∀ a s, P s → P (disp a s).store) (p : Prog) :
    ∀ s, P s → P (run env disp p s).store := by
  induction p with
  | ret v => intro s hs; exact hs
  | throw e => intro s hs; exact hs
  | getState k ih =>
    intro s hs
    have h1 := getState_store s
    unfold run
    cases h : getState s with
    | ok v s1 => rw [h] at h1; exact ih _ _ (by rw [show s1 = s from h1]; exact hs)
    | raise e s1 => rw [h] at h1; exact ih _ _ (by rw [show s1 = s from h1]; exact hs)
    | diverge s1 => rw [h] at h1; rw [show s1 = s from h1]; exact hs
  | dispatch a k ih =>
    intro s hs
    have h1 := hd a s hs
    unfold run
    cases h : disp a s with
    | ok v s1 => rw [h] at h1; exact ih _ _ h1
    | raise e s1 => rw [h] at h1; exact ih _ _ h1
    | diverge s1 => rw [h] at h1; exact h1
  | subscribe l k ih =>
    intro s hs
    unfold run
    cases h : subscribe l s with
    | ok v s1 => exact ih _ _ (hP.subscribe s s1 l v h hs)
    | raise e s1 => exact ih _ _ (by rw [subscribe_raise h]; exact hs)
    | diverge s1 => exact absurd h subscribe_diverge
  | unsubscribe u k ih =>
    intro s hs
    unfold run
    cases h : unsubscribe u s with
    | ok v s1 => exact ih _ _ (hP.unsubscribe s s1 u h hs)
    | raise e s1 => exact ih _ _ (by rw [unsubscribe_raise h]; exact hs)
    | diverge s1 => exact absurd h unsubscribe_diverge
  | replaceReducer r k ih =>
    intro s hs
    have h1 := replaceReducerWith_stable env disp hP hd r s hs
    unfold run
    cases h : replaceReducerWith env disp r s with
    | ok v s1 => rw [h] at h1; exact ih _ _ h1
    | raise e s1 => rw [h] at h1; exact ih _ _ h1
    | diverge s1 => rw [h] at h1; exact h1

theorem callFn_stable {n : Nat} {P : Store → Prop} (env : Env)
    (disp : Val → Store → Outcome Val) (hP : Stable n P)
    (hd : ∀ a s, P s → P (disp a s).store) (f : Val) (args : List Val) (s : Store)
    (hs : P s) : P (callFn env disp f args s).store := by
  unfold callFn
  split
  · exact run_stable env disp hP hd _ s hs
  · exact hs

theorem notifyListeners_stable {n : Nat} {P : Store → Prop} (env : Env)
    (disp : Val → Store → Outcome Val) (hP : Stable n P)
    (hd : ∀ a s, P s → P (disp a s).store) (hk : ∀ a s, KeepsFlag s (disp a s))
    (level : Nat) (hl : level ≤ n) (ls : Nat)
    (gas : Nat) : ∀ (i : Nat) (s : Store), s.isDispatching = false → P s →
      P (notifyListeners env disp level ls gas i s).store := by
  induction gas with
  | zero => intro i s _ hs; exact hs
  | succ g ih =>
    intro i s hidle hs
    unfold notifyListeners
    split
    · have h1 := callFn_stable env disp hP hd ((s.array ls).getD i .undefined) []
        { s with log := s.log ++ [.notify level ((s.array ls).getD i .undefined) []
            s.isDispatching] }
        (hP.log s _ ⟨hl, rfl, hidle⟩ hs)
      have h2 := callFn_keepsFlag env disp hk ((s.array ls).getD i .undefined) []
        { s with log := s.log ++ [.notify level ((s.array ls).getD i .undefined) []
            s.isDispatching] }
      simp only []
      cases h : callFn env disp ((s.array ls).getD i .undefined) []
        { s with log := s.log ++ [.notify level ((s.array ls).getD i .undefined) []
            s.isDispatching] } with
      | ok v s2 =>
        rw [h] at h1 h2
        exact ih _ _ (Eq.trans h2 hidle) h1
      | raise e s2 => rw [h] at h1; exact h1
      | diverge s2 => rw [h] at h1; exact h1
    · exact hs

theorem afterReducer_stable {n : Nat} {P : Store → Prop} (env : Env)
    (disp : Val → Store → Outcome Val) (hP : Stable n P)
    (hd : ∀ a s, P s → P (disp a s).store) (hk : ∀ a s, KeepsFlag s (disp a s))
    (level : Nat) (hl : level ≤ n) (a : Val)
    (o : Outcome Val) (ho : P o.store) : P (afterReducer env disp level a o).store := by
  cases o with
  | diverge s2 => exact ho
  | raise e s2 => exact hP.flag s2 false ho
  | ok v s2 =>
    have h4 : P (notifyEntry level v s2) :=
      hP.promote { s2 with currentState := v, isDispatching := false,
                           log := s2.log ++ [.assign level v] }
        (hP.log { s2 with currentState := v, isDispatching := false } _ hl
          (hP.flag { s2 with currentState := v } false (hP.state s2 v ho)))
    have h5 := notifyListeners_stable env disp hP hd hk level hl s2.nextListeners level 0 _
      rfl h4
    simp only [afterReducer]
    revert h5
    cases notifyListeners env disp level s2.nextListeners level 0 (notifyEntry level v s2) <;>
      exact id

/-- Once the reducer has been entered, the rest of `dispatch` keeps a stable
predicate. -/
theorem dispatchBody_entry_stable {n : Nat} {P : Store → Prop} (env : Env)
    (disp : Val → Store → Outcome Val) (hP : Stable n P)
    (hd : ∀ a s, P s → P (disp a s).store) (hk : ∀ a s, KeepsFlag s (disp a s))
    (level : Nat) (hl : level ≤ n) (a : Val)
    (s : Store) (ha : ValidAction a) (hidle : s.isDispatching = false)
    (hs : P (reducerEntry level a s)) : P (dispatchBody env disp level a s).store := by
  rw [dispatchBody_accepted env disp level a s ha hidle]
  exact afterReducer_stable env disp hP hd hk level hl a _
    (callFn_stable env disp hP hd _ _ _ hs)

theorem dispatchBody_stable {n : Nat} {P : Store → Prop} (env : Env)
    (disp : Val → Store → Outcome Val) (hP : Stable n P)
    (hd : ∀ a s, P s → P (disp a s).store) (hk : ∀ a s, KeepsFlag s (disp a s))
    (level : Nat) (hl : level ≤ n) (a : Val)
    (s : Store) (hs : P s) : P (dispatchBody env disp level a s).store := by
  by_cases h1 : isPlainObject a = true
  · by_cases h2 : typeOf (getProp a "type") = .undefined
    · rw [dispatchBody_no_type env disp level a s h1 h2]; exact hs
    · cases h3 : s.isDispatching with
      | true => rw [dispatchBody_dispatching env disp level a s ⟨h1, h2⟩ h3]; exact hs
      | false =>
        exact dispatchBody_entry_stable env disp hP hd hk level hl a s ⟨h1, h2⟩ h3
          (hP.log { s with isDispatching := true } _ ⟨hl, rfl⟩ (hP.flag s true hs))
  · rw [dispatchBody_not_plain env disp level a s (by simpa using h1)]; exact hs

theorem dispatch_stable {n : Nat} {P : Store → Prop} (env : Env) (hP : Stable n P)
    (fuel : Nat) : fuel ≤ n → ∀ (a : Val) (s : Store), P s → P (dispatch env fuel a s).store := by
  induction fuel with
  | zero => intro _ a s hs; exact hs
  | succ m ih =>
    intro hm a s hs
    exact dispatchBody_stable env (dispatch env m) hP (ih (by omega)) (dispatch_keepsFlag env m)
      (m + 1) hm a s hs

/-- The record of events only grows. -/
theorem stable_logPrefix (n : Nat) (l0 : List Event) :
    Stable n (fun s => ∃ t, s.log = l0 ++ t) where
  log := by
    rintro s e _ ⟨t, ht⟩
    exact ⟨t ++ [e], by simp [ht]⟩
  flag := fun _ _ h => h
  state := fun _ _ h => h
  reducer := fun _ _ h => h
  alloc := fun _ h => h
  promote := fun _ h => h
  subscribe := by
    rintro s s1 l h hs ⟨t, ht⟩
    exact ⟨t, by rw [subscribe_ok_log hs, ht]⟩
  unsubscribe := by
    rintro s s1 h hs ⟨t, ht⟩
    exact ⟨t, by rw [unsubscribe_ok_log hs, ht]⟩

/-- A valid action dispatched to an idle store reaches the reducer: the call
is recorded right after the events already recorded. -/
theorem dispatch_records_reduce (env : Env) (n : Nat) (a : Val) (s : Store) (ha : ValidAction a)
    (hidle : s.isDispatching = false) :
    ∃ t, (dispatch env (n + 1) a s).store.log =
      s.log ++ .reduce (n + 1) s.currentReducer s.currentState a true :: t := by
  have hP := stable_logPrefix (n + 1)
    (s.log ++ [.reduce (n + 1) s.currentReducer s.currentState a true])
  obtain ⟨t, ht⟩ := dispatchBody_entry_stable env (dispatch env n) hP
    (fun a s hs => dispatch_stable env hP n (by omega) a s hs) (dispatch_keepsFlag env n)
    (n + 1) (le_refl _) a s ha hidle
    ⟨[], by simp [reducerEntry]⟩
  exact ⟨t, by simpa [dispatch] using ht⟩

theorem store_log_ne {s : Store} {s1 : Store} {e : Event} {t : List Event}
    (h : s1.log = s.log ++ e :: t) : s1 ≠ s := by
  intro heq
  rw [heq] at h
  have := congrArg List.length h
  simp at this

/-! ### The array being iterated is never written -/

/-- A write to the listener array, as `subscribe` and `unsubscribe` perform
it, does not touch a frozen array. -/
theorem frozen_write (L : Nat) (A : List Val) (s : Store) (f : List Val → List Val)
    (h : Frozen L A s) :
    Frozen L A
      { ensureCanMutateNextListeners s with
        arrays := (ensureCanMutateNextListeners s).arrays.set
          (ensureCanMutateNextListeners s).nextListeners
          (f ((ensureCanMutateNextListeners s).array
            (ensureCanMutateNextListeners s).nextListeners)) } := by
  obtain ⟨h1, h2, h3⟩ := h
  unfold ensureCanMutateNextListeners
  by_cases hc : s.nextListeners = s.currentListeners
  · simp only [hc, if_true]
    refine ⟨by simp; omega, ?_, ?_⟩
    · intro hL
      simp at hL
      omega
    · simp only [Store.array] at h3 ⊢
      rw [← h3]
      simp only [List.getD_eq_getElem?_getD]
      rw [List.getElem?_set_ne (by omega), List.getElem?_append_left h1]
  · simp only [hc, if_false]
    have hne : s.nextListeners ≠ L := fun hL => hc (by rw [h2 hL, hL])
    refine ⟨by simpa using h1, fun hL => absurd hL hne, ?_⟩
    simp only [Store.array] at h3 ⊢
    rw [← h3]
    simp only [List.getD_eq_getElem?_getD]
    rw [List.getElem?_set_ne hne]

theorem stable_frozen (n L : Nat) (A : List Val) : Stable n (Frozen L A) where
  log := fun _ _ _ h => h
  flag := fun _ _ h => h
  state := fun _ _ h => h
  reducer := fun _ _ h => h
  alloc := fun _ h => h
  promote := fun _ h => ⟨h.1, fun hL => hL, h.2.2⟩
  subscribe := by
    intro s s1 l h hs hF
    obtain ⟨_, _, _, rfl⟩ := subscribe_ok hs
    exact frozen_write L A
      { s with handles := s.handles ++ [{ listener := l, isSubscribed := true }] }
      (fun arr => arr ++ [l]) hF
  unsubscribe := by
    intro s s1 h hs hF
    obtain ⟨c, _, h1 | h1⟩ := unsubscribe_ok hs
    · rw [h1.2]; exact hF
    · obtain ⟨_, _, rfl⟩ := h1
      exact frozen_write L A
        { s with handles := s.handles.set h { c with isSubscribed := false } }
        (fun arr => splice arr (indexOf arr c.listener) 1) hF

theorem eventsAt_append (m : Nat) (l1 l2 : List Event) :
    eventsAt m (l1 ++ l2) = eventsAt m l1 ++ eventsAt m l2 := by
  simp [eventsAt]

theorem eventsAt_emitted {n m : Nat} (hm : n < m) {e : Event} (he : e.Emitted n) :
    eventsAt m [e] = [] := by
  have hl : e.level ≤ n := by
    cases e with
    | reduce l r st a d => exact he.1
    | assign l v => exact he
    | notify l f args d => exact he.1
  have : e.level ≠ m := by omega
  simp [eventsAt, this]

/-- Calls of depth at most `n` record nothing at a level above `n`. -/
theorem stable_eventsAt (n m : Nat) (hm : n < m) (E : List Event) :
    Stable n (fun s => eventsAt m s.log = E) where
  log := by
    intro s e he h
    show eventsAt m (s.log ++ [e]) = E
    rw [eventsAt_append, eventsAt_emitted hm he, List.append_nil]
    exact h
  flag := fun _ _ h => h
  state := fun _ _ h => h
  reducer := fun _ _ h => h
  alloc := fun _ h => h
  promote := fun _ h => h
  subscribe := by
    intro s s1 l h hs hE
    show eventsAt m s1.log = E
    rw [subscribe_ok_log hs]; exact hE
  unsubscribe := by
    intro s s1 h hs hE
    show eventsAt m s1.log = E
    rw [unsubscribe_ok_log hs]; exact hE

/-- Every recorded call was entered with the right value of `isDispatching`. -/
theorem stable_flagOk (n : Nat) : Stable n (fun s => ∀ e ∈ s.log, e.FlagOk) where
  log := by
    intro s e he h e1 he1
    simp only [List.mem_append, List.mem_singleton] at he1
    rcases he1 with he1 | rfl
    · exact h e1 he1
    · cases e1 with
      | reduce l r st a d => exact he.2
      | assign l v => trivial
      | notify l f args d => exact he.2.2
  flag := fun _ _ h => h
  state := fun _ _ h => h
  reducer := fun _ _ h => h
  alloc := fun _ h => h
  promote := fun _ h => h
  subscribe := by
    intro s s1 l h hs hE
    show ∀ e ∈ s1.log, e.FlagOk
    rw [subscribe_ok_log hs]; exact hE
  unsubscribe := by
    intro s s1 h hs hE
    show ∀ e ∈ s1.log, e.FlagOk
    rw [unsubscribe_ok_log hs]; exact hE

/-! ### What a running reducer can do to the store -/

theorem sameButReducer_refl (s : Store) : SameButReducer s s :=
  ⟨rfl, rfl, rfl, rfl, rfl, rfl, rfl⟩

theorem sameButReducer_trans {s s1 s2 : Store} (h1 : SameButReducer s s1)
    (h2 : SameButReducer s1 s2) : SameButReducer s s2 := by
  obtain ⟨a1, a2, a3, a4, a5, a6, a7⟩ := h1
  obtain ⟨b1, b2, b3, b4, b5, b6, b7⟩ := h2
  exact ⟨b1.trans a1, b2.trans a2, b3.trans a3, b4.trans a4, b5.trans a5, b6.trans a6,
    b7.trans a7⟩

theorem dispatch_busy (env : Env) (fuel : Nat) (a : Val) (s : Store)
    (hb : s.isDispatching = true) : (dispatch env fuel a s).store = s := by
  cases fuel with
  | zero => rfl
  | succ n =>
    obtain ⟨e, he⟩ := dispatchBody_dispatching_store env (dispatch env n) (n + 1) a s hb
    show (dispatchBody env (dispatch env n) (n + 1) a s).store = s
    rw [he]; rfl

theorem subscribe_busy (l : Val) (s : Store) (hb : s.isDispatching = true) :
    (subscribe l s).store = s := by
  cases h : subscribe l s with
  | ok v s1 =>
    obtain ⟨_, hidle, _, _⟩ := subscribe_ok h
    rw [hb] at hidle; exact absurd hidle (by simp)
  | raise e s1 => exact subscribe_raise h
  | diverge s1 => exact absurd h subscribe_diverge

theorem unsubscribe_busy (h : Nat) (s : Store) (hb : s.isDispatching = true) :
    (unsubscribe h s).store = s := by
  cases hu : unsubscribe h s with
  | ok v s1 =>
    obtain ⟨c, _, h1 | h1⟩ := unsubscribe_ok hu
    · exact h1.2
    · obtain ⟨_, hidle, _⟩ := h1
      rw [hb] at hidle; exact absurd hidle (by simp)
  | raise e s1 => exact unsubscribe_raise hu
  | diverge s1 => exact absurd hu unsubscribe_diverge

theorem replaceReducerWith_busy (env : Env) (disp : Val → Store → Outcome Val)
    (hd : ∀ a s, s.isDispatching = true → (disp a s).store = s) (r : Val) (s : Store)
    (hb : s.isDispatching = true) :
    SameButReducer s (replaceReducerWith env disp r s).store := by
  unfold replaceReducerWith
  split
  · exact sameButReducer_refl s
  · simp only [typeLiteral]
    have h2 := hd (.obj (env.objRef s.allocated) [("type", .str (ActionTypes.REPLACE env))]
      [env.objectPrototype]) { s with currentReducer := r, allocated := s.allocated + 1 } hb
    have h3 : SameButReducer s
        (disp (.obj (env.objRef s.allocated) [("type", .str (ActionTypes.REPLACE env))]
          [env.objectPrototype])
          { s with currentReducer := r, allocated := s.allocated + 1 }).store := by
      rw [h2]; exact ⟨rfl, rfl, rfl, rfl, rfl, rfl, rfl⟩
    revert h3
    cases disp _ _ <;> exact id

/-- While `isDispatching` is set, user code can change nothing in the store
but `currentReducer`. -/
theorem run_busy (env : Env) (disp : Val → Store → Outcome Val)
    (hd : ∀ a s, s.isDispatching = true → (disp a s).store = s) (p : Prog) :
    ∀ s, s.isDispatching = true → SameButReducer s (run env disp p s).store := by
  induction p with
  | ret v => intro s _; exact sameButReducer_refl s
  | throw e => intro s _; exact sameButReducer_refl s
  | getState k ih =>
    intro s hb
    have h1 := getState_store s
    unfold run
    cases h : getState s with
    | ok v s1 => rw [h] at h1; rw [show s1 = s from h1]; exact ih _ _ hb
    | raise e s1 => rw [h] at h1; rw [show s1 = s from h1]; exact ih _ _ hb
    | diverge s1 => rw [h] at h1; rw [show s1 = s from h1]; exact sameButReducer_refl s
  | dispatch a k ih =>
    intro s hb
    have h1 := hd a s hb
    unfold run
    cases h : disp a s with
    | ok v s1 => rw [h] at h1; rw [show s1 = s from h1]; exact ih _ _ hb
    | raise e s1 => rw [h] at h1; rw [show s1 = s from h1]; exact ih _ _ hb
    | diverge s1 => rw [h] at h1; rw [show s1 = s from h1]; exact sameButReducer_refl s
  | subscribe l k ih =>
    intro s hb
    have h1 := subscribe_busy l s hb
    unfold run
    cases h : subscribe l s with
    | ok v s1 => rw [h] at h1; rw [show s1 = s from h1]; exact ih _ _ hb
    | raise e s1 => rw [h] at h1; rw [show s1 = s from h1]; exact ih _ _ hb
    | diverge s1 => rw [h] at h1; rw [show s1 = s from h1]; exact sameButReducer_refl s
  | unsubscribe u k ih =>
    intro s hb
    have h1 := unsubscribe_busy u s hb
    unfold run
    cases h : unsubscribe u s with
    | ok v s1 => rw [h] at h1; rw [show s1 = s from h1]; exact ih _ _ hb
    | raise e s1 => rw [h] at h1; rw [show s1 = s from h1]; exact ih _ _ hb
    | diverge s1 => rw [h] at h1; rw [show s1 = s from h1]; exact sameButReducer_refl s
  | replaceReducer r k ih =>
    intro s hb
    have h1 := replaceReducerWith_busy env disp hd r s hb
    unfold run
    cases h : replaceReducerWith env disp r s with
    | ok v s1 =>
      rw [h] at h1
      exact sameButReducer_trans h1 (ih _ _ (h1.2.2.2.2.1.trans hb))
    | raise e s1 =>
      rw [h] at h1
      exact sameButReducer_trans h1 (ih _ _ (h1.2.2.2.2.1.trans hb))
    | diverge s1 => rw [h] at h1; exact h1

theorem callFn_busy (env : Env) (n : Nat) (f : Val) (args : List Val) (s : Store)
    (hb : s.isDispatching = true) :
    SameButReducer s (callFn env (dispatch env n) f args s).store := by
  unfold callFn
  split
  · exact run_busy env _ (fun a s hs => dispatch_busy env n a s hs) _ s hb
  · exact sameButReducer_refl s

/-! ### The notification pass -/

theorem eventsAt_self (m : Nat) (e : Event) (he : e.level = m) : eventsAt m [e] = [e] := by
  simp [eventsAt, he]

/-- A notification pass that returns has called exactly the entries of the
array it iterates, from index `i` on, and that array is still what it was. -/
theorem notifyListeners_events (env : Env) (n L : Nat) (A : List Val) (gas : Nat) :
    ∀ (i : Nat) (s : Store) (u : Unit) (s1 : Store), Frozen L A s → s.isDispatching = false →
      notifyListeners env (dispatch env n) (n + 1) L gas i s = .ok u s1 →
      eventsAt (n + 1) s1.log = eventsAt (n + 1) s.log ++ notifyEvents (n + 1) (A.drop i) ∧
      Frozen L A s1 ∧ s1.isDispatching = false := by
  induction gas with
  | zero => intro i s u s1 _ _ h; simp [notifyListeners] at h
  | succ g ih =>
    intro i s u s1 hF hidle h
    have hA : s.array L = A := hF.2.2
    unfold notifyListeners at h
    rw [hA] at h
    by_cases hi : i < A.length
    · simp only [hi, if_true] at h
      have hP1 := stable_frozen n L A
      have hP2 := stable_eventsAt n (n + 1) (Nat.lt_succ_self n)
        (eventsAt (n + 1) (s.log ++ [.notify (n + 1) (A.getD i .undefined) [] s.isDispatching]))
      have hd1 : ∀ a s, Frozen L A s → Frozen L A (dispatch env n a s).store :=
        fun a s hs => dispatch_stable env hP1 n (le_refl _) a s hs
      have hd2 := fun a s hs => dispatch_stable env hP2 n (le_refl _) a s hs
      have c1 := callFn_stable env (dispatch env n) hP1 hd1 (A.getD i .undefined) []
        { s with log := s.log ++ [.notify (n + 1) (A.getD i .undefined) [] s.isDispatching] } hF
      have c2 := callFn_stable env (dispatch env n) hP2 hd2 (A.getD i .undefined) []
        { s with log := s.log ++ [.notify (n + 1) (A.getD i .undefined) [] s.isDispatching] } rfl
      have c3 := callFn_keepsFlag env (dispatch env n) (dispatch_keepsFlag env n)
        (A.getD i .undefined) []
        { s with log := s.log ++ [.notify (n + 1) (A.getD i .undefined) [] s.isDispatching] }
      cases hc : callFn env (dispatch env n) (A.getD i .undefined) []
        { s with log := s.log ++ [.notify (n + 1) (A.getD i .undefined) [] s.isDispatching] } with
      | ok v s2 =>
        rw [hc] at h c1 c2 c3
        obtain ⟨e1, e2, e3⟩ := ih (i + 1) s2 u s1 c1 (Eq.trans c3 hidle) h
        refine ⟨?_, e2, e3⟩
        rw [e1]
        have c2' : eventsAt (n + 1) s2.log = eventsAt (n + 1)
            (s.log ++ [.notify (n + 1) (A.getD i .undefined) [] s.isDispatching]) := c2
        rw [c2', eventsAt_append, eventsAt_self (n + 1)
          (Event.notify (n + 1) (A.getD i .undefined) [] s.isDispatching) rfl, hidle,
          List.append_assoc]
        congr 1
        simp only [notifyEvents]
        rw [List.drop_eq_getElem_cons hi, List.map_cons, List.getD_eq_getElem?_getD,
          List.getElem?_eq_getElem hi]
        rfl
      | raise e s2 => rw [hc] at h; simp at h
      | diverge s2 => rw [hc] at h; simp at h
    · simp only [hi, if_false] at h
      injection h with _ h
      subst h
      refine ⟨?_, hF, hidle⟩
      rw [List.drop_eq_nil_of_le (by omega)]
      simp [notifyEvents]

/-- With listeners that return and enough fuel for the length of the array,
the notification pass returns. -/
theorem notifyListeners_returns (env : Env) (n L : Nat) (A : List Val)
    (hret : ∀ l ∈ A, ∀ s : Store, s.isDispatching = false →
      (callFn env (dispatch env n) l [] s).Returned) (gas : Nat) :
    ∀ (i : Nat) (s : Store), Frozen L A s → s.isDispatching = false → i ≤ A.length →
      A.length < gas + i →
      (notifyListeners env (dispatch env n) (n + 1) L gas i s).Returned := by
  induction gas with
  | zero => intro i s _ _ h1 h2; omega
  | succ g ih =>
    intro i s hF hidle hi hg
    have hA : s.array L = A := hF.2.2
    unfold notifyListeners
    rw [hA]
    by_cases hlt : i < A.length
    · simp only [hlt, if_true]
      have hmem : A.getD i .undefined ∈ A := by
        rw [List.getD_eq_getElem?_getD, List.getElem?_eq_getElem hlt]
        exact List.getElem_mem hlt
      have hP1 := stable_frozen n L A
      have hd1 : ∀ a s, Frozen L A s → Frozen L A (dispatch env n a s).store :=
        fun a s hs => dispatch_stable env hP1 n (le_refl _) a s hs
      have c0 := hret _ hmem
        { s with log := s.log ++ [.notify (n + 1) (A.getD i .undefined) [] s.isDispatching] } hidle
      have c1 := callFn_stable env (dispatch env n) hP1 hd1 (A.getD i .undefined) []
        { s with log := s.log ++ [.notify (n + 1) (A.getD i .undefined) [] s.isDispatching] } hF
      have c3 := callFn_keepsFlag env (dispatch env n) (dispatch_keepsFlag env n)
        (A.getD i .undefined) []
        { s with log := s.log ++ [.notify (n + 1) (A.getD i .undefined) [] s.isDispatching] }
      cases hc : callFn env (dispatch env n) (A.getD i .undefined) []
        { s with log := s.log ++ [.notify (n + 1) (A.getD i .undefined) [] s.isDispatching] } with
      | ok v s2 =>
        rw [hc] at c1 c3
        exact ih (i + 1) s2 c1 (Eq.trans c3 hidle) hlt (by omega)
      | raise e s2 => rw [hc] at c0; exact absurd c0 (by simp [Outcome.Returned])
      | diverge s2 => rw [hc] at c0; exact absurd c0 (by simp [Outcome.Returned])
    · simp only [hlt, if_false]
      trivial

/-! ### One `dispatch` call, seen through the record -/

theorem notifyEntry_frozen {a : Val} (level : Nat) (w : Val) (s s2 : Store)
    (hb : SameButReducer (reducerEntry level a s) s2)
    (hwf : s.nextListeners < s.arrays.length) :
    Frozen s2.nextListeners (s.array s.nextListeners) (notifyEntry level w s2) := by
  obtain ⟨_, b2, _, b4, _, _, _⟩ := hb
  refine ⟨?_, fun _ => rfl, ?_⟩
  · show s2.nextListeners < s2.arrays.length
    rw [b2, b4]; exact hwf
  · show s2.arrays.getD s2.nextListeners [] = s.arrays.getD s.nextListeners []
    rw [b2, b4]; rfl

/-- A `dispatch` call that returns: the reducer returned some `w`, and at the
level of the call the record gained the reducer call, the replacement of the
state by `w` and one call of each entry of the listener array as it stood when
the call began, in order; that array was not written. -/
theorem dispatch_returned_events (env : Env) (n : Nat) (a : Val) (s : Store)
    (ha : ValidAction a) (hidle : s.isDispatching = false)
    (hwf : s.nextListeners < s.arrays.length) (v : Val) (s1 : Store)
    (h : dispatch env (n + 1) a s = .ok v s1) :
    ∃ w s2, callFn env (dispatch env n) s.currentReducer [s.currentState, a]
        (reducerEntry (n + 1) a s) = .ok w s2 ∧
      eventsAt (n + 1) s1.log = eventsAt (n + 1) s.log ++
        [.reduce (n + 1) s.currentReducer s.currentState a true, .assign (n + 1) w] ++
        notifyEvents (n + 1) (s.array s.nextListeners) ∧
      s1.array s.nextListeners = s.array s.nextListeners ∧ s1.isDispatching = false := by
  have h0 : dispatchBody env (dispatch env n) (n + 1) a s = .ok v s1 := h
  rw [dispatchBody_accepted env _ _ a s ha hidle] at h0
  have hb := callFn_busy env n s.currentReducer [s.currentState, a] (reducerEntry (n + 1) a s) rfl
  cases hc : callFn env (dispatch env n) s.currentReducer [s.currentState, a]
      (reducerEntry (n + 1) a s) with
  | diverge s2 => rw [hc] at h0; simp [afterReducer] at h0
  | raise e s2 => rw [hc] at h0; simp [afterReducer] at h0
  | ok w s2 =>
    rw [hc] at h0 hb
    refine ⟨w, s2, rfl, ?_⟩
    simp only [afterReducer] at h0
    have hb' : SameButReducer (reducerEntry (n + 1) a s) s2 := hb
    have hF := notifyEntry_frozen (n + 1) w s s2 hb' hwf
    cases hn : notifyListeners env (dispatch env n) (n + 1) s2.nextListeners (n + 1) 0
        (notifyEntry (n + 1) w s2) with
    | raise e s5 => rw [hn] at h0; simp at h0
    | diverge s5 => rw [hn] at h0; simp at h0
    | ok u s5 =>
      rw [hn] at h0
      injection h0 with _ h5
      subst h5
      obtain ⟨e1, e2, e3⟩ := notifyListeners_events env n s2.nextListeners
        (s.array s.nextListeners) (n + 1) 0 (notifyEntry (n + 1) w s2) u s5 hF rfl hn
      obtain ⟨_, _, _, b4, _, _, b7⟩ := hb'
      have b4' : s2.nextListeners = s.nextListeners := b4
      refine ⟨?_, ?_, e3⟩
      · rw [e1]
        have hl : (notifyEntry (n + 1) w s2).log =
            s.log ++ [.reduce (n + 1) s.currentReducer s.currentState a true] ++
              [.assign (n + 1) w] := by
          show s2.log ++ [.assign (n + 1) w] = _
          rw [b7]; rfl
        rw [hl, eventsAt_append, eventsAt_append,
          eventsAt_self (n + 1) (.reduce (n + 1) s.currentReducer s.currentState a true) rfl,
          eventsAt_self (n + 1) (.assign (n + 1) w) rfl]
        simp
      · have e4 := e2.2.2
        rw [b4'] at e4
        exact e4

/-- With a reducer call that returns, listeners that return and fuel above
the number of listeners, `dispatch` returns. -/
theorem dispatch_returns (env : Env) (n : Nat) (a : Val) (s : Store)
    (ha : ValidAction a) (hidle : s.isDispatching = false)
    (hwf : s.nextListeners < s.arrays.length) (w : Val) (s2 : Store)
    (hred : callFn env (dispatch env n) s.currentReducer [s.currentState, a]
        (reducerEntry (n + 1) a s) = .ok w s2)
    (hret : ∀ l ∈ s.array s.nextListeners, ∀ s3 : Store, s3.isDispatching = false →
      (callFn env (dispatch env n) l [] s3).Returned)
    (hlen : (s.array s.nextListeners).length ≤ n) :
    (dispatch env (n + 1) a s).Returned := by
  show (dispatchBody env (dispatch env n) (n + 1) a s).Returned
  rw [dispatchBody_accepted env _ _ a s ha hidle, hred]
  have hb := callFn_busy env n s.currentReducer [s.currentState, a] (reducerEntry (n + 1) a s) rfl
  rw [hred] at hb
  have hF := notifyEntry_frozen (n + 1) w s s2 hb hwf
  have hr := notifyListeners_returns env n s2.nextListeners (s.array s.nextListeners) hret
    (n + 1) 0 (notifyEntry (n + 1) w s2) hF rfl (Nat.zero_le _) (by omega)
  simp only [afterReducer]
  revert hr
  cases notifyListeners env (dispatch env n) (n + 1) s2.nextListeners (n + 1) 0
      (notifyEntry (n + 1) w s2) <;> simp [Outcome.Returned]

/-- A `dispatch` call whose reducer raises: the exception reaches the caller,
`isDispatching` is cleared, and nothing else changed but the record of the
reducer call; no state replacement and no listener call is recorded. -/
theorem dispatch_reducer_raises (env : Env) (n : Nat) (a : Val) (s : Store)
    (ha : ValidAction a) (hidle : s.isDispatching = false) (e : Err) (s2 : Store)
    (hred : callFn env (dispatch env n) s.currentReducer [s.currentState, a]
        (reducerEntry (n + 1) a s) = .raise e s2) :
    dispatch env (n + 1) a s = .raise e { s2 with isDispatching := false } ∧
    s2.currentState = s.currentState ∧
    s2.log = s.log ++ [.reduce (n + 1) s.currentReducer s.currentState a true] ∧
    s2.arrays = s.arrays ∧ s2.nextListeners = s.nextListeners ∧
    s2.currentListeners = s.currentListeners ∧ s2.handles = s.handles := by
  have hb := callFn_busy env n s.currentReducer [s.currentState, a] (reducerEntry (n + 1) a s) rfl
  rw [hred] at hb
  obtain ⟨b1, b2, b3, b4, _, b6, b7⟩ := hb
  refine ⟨?_, b1, b7, b2, b4, b3, b6⟩
  show dispatchBody env (dispatch env n) (n + 1) a s = _
  rw [dispatchBody_accepted env _ _ a s ha hidle, hred]
  rfl

/-! ### The listener registry -/

theorem strictEq_fn {y : Val} {id : Nat} (h : strictEq y (.fn id) = true) : y = .fn id := by
  cases y <;> simp [strictEq] at h
  rw [h]

theorem strictEq_fn_self (id : Nat) : strictEq (.fn id) (.fn id) = true := by
  simp [strictEq]

theorem eq_fn_of_typeOf {x : Val} (h : typeOf x = .function) : ∃ id, x = .fn id := by
  cases x <;> simp [typeOf] at h
  exact ⟨_, rfl⟩

/-- Where `indexOf` finds a function value, and what `splice` then removes. -/
theorem indexOfFrom_mem (id : Nat) (arr : List Val) :
    ∀ i : Nat, Val.fn id ∈ arr →
      ∃ pre post, arr = pre ++ .fn id :: post ∧
        indexOfFrom (.fn id) arr i = ((i + pre.length : Nat) : Int) ∧
        eraseFirst (.fn id) arr = pre ++ post := by
  induction arr with
  | nil => intro i h; simp at h
  | cons y ys ih =>
    intro i h
    by_cases hy : strictEq y (.fn id) = true
    · have := strictEq_fn hy
      subst this
      exact ⟨[], ys, rfl, by simp [indexOfFrom, strictEq_fn_self],
        by simp [eraseFirst, strictEq_fn_self]⟩
    · have hmem : Val.fn id ∈ ys := by
        rcases List.mem_cons.mp h with h1 | h1
        · rw [← h1] at hy; exact absurd (strictEq_fn_self id) hy
        · exact h1
      obtain ⟨pre, post, h1, h2, h3⟩ := ih (i + 1) hmem
      refine ⟨y :: pre, post, by rw [h1]; rfl, ?_, ?_⟩
      · simp only [indexOfFrom, hy, if_false, h2, List.length_cons, Bool.false_eq_true]
        congr 1
        omega
      · simp only [eraseFirst, hy, if_false, h3, Bool.false_eq_true]
        rfl

theorem splice_one (pre post : List Val) (x : Val) :
    splice (pre ++ x :: post) ((pre.length : Nat) : Int) 1 = pre ++ post := by
  simp only [splice]
  have h1 : ¬ ((pre.length : Int) < 0) := by omega
  simp only [h1, if_false, List.length_append, List.length_cons]
  have h2 : min (pre.length : Int) ((pre.length + (post.length + 1) : Nat) : Int) = pre.length := by
    omega
  rw [h2]
  have h3 : min (max (1 : Int) 0) (((pre.length + (post.length + 1) : Nat) : Int) - pre.length)
      = 1 := by omega
  rw [h3]
  simp

/-- On an array that holds the function value `x`, `indexOf` and
`splice(index, 1)` remove its first occurrence and nothing else. -/
theorem splice_indexOf (id : Nat) (arr : List Val) (h : Val.fn id ∈ arr) :
    ∃ pre post, arr = pre ++ .fn id :: post ∧
      splice arr (indexOf arr (.fn id)) 1 = pre ++ post ∧
      eraseFirst (.fn id) arr = pre ++ post := by
  obtain ⟨pre, post, h1, h2, h3⟩ := indexOfFrom_mem id arr 0 h
  refine ⟨pre, post, h1, ?_, h3⟩
  unfold indexOf
  rw [h2]
  simp only [Nat.zero_add]
  rw [h1]
  exact splice_one pre post (.fn id)

theorem eraseFirst_perm (id : Nat) (arr : List Val) (h : Val.fn id ∈ arr) :
    List.Perm arr (.fn id :: eraseFirst (.fn id) arr) := by
  obtain ⟨pre, post, h1, _, h3⟩ := splice_indexOf id arr h
  rw [h3, h1]
  exact List.perm_middle

theorem ensure_array (s : Store) :
    (ensureCanMutateNextListeners s).array (ensureCanMutateNextListeners s).nextListeners =
      s.array s.nextListeners := by
  unfold ensureCanMutateNextListeners
  by_cases hc : s.nextListeners = s.currentListeners
  · simp only [hc, if_true, Store.array]
    simp [List.getD_eq_getElem?_getD]
  · simp only [hc, if_false]

theorem ensure_next_lt (s : Store) (hwf : s.nextListeners < s.arrays.length) :
    (ensureCanMutateNextListeners s).nextListeners <
      (ensureCanMutateNextListeners s).arrays.length := by
  unfold ensureCanMutateNextListeners
  by_cases hc : s.nextListeners = s.currentListeners
  · simp only [hc, if_true]
    simp
  · simp only [hc, if_false]
    exact hwf

theorem getD_set_self (arrays : List (List Val)) (i : Nat) (v : List Val)
    (hi : i < arrays.length) : (arrays.set i v).getD i [] = v := by
  simp [List.getD_eq_getElem?_getD, hi]

/-- The registry after a successful `subscribe`: the listener is appended to
the array reached through `nextListeners` and a live closure is added. -/
theorem subscribe_ok_registry {l : Val} {s s1 : Store} {h : Nat}
    (hs : subscribe l s = .ok h s1) (hwf : s.nextListeners < s.arrays.length) :
    typeOf l = .function ∧
    s1.handles = s.handles ++ [{ listener := l, isSubscribed := true }] ∧
    s1.array s1.nextListeners = s.array s.nextListeners ++ [l] ∧
    s1.nextListeners < s1.arrays.length := by
  obtain ⟨hfn, _, _, rfl⟩ := subscribe_ok hs
  have hwf' : ({ s with handles := s.handles ++ [{ listener := l, isSubscribed := true }] }
      : Store).nextListeners <
      ({ s with handles := s.handles ++ [{ listener := l, isSubscribed := true }] }
      : Store).arrays.length := hwf
  have h1 := ensure_array
    { s with handles := s.handles ++ [{ listener := l, isSubscribed := true }] }
  have h2 := ensure_next_lt _ hwf'
  refine ⟨hfn, by simp, ?_, ?_⟩
  · show List.getD (List.set _ _ _) _ [] = _
    rw [getD_set_self _ _ _ h2, h1]
    rfl
  · show _ < List.length (List.set _ _ _)
    rw [List.length_set]
    exact h2

/-- The registry after an effective `unsubscribe`. -/
theorem unsubscribe_ok_registry {h : Nat} {s s1 : Store}
    (hs : unsubscribe h s = .ok () s1) (hwf : s.nextListeners < s.arrays.length) :
    ∃ c, s.handles.get? h = some c ∧
      ((c.isSubscribed = false ∧ s1 = s) ∨
       (c.isSubscribed = true ∧ s.isDispatching = false ∧
        s1.handles = s.handles.set h { c with isSubscribed := false } ∧
        s1.array s1.nextListeners =
          splice (s.array s.nextListeners) (indexOf (s.array s.nextListeners) c.listener) 1 ∧
        s1.nextListeners < s1.arrays.length)) := by
  obtain ⟨c, hc, h1 | h1⟩ := unsubscribe_ok hs
  · exact ⟨c, hc, Or.inl h1⟩
  · obtain ⟨hlive, hidle, rfl⟩ := h1
    refine ⟨c, hc, Or.inr ⟨hlive, hidle, by simp, ?_, ?_⟩⟩
    · have hwf' : ({ s with handles := s.handles.set h { c with isSubscribed := false } }
          : Store).nextListeners <
          ({ s with handles := s.handles.set h { c with isSubscribed := false } }
          : Store).arrays.length := hwf
      have h1 := ensure_array
        { s with handles := s.handles.set h { c with isSubscribed := false } }
      have h2 := ensure_next_lt _ hwf'
      show List.getD (List.set _ _ _) _ [] = _
      rw [getD_set_self _ _ _ h2, h1]
      rfl
    · have hwf' : ({ s with handles := s.handles.set h { c with isSubscribed := false } }
          : Store).nextListeners <
          ({ s with handles := s.handles.set h { c with isSubscribed := false } }
          : Store).arrays.length := hwf
      show _ < List.length (List.set _ _ _)
      rw [List.length_set]
      exact ensure_next_lt _ hwf'

theorem active_append (hs : List Handle) (l : Val) :
    ((hs ++ [({ listener := l, isSubscribed := true } : Handle)]).filter
        (fun c => c.isSubscribed)).map (fun c => c.listener) =
      (hs.filter (fun c => c.isSubscribed)).map (fun c => c.listener) ++ [l] := by
  simp [List.filter_append]

/-- Clearing `isSubscribed` in a live closure takes one occurrence of its
listener out of the list of active listeners. -/
theorem active_set_perm (hs : List Handle) :
    ∀ (h : Nat) (c : Handle), hs.get? h = some c → c.isSubscribed = true →
      List.Perm ((hs.filter (fun c => c.isSubscribed)).map (fun c => c.listener))
        (c.listener ::
          ((hs.set h { c with isSubscribed := false }).filter (fun c => c.isSubscribed)).map
            (fun c => c.listener)) := by
  induction hs with
  | nil => intro h c hc; simp at hc
  | cons c0 rest ih =>
    intro h c hc hlive
    cases h with
    | zero =>
      simp at hc
      subst hc
      simp [List.filter, hlive]
    | succ k =>
      have hc' : rest.get? k = some c := by simpa using hc
      have := ih k c hc' hlive
      cases h0 : c0.isSubscribed with
      | true =>
        simp only [List.set_cons_succ, List.filter_cons, h0, if_true, List.map_cons]
        exact List.Perm.trans (List.Perm.cons _ this) (List.Perm.swap _ _ _)
      | false =>
        simp only [List.set_cons_succ, List.filter_cons, h0, if_false, Bool.false_eq_true]
        exact this

/-- When no function was subscribed twice, that occurrence is the first one. -/
theorem active_set_erase (hs : List Handle) :
    ∀ (h : Nat) (c : Handle) (id : Nat), hs.get? h = some c → c.isSubscribed = true →
      c.listener = .fn id → (hs.map (fun c => c.listener)).Nodup →
      ((hs.set h { c with isSubscribed := false }).filter (fun c => c.isSubscribed)).map
          (fun c => c.listener) =
        eraseFirst (.fn id) ((hs.filter (fun c => c.isSubscribed)).map (fun c => c.listener)) := by
  induction hs with
  | nil => intro h c id hc; simp at hc
  | cons c0 rest ih =>
    intro h c id hc hlive hfn hnd
    cases h with
    | zero =>
      simp at hc
      subst hc
      simp [List.filter, hlive, eraseFirst, hfn, strictEq_fn_self]
    | succ k =>
      have hc' : rest.get? k = some c := by simpa using hc
      have hnd' : (rest.map (fun c => c.listener)).Nodup := (List.nodup_cons.mp hnd).2
      have hnot : c0.listener ∉ rest.map (fun c => c.listener) := (List.nodup_cons.mp hnd).1
      have hmem : c ∈ rest := List.get?_mem hc'
      have hne : strictEq c0.listener (.fn id) = false := by
        by_contra hcon
        have h1 := strictEq_fn (by simpa using hcon)
        apply hnot
        rw [h1, ← hfn]
        exact List.mem_map_of_mem _ hmem
      have := ih k c id hc' hlive hfn hnd'
      cases h0 : c0.isSubscribed with
      | true =>
        simp only [List.set_cons_succ, List.filter_cons, h0, if_true, List.map_cons, eraseFirst,
          hne, Bool.false_eq_true, if_false]
        rw [this]
      | false =>
        simp only [List.set_cons_succ, List.filter_cons, h0, if_false, Bool.false_eq_true]
        exact this

theorem map_listener_set (hs : List Handle) :
    ∀ (h : Nat) (c : Handle), hs.get? h = some c →
      (hs.set h { c with isSubscribed := false }).map (fun c => c.listener) =
        hs.map (fun c => c.listener) := by
  induction hs with
  | nil => intro h c hc; simp at hc
  | cons c0 rest ih =>
    intro h c hc
    cases h with
    | zero =>
      simp at hc
      subst hc
      simp
    | succ k =>
      have hc' : rest.get? k = some c := by simpa using hc
      simp only [List.set_cons_succ, List.map_cons, ih k c hc']

theorem subscribed_subscribe {s s1 : Store} {l : Val} {h : Nat}
    (hs : subscribe l s = .ok h s1) (hS : Subscribed s) : Subscribed s1 := by
  obtain ⟨a1, a2, a3, a4⟩ := hS
  obtain ⟨hfn, r1, r2, r3⟩ := subscribe_ok_registry hs a2
  have hact : activeListeners s1 = activeListeners s ++ [l] := by
    simp only [activeListeners, r1]
    exact active_append s.handles l
  refine ⟨?_, r3, ?_, ?_⟩
  · intro c hc
    rw [r1] at hc
    simp only [List.mem_append, List.mem_singleton] at hc
    rcases hc with hc | rfl
    · exact a1 c hc
    · exact hfn
  · rw [hact, r2]
    exact List.Perm.append_right [l] a3
  · intro hnd
    rw [r1] at hnd
    simp only [List.map_append, List.map_cons, List.map_nil] at hnd
    have hnd' : (s.handles.map (fun c => c.listener)).Nodup := (List.nodup_append.mp hnd).1
    rw [hact, r2, a4 hnd']

theorem subscribed_unsubscribe {s s1 : Store} {h : Nat}
    (hs : unsubscribe h s = .ok () s1) (hS : Subscribed s) : Subscribed s1 := by
  obtain ⟨a1, a2, a3, a4⟩ := hS
  obtain ⟨c, hc, h1 | h1⟩ := unsubscribe_ok_registry hs a2
  · rw [h1.2]; exact ⟨a1, a2, a3, a4⟩
  · obtain ⟨hlive, _, r1, r2, r3⟩ := h1
    obtain ⟨id, hid⟩ := eq_fn_of_typeOf (a1 c (List.get?_mem hc))
    have hperm := active_set_perm s.handles h c hc hlive
    have hmem : Val.fn id ∈ s.array s.nextListeners := by
      rw [← hid]
      exact (List.Perm.mem_iff a3).mpr ((List.Perm.mem_iff hperm).mpr (List.mem_cons_self _ _))
    obtain ⟨pre, post, p1, p2, p3⟩ := splice_indexOf id (s.array s.nextListeners) hmem
    have hsp : s1.array s1.nextListeners = eraseFirst (.fn id) (s.array s.nextListeners) := by
      rw [r2, hid, p2, p3]
    have hact : activeListeners s1 =
        ((s.handles.set h { c with isSubscribed := false }).filter
          (fun c => c.isSubscribed)).map (fun c => c.listener) := by
      simp only [activeListeners, r1]
    refine ⟨?_, r3, ?_, ?_⟩
    · intro c1 hc1
      rw [r1] at hc1
      rcases List.mem_or_eq_of_mem_set hc1 with hc1 | rfl
      · exact a1 c1 hc1
      · exact a1 c (List.get?_mem hc)
    · rw [hsp, hact]
      have e1 := eraseFirst_perm id (s.array s.nextListeners) hmem
      exact List.Perm.cons_inv (List.Perm.trans (List.Perm.trans e1.symm a3)
        (List.Perm.trans hperm (List.Perm.of_eq (by rw [hid]))))
    · intro hnd
      rw [r1, map_listener_set s.handles h c hc] at hnd
      rw [hsp, hact, active_set_erase s.handles h c id hc hlive hid hnd, a4 hnd]
      rfl

/-- The consistency of the listener registry is kept by every operation. -/
theorem stable_subscribed (n : Nat) : Stable n Subscribed where
  log := fun _ _ _ h => h
  flag := fun _ _ h => h
  state := fun _ _ h => h
  reducer := fun _ _ h => h
  alloc := fun _ h => h
  promote := fun _ h => h
  subscribe := fun _ _ _ _ hs hS => subscribed_subscribe hs hS
  unsubscribe := fun _ _ _ hs hS => subscribed_unsubscribe hs hS

/-- The index `indexOf` returns is that of the first entry identical to the
function searched for. -/
theorem indexOfFrom_first (id : Nat) (arr : List Val) :
    ∀ i : Nat, Val.fn id ∈ arr →
      ∃ pre post, arr = pre ++ .fn id :: post ∧
        indexOfFrom (.fn id) arr i = ((i + pre.length : Nat) : Int) ∧
        ∀ x ∈ pre, strictEq x (.fn id) = false := by
  induction arr with
  | nil => intro i h; simp at h
  | cons y ys ih =>
    intro i h
    by_cases hy : strictEq y (.fn id) = true
    · have := strictEq_fn hy
      subst this
      exact ⟨[], ys, rfl, by simp [indexOfFrom, hy], by simp⟩
    · have hy2 : strictEq y (.fn id) = false := by simpa using hy
      have hmem : Val.fn id ∈ ys := by
        rcases List.mem_cons.mp h with h1 | h1
        · rw [← h1] at hy2
          simp [strictEq_fn_self] at hy2
        · exact h1
      obtain ⟨pre, post, e1, e2, e3⟩ := ih (i + 1) hmem
      refine ⟨y :: pre, post, by simp [e1], ?_, ?_⟩
      · simp only [indexOfFrom, hy2, Bool.false_eq_true, if_false, e2, List.length_cons]
        congr 1
        omega
      · intro x hx
        rcases List.mem_cons.mp hx with rfl | hx
        · exact hy2
        · exact e3 x hx

/-! ### Claim C1 -/

theorem initAction_valid (env : Env) : ValidAction (initAction env) := by
  constructor
  · simp [initAction, isPlainObject, typeOf, strictEq, getPrototypeOf, protoLoop]
  · simp [initAction, getProp, List.lookup, typeOf]

/-- A valid action dispatched to an idle store with a pure reducer and no
listeners. -/
theorem dispatch_pure (env : Env) (f : Nat) (r : Val → Val → Val) (hpure : PureReducer env f r)
    (n : Nat) (a : Val) (ha : ValidAction a) (s : Store) (hidle : s.isDispatching = false)
    (hred : s.currentReducer = .fn f) (hnil : s.array s.nextListeners = []) :
    dispatch env (n + 1) a s = .ok a
      { s with currentState := r s.currentState a, isDispatching := false,
               log := s.log ++ [.reduce (n + 1) s.currentReducer s.currentState a true] ++
                 [.assign (n + 1) (r s.currentState a)],
               currentListeners := s.nextListeners } := by
  obtain ⟨ha1, ha2⟩ := ha
  simp [Store.array] at hnil
  simp [Store.array, dispatch, dispatchBody, ha1, ha2, hidle, hred, callFn, hpure s.currentState a, run,
    notifyListeners, hnil]


theorem createStore_pure (env : Env) (f : Nat) (r : Val → Val → Val)
    (hpure : PureReducer env f r) (p : Val) (hp : typeOf p ≠ .function) (n : Nat) :
    createStore env (n + 1) (.fn f) p .undefined = .store
      { currentReducer := .fn f, currentState := r p (initAction env), arrays := [[]],
        currentListeners := 0, nextListeners := 0, isDispatching := false, handles := [],
        allocated := 1,
        log := [.reduce (n + 1) (.fn f) p (initAction env) true,
                .assign (n + 1) (r p (initAction env))] } := by
  have hd := dispatch_pure env f r hpure n (initAction env) (initAction_valid env)
    { initialStore (.fn f) p with allocated := 1 } rfl rfl rfl
  have hsh : (typeOf p = JsType.function) = False := by simp [hp]
  simp only [initAction, initialStore] at hd
  simp only [createStore, typeOf_undefined, typeOf_fn, typeLiteral, hsh, decide_False,
      Bool.false_and, Bool.false_eq_true, if_false, ne_eq, not_true_eq_false, reduceCtorEq,
      not_false_eq_true, if_true, initialStore, initAction, hd]
  simp

theorem dispatchAll_pure (env : Env) (f : Nat) (r : Val → Val → Val)
    (hpure : PureReducer env f r) (n : Nat) (actions : List Val) :
    (∀ a ∈ actions, ValidAction a) → ∀ s : Store, s.isDispatching = false →
      s.currentReducer = .fn f → s.array s.nextListeners = [] →
      ∃ s1, dispatchAll env (n + 1) actions s = some s1 ∧
        s1.currentState = actions.foldl r s.currentState ∧ s1.isDispatching = false := by
  induction actions with
  | nil => intro _ s hidle _ _; exact ⟨s, rfl, rfl, hidle⟩
  | cons a rest ih =>
    intro hv s hidle hred hnil
    have hd := dispatch_pure env f r hpure n a (hv a (List.mem_cons_self _ _)) s hidle hred hnil
    obtain ⟨s1, h1, h2, h3⟩ := ih (fun b hb => hv b (List.mem_cons_of_mem _ hb))
      { s with currentState := r s.currentState a, isDispatching := false,
               log := s.log ++ [.reduce (n + 1) s.currentReducer s.currentState a true] ++
                 [.assign (n + 1) (r s.currentState a)],
               currentListeners := s.nextListeners } rfl hred hnil
    refine ⟨s1, ?_, h2, h3⟩
    simp only [dispatchAll, hd]
    exact h1

/-- C1: for a pure reducer `r` and a preloaded state `p`, the store
`createStore(r, p)` holds `r(p, INIT)`, and after top-level dispatches of valid
actions `a1..an`, each of which returns, `getState()` is the left fold of `r`
over the actions starting from `r(p, INIT)`. -/
theorem C1_getState_is_fold (env : Env) (f : Nat) (r : Val → Val → Val)
    (hpure : PureReducer env f r) (p : Val) (hp : typeOf p ≠ .function)
    (actions : List Val) (hvalid : ∀ a ∈ actions, ValidAction a) (fuel : Nat)
    (hfuel : 0 < fuel) :
    getStateAfter env fuel (.fn f) p actions =
      some (actions.foldl r (r p (initAction env))) := by
  obtain ⟨n, rfl⟩ : ∃ n, fuel = n + 1 := ⟨fuel - 1, by omega⟩
  have h0 := createStore_pure env f r hpure p hp n
  obtain ⟨s1, h1, h2, h3⟩ := dispatchAll_pure env f r hpure n actions hvalid
    { currentReducer := .fn f, currentState := r p (initAction env), arrays := [[]],
      currentListeners := 0, nextListeners := 0, isDispatching := false, handles := [],
      allocated := 1,
      log := [.reduce (n + 1) (.fn f) p (initAction env) true,
              .assign (n + 1) (r p (initAction env))] } rfl rfl rfl
  simp only [getStateAfter, h0, h1, getState, h3]
  simp [h2]

theorem C1_witness :
    getStateAfter counterEnv 1 (.fn 0) .undefined [] = some (.num 0) ∧
    getStateAfter counterEnv 1 (.fn 0) .undefined [incAction] = some (.num 1) :=
  ⟨C1_getState_is_fold counterEnv 0 counter (fun _ _ => rfl) .undefined (by simp [typeOf]) []
      (by simp) 1 (by decide),
   C1_getState_is_fold counterEnv 0 counter (fun _ _ => rfl) .undefined (by simp [typeOf])
      [incAction] (by intro a ha; simp at ha; subst ha; exact ⟨rfl, by simp [incAction, getProp, List.lookup, typeOf]⟩)
      1 (by decide)⟩

/-! ### Claims C2 to C5 -/

/-- C2 (as stated) fails: with the preloaded state 5 the fresh store of the
counter reducer holds 5, whereas `counter(undefined, INIT)` is 0. -/
theorem C2_counterexample :
    getStateAfter counterEnv 1 (.fn 0) (.num 5) [] = some (.num 5) ∧
    counter .undefined (initAction counterEnv) = .num 0 ∧
    getStateAfter counterEnv 1 (.fn 0) (.num 5) [] ≠
      some (counter .undefined (initAction counterEnv)) := by
  refine ⟨rfl, rfl, ?_⟩
  intro h
  have h2 : some (Val.num 5) = some (Val.num 0) := h
  simp at h2

/-- C2 (amended): for a pure reducer `r`, `createStore(r, p)` returns a store
whose `getState()` is `r(p, INIT)`; without a preloaded state that is
`r(undefined, INIT)`. -/
theorem C2_initial_state (env : Env) (f : Nat) (r : Val → Val → Val)
    (hpure : PureReducer env f r) (p : Val) (hp : typeOf p ≠ .function) (fuel : Nat)
    (hfuel : 0 < fuel) :
    (∃ s0, createStore env fuel (.fn f) p .undefined = .store s0 ∧
      getState s0 = .ok (r p (initAction env)) s0) ∧
    (∃ s0, createStore env fuel (.fn f) .undefined .undefined = .store s0 ∧
      getState s0 = .ok (r .undefined (initAction env)) s0) := by
  obtain ⟨n, rfl⟩ : ∃ n, fuel = n + 1 := ⟨fuel - 1, by omega⟩
  exact ⟨⟨_, createStore_pure env f r hpure p hp n, rfl⟩,
    ⟨_, createStore_pure env f r hpure .undefined (by simp) n, rfl⟩⟩

theorem C2_witness :
    (∃ s0, createStore counterEnv 1 (.fn 0) (.num 5) .undefined = .store s0 ∧
      getState s0 = .ok (.num 5) s0) ∧
    (∃ s0, createStore counterEnv 1 (.fn 0) .undefined .undefined = .store s0 ∧
      getState s0 = .ok (.num 0) s0) :=
  C2_initial_state counterEnv 0 counter (fun _ _ => rfl) (.num 5) (by simp) 1 (by decide)

/-- C3: a `dispatch(action)` call that returns normally returns the very
action it was given. -/
theorem C3_dispatch_returns_action (env : Env) (fuel : Nat) (a : Val) (s : Store) (v : Val)
    (s1 : Store) (h : dispatch env fuel a s = .ok v s1) : v = a := by
  cases fuel with
  | zero => simp [dispatch] at h
  | succ n =>
    simp only [dispatch] at h
    by_cases h1 : isPlainObject a = true
    · by_cases h2 : typeOf (getProp a "type") = .undefined
      · rw [dispatchBody_no_type env _ _ a s h1 h2] at h; simp at h
      · cases h3 : s.isDispatching with
        | true => rw [dispatchBody_dispatching env _ _ a s ⟨h1, h2⟩ h3] at h; simp at h
        | false =>
          rw [dispatchBody_accepted env _ _ a s ⟨h1, h2⟩ h3] at h
          revert h
          cases callFn env (dispatch env n) s.currentReducer [s.currentState, a]
              (reducerEntry (n + 1) a s) with
          | diverge s2 => simp [afterReducer]
          | raise e s2 => simp [afterReducer]
          | ok v2 s2 =>
            simp only [afterReducer]
            cases notifyListeners env (dispatch env n) (n + 1) s2.nextListeners (n + 1) 0
              (notifyEntry (n + 1) v2 s2) with
            | ok u s5 => intro h; injection h with h _; exact h.symm
            | raise e s5 => simp
            | diverge s5 => simp
    · rw [dispatchBody_not_plain env _ _ a s (by simpa using h1)] at h; simp at h

theorem C3_witness :
    dispatch counterEnv 1 incAction (idleStore 0) =
      .ok incAction (dispatch counterEnv 1 incAction (idleStore 0)).store ∧
    incAction = incAction :=
  ⟨rfl, C3_dispatch_returns_action counterEnv 1 incAction (idleStore 0) incAction
    (dispatch counterEnv 1 incAction (idleStore 0)).store rfl⟩

/-- C4: on an idle store `dispatch(a)` is rejected by validation, with the
message for non-plain actions or the one for an undefined `type`, leaving the
store and the record of invocations untouched, if and only if `a` is not a
plain object per `isPlainObject` or `a.type` is `undefined`; any other `type`,
the falsy `0`, `''`, `null`, `false` included, is accepted: the reducer is
invoked. -/
theorem C4_validation (env : Env) (n : Nat) (a : Val) (s : Store)
    (hidle : s.isDispatching = false) :
    ((dispatch env (n + 1) a s = .raise (.error msgPlain) s ∨
      dispatch env (n + 1) a s = .raise (.error msgType) s) ↔
      (isPlainObject a = false ∨ typeOf (getProp a "type") = .undefined)) ∧
    (isPlainObject a = false → dispatch env (n + 1) a s = .raise (.error msgPlain) s) ∧
    (isPlainObject a = true → typeOf (getProp a "type") = .undefined →
      dispatch env (n + 1) a s = .raise (.error msgType) s) ∧
    (isPlainObject a = true → typeOf (getProp a "type") ≠ .undefined →
      ∃ t, (dispatch env (n + 1) a s).store.log =
        s.log ++ .reduce (n + 1) s.currentReducer s.currentState a true :: t) ∧
    (∀ (ref : Nat) (v : Val), v = .num 0 ∨ v = .str "" ∨ v = .null ∨ v = .bool false →
      ValidAction (.obj ref [("type", v)] [env.objectPrototype])) := by
  have hA : isPlainObject a = false → dispatch env (n + 1) a s = .raise (.error msgPlain) s :=
    fun h => dispatchBody_not_plain env _ _ a s h
  have hB : isPlainObject a = true → typeOf (getProp a "type") = .undefined →
      dispatch env (n + 1) a s = .raise (.error msgType) s :=
    fun h1 h2 => dispatchBody_no_type env _ _ a s h1 h2
  have hC : isPlainObject a = true → typeOf (getProp a "type") ≠ .undefined →
      ∃ t, (dispatch env (n + 1) a s).store.log =
        s.log ++ .reduce (n + 1) s.currentReducer s.currentState a true :: t :=
    fun h1 h2 => dispatch_records_reduce env n a s ⟨h1, h2⟩ hidle
  refine ⟨⟨?_, ?_⟩, hA, hB, hC, ?_⟩
  · intro h
    by_contra hne
    push_neg at hne
    obtain ⟨t, ht⟩ := hC (by simpa using hne.1) hne.2
    rcases h with h | h <;> rw [h] at ht <;> exact store_log_ne ht rfl
  · intro h
    by_cases h1 : isPlainObject a = true
    · rcases h with h | h
      · rw [h] at h1; exact absurd h1 (by simp)
      · exact Or.inr (hB h1 h)
    · exact Or.inl (hA (by simpa using h1))
  · intro ref v hv
    rcases hv with rfl | rfl | rfl | rfl <;>
      exact ⟨by simp [isPlainObject, strictEq, getPrototypeOf, protoLoop],
             by simp [getProp, List.lookup]⟩

theorem C4_witness :
    ((dispatch counterEnv 1 (.num 7) (idleStore 0) = .raise (.error msgPlain) (idleStore 0) ∨
      dispatch counterEnv 1 (.num 7) (idleStore 0) = .raise (.error msgType) (idleStore 0)) ↔
      (isPlainObject (.num 7) = false ∨ typeOf (getProp (.num 7) "type") = .undefined)) ∧
    (isPlainObject (.num 7) = false →
      dispatch counterEnv 1 (.num 7) (idleStore 0) = .raise (.error msgPlain) (idleStore 0)) ∧
    (isPlainObject (.num 7) = true → typeOf (getProp (.num 7) "type") = .undefined →
      dispatch counterEnv 1 (.num 7) (idleStore 0) = .raise (.error msgType) (idleStore 0)) ∧
    (isPlainObject (.num 7) = true → typeOf (getProp (.num 7) "type") ≠ .undefined →
      ∃ t, (dispatch counterEnv 1 (.num 7) (idleStore 0)).store.log =
        (idleStore 0).log ++
          .reduce 1 (idleStore 0).currentReducer (idleStore 0).currentState (.num 7) true :: t) ∧
    (∀ (ref : Nat) (v : Val), v = .num 0 ∨ v = .str "" ∨ v = .null ∨ v = .bool false →
      ValidAction (.obj ref [("type", v)] [counterEnv.objectPrototype])) :=
  C4_validation counterEnv 0 (.num 7) (idleStore 0) rfl

/-- C5: while a reducer is executing (`isDispatching` is true), `getState()`,
`subscribe` of a callable listener, `dispatch` of a valid action and a call of
a still-subscribed unsubscribe function each raise their reentrancy error and
leave the store as it was; a reducer that calls `getState()` and does not
catch the error therefore makes `dispatch` fail with that error. -/
theorem C5_reentrancy (env : Env) (n : Nat) (s : Store) (hbusy : s.isDispatching = true) :
    getState s = .raise (.error msgGetState) s ∧
    (∀ l, typeOf l = .function → subscribe l s = .raise (.error msgSubscribe) s) ∧
    (∀ a, ValidAction a → dispatch env (n + 1) a s = .raise (.error msgDispatch) s) ∧
    (∀ h c, s.handles.get? h = some c → c.isSubscribed = true →
      unsubscribe h s = .raise (.error msgUnsubscribe) s) ∧
    (∀ (s0 : Store) (f : Nat) (a : Val) (k : Except Err Val → Prog),
      s0.isDispatching = false → s0.currentReducer = .fn f → ValidAction a →
      env.body f [s0.currentState, a] = .getState k →
      k (.error (.error msgGetState)) = .throw (.error msgGetState) →
      dispatch env (n + 1) a s0 = .raise (.error msgGetState)
        { s0 with log := s0.log ++ [.reduce (n + 1) s0.currentReducer s0.currentState a true] }) := by
  refine ⟨by simp [getState, hbusy], ?_, ?_, ?_, ?_⟩
  · intro l hl
    simp [subscribe, hl, hbusy]
  · intro a ha
    exact dispatchBody_dispatching env _ _ a s ha hbusy
  · intro h c hc hsub
    unfold unsubscribe
    rw [hc]
    simp [hsub, hbusy]
  · intro s0 f a k hidle hred ha hbody hk
    show dispatchBody env (dispatch env n) (n + 1) a s0 = _
    rw [dispatchBody_accepted env _ _ a s0 ha hidle]
    simp [callFn, hred, hbody, run, getState, reducerEntry, hk, afterReducer, hidle]

theorem C5_witness :
    getState busyStore = .raise (.error msgGetState) busyStore ∧
    (∀ l, typeOf l = .function → subscribe l busyStore = .raise (.error msgSubscribe) busyStore) ∧
    (∀ a, ValidAction a →
      dispatch readingEnv 1 a busyStore = .raise (.error msgDispatch) busyStore) ∧
    (∀ h c, busyStore.handles.get? h = some c → c.isSubscribed = true →
      unsubscribe h busyStore = .raise (.error msgUnsubscribe) busyStore) ∧
    (∀ (s0 : Store) (f : Nat) (a : Val) (k : Except Err Val → Prog),
      s0.isDispatching = false → s0.currentReducer = .fn f → ValidAction a →
      readingEnv.body f [s0.currentState, a] = .getState k →
      k (.error (.error msgGetState)) = .throw (.error msgGetState) →
      dispatch readingEnv 1 a s0 = .raise (.error msgGetState)
        { s0 with log := s0.log ++ [.reduce 1 s0.currentReducer s0.currentState a true] }) :=
  C5_reentrancy readingEnv 0 busyStore rfl

/-- The scenario of C5: the reducer of `readingEnv` calls `store.getState()`,
and `dispatch({ type: 'READ' })` fails with the reentrancy error of `getState`. -/
theorem reading_reducer_fails :
    dispatch readingEnv 1 readAction (idleStore 1) = .raise (.error msgGetState)
      { idleStore 1 with log := [.reduce 1 (.fn 1) (.num 0) readAction true] } := rfl

/-- A falsy discriminant is accepted: `dispatch({ type: 0 })` returns. -/
theorem zero_type_accepted :
    dispatch counterEnv 1 zeroTypeAction (idleStore 0) =
      .ok zeroTypeAction (dispatch counterEnv 1 zeroTypeAction (idleStore 0)).store := rfl

/-! ### Claims C6 to C8 -/

theorem keepsFlag_completed {α : Type} {s : Store} {o : Outcome α} (h : KeepsFlag s o)
    (hc : o.Completed) : o.store.isDispatching = s.isDispatching := by
  cases o with
  | ok v s1 => exact h
  | raise e s1 => exact h
  | diverge s1 => exact absurd hc (by simp [Outcome.Completed])

/-- C6: from an idle store every operation that returns or raises leaves
`isDispatching` false, in particular a `dispatch` whose reducer raises; a valid
action dispatched after a failed `dispatch` reaches the reducer and is not
rejected as reentrant; and every recorded call was entered with
`isDispatching` set when it is a reducer call and clear when it is a listener
call. -/
theorem C6_isDispatching_released (env : Env) (fuel : Nat) (s : Store)
    (hidle : s.isDispatching = false) :
    (∀ a, (dispatch env fuel a s).Completed →
      (dispatch env fuel a s).store.isDispatching = false) ∧
    (∀ r, (replaceReducer env fuel r s).Completed →
      (replaceReducer env fuel r s).store.isDispatching = false) ∧
    (∀ l, (subscribe l s).store.isDispatching = false) ∧
    (∀ h, (unsubscribe h s).store.isDispatching = false) ∧
    (getState s).store.isDispatching = false ∧
    (∀ n a e s2, fuel = n + 1 → ValidAction a →
      callFn env (dispatch env n) s.currentReducer [s.currentState, a]
        (reducerEntry (n + 1) a s) = .raise e s2 →
      ∃ s1, dispatch env fuel a s = .raise e s1 ∧ s1.isDispatching = false) ∧
    (∀ a e s1 m b, dispatch env fuel a s = .raise e s1 → ValidAction b →
      (∃ t, (dispatch env (m + 1) b s1).store.log =
        s1.log ++ .reduce (m + 1) s1.currentReducer s1.currentState b true :: t) ∧
      dispatch env (m + 1) b s1 ≠ .raise (.error msgDispatch) s1) ∧
    ((∀ e ∈ s.log, e.FlagOk) → ∀ a, ∀ e ∈ (dispatch env fuel a s).store.log, e.FlagOk) := by
  refine ⟨?_, ?_, ?_, ?_, ?_, ?_, ?_, ?_⟩
  · intro a hc
    rw [keepsFlag_completed (dispatch_keepsFlag env fuel a s) hc, hidle]
  · intro r hc
    have hk : KeepsFlag s (replaceReducer env fuel r s) :=
      replaceReducerWith_keepsFlag env _ (dispatch_keepsFlag env fuel) r s
    rw [keepsFlag_completed hk hc, hidle]
  · intro l
    have h := subscribe_keepsFlag l s
    cases hs : subscribe l s with
    | ok v s1 => rw [hs] at h; exact Eq.trans h hidle
    | raise e s1 => rw [hs] at h; exact Eq.trans h hidle
    | diverge s1 => exact absurd hs subscribe_diverge
  · intro u
    have h := unsubscribe_keepsFlag u s
    cases hs : unsubscribe u s with
    | ok v s1 => rw [hs] at h; exact Eq.trans h hidle
    | raise e s1 => rw [hs] at h; exact Eq.trans h hidle
    | diverge s1 => exact absurd hs unsubscribe_diverge
  · rw [getState_store]; exact hidle
  · intro n a e s2 hf ha hred
    subst hf
    exact ⟨_, (dispatch_reducer_raises env n a s ha hidle e s2 hred).1, rfl⟩
  · intro a e s1 m b hd hb
    have hk := dispatch_keepsFlag env fuel a s
    rw [hd] at hk
    have hidle1 : s1.isDispatching = false := Eq.trans hk hidle
    have hrec := dispatch_records_reduce env m b s1 hb hidle1
    refine ⟨hrec, ?_⟩
    intro heq
    obtain ⟨t, ht⟩ := hrec
    rw [heq] at ht
    exact store_log_ne ht rfl
  · intro hlog a
    exact dispatch_stable env (stable_flagOk fuel) fuel (le_refl _) a s hlog

theorem C6_witness :
    (∀ a, (dispatch readingEnv 1 a (idleStore 1)).Completed →
      (dispatch readingEnv 1 a (idleStore 1)).store.isDispatching = false) ∧
    (∀ r, (replaceReducer readingEnv 1 r (idleStore 1)).Completed →
      (replaceReducer readingEnv 1 r (idleStore 1)).store.isDispatching = false) ∧
    (∀ l, (subscribe l (idleStore 1)).store.isDispatching = false) ∧
    (∀ h, (unsubscribe h (idleStore 1)).store.isDispatching = false) ∧
    (getState (idleStore 1)).store.isDispatching = false ∧
    (∀ n a e s2, 1 = n + 1 → ValidAction a →
      callFn readingEnv (dispatch readingEnv n) (idleStore 1).currentReducer
        [(idleStore 1).currentState, a] (reducerEntry (n + 1) a (idleStore 1)) = .raise e s2 →
      ∃ s1, dispatch readingEnv 1 a (idleStore 1) = .raise e s1 ∧ s1.isDispatching = false) ∧
    (∀ a e s1 m b, dispatch readingEnv 1 a (idleStore 1) = .raise e s1 → ValidAction b →
      (∃ t, (dispatch readingEnv (m + 1) b s1).store.log =
        s1.log ++ .reduce (m + 1) s1.currentReducer s1.currentState b true :: t) ∧
      dispatch readingEnv (m + 1) b s1 ≠ .raise (.error msgDispatch) s1) ∧
    ((∀ e ∈ (idleStore 1).log, e.FlagOk) →
      ∀ a, ∀ e ∈ (dispatch readingEnv 1 a (idleStore 1)).store.log, e.FlagOk) :=
  C6_isDispatching_released readingEnv 1 (idleStore 1) rfl

/-- After the failed `dispatch({ type: 'READ' })` of `reading_reducer_fails`,
`dispatch({ type: 'INC' })` on the resulting store returns and the state is 1. -/
theorem dispatch_after_failure :
    (dispatch readingEnv 1 incAction
      (dispatch readingEnv 1 readAction (idleStore 1)).store).Returned ∧
    getState (dispatch readingEnv 1 incAction
      (dispatch readingEnv 1 readAction (idleStore 1)).store).store =
      .ok (.num 1) (dispatch readingEnv 1 incAction
        (dispatch readingEnv 1 readAction (idleStore 1)).store).store :=
  ⟨trivial, rfl⟩

/-- C7 (as stated) fails when a listener raises: the `dispatch` call raises,
yet the state has been replaced (0 became 1) and the listener was called. -/
theorem C7_counterexample :
    dispatch listenerEnv 1 incAction (storeWithListener 3) =
      .raise (.thrown (.str "boom"))
        { storeWithListener 3 with
          currentState := .num 1,
          log := [.reduce 1 (.fn 0) (.num 0) incAction true, .assign 1 (.num 1),
                  .notify 1 (.fn 3) [] false] } ∧
    (storeWithListener 3).currentState = .num 0 ∧
    (dispatch listenerEnv 1 incAction (storeWithListener 3)).store.currentState = .num 1 :=
  ⟨rfl, rfl, rfl⟩

/-- C7 (amended): a `dispatch` call that raises because of action validation
or the reentrancy check leaves the store untouched; one that raises because
the reducer raised leaves `currentState` at its pre-dispatch value and records
no listener call; one that returns has replaced the state by the reducer's
result and then called every listener of the snapshot. -/
theorem C7_failed_dispatch (env : Env) (n : Nat) (a : Val) (s : Store)
    (hwf : s.nextListeners < s.arrays.length) :
    ((¬ ValidAction a ∨ s.isDispatching = true) →
      ∃ e, dispatch env (n + 1) a s = .raise e s) ∧
    (ValidAction a → s.isDispatching = false → ∀ e s2,
      callFn env (dispatch env n) s.currentReducer [s.currentState, a]
        (reducerEntry (n + 1) a s) = .raise e s2 →
      ∃ s1, dispatch env (n + 1) a s = .raise e s1 ∧ s1.currentState = s.currentState ∧
        s1.log = s.log ++ [.reduce (n + 1) s.currentReducer s.currentState a true]) ∧
    (ValidAction a → s.isDispatching = false → ∀ v s1,
      dispatch env (n + 1) a s = .ok v s1 →
      ∃ w s2, callFn env (dispatch env n) s.currentReducer [s.currentState, a]
          (reducerEntry (n + 1) a s) = .ok w s2 ∧
        eventsAt (n + 1) s1.log = eventsAt (n + 1) s.log ++
          [.reduce (n + 1) s.currentReducer s.currentState a true, .assign (n + 1) w] ++
          notifyEvents (n + 1) (s.array s.nextListeners)) := by
  refine ⟨?_, ?_, ?_⟩
  · intro h
    rcases h with h | h
    · by_cases h1 : isPlainObject a = true
      · by_cases h2 : typeOf (getProp a "type") = .undefined
        · exact ⟨_, dispatchBody_no_type env _ _ a s h1 h2⟩
        · exact absurd ⟨h1, h2⟩ h
      · exact ⟨_, dispatchBody_not_plain env _ _ a s (by simpa using h1)⟩
    · exact dispatchBody_dispatching_store env _ _ a s h
  · intro ha hidle e s2 hred
    obtain ⟨h1, h2, h3, _⟩ := dispatch_reducer_raises env n a s ha hidle e s2 hred
    exact ⟨_, h1, h2, h3⟩
  · intro ha hidle v s1 h
    obtain ⟨w, s2, h1, h2, _⟩ := dispatch_returned_events env n a s ha hidle hwf v s1 h
    exact ⟨w, s2, h1, h2⟩

theorem C7_witness :
    ((¬ ValidAction incAction ∨ (storeWithListener 2).isDispatching = true) →
      ∃ e, dispatch listenerEnv 1 incAction (storeWithListener 2) =
        .raise e (storeWithListener 2)) ∧
    (ValidAction incAction → (storeWithListener 2).isDispatching = false → ∀ e s2,
      callFn listenerEnv (dispatch listenerEnv 0) (storeWithListener 2).currentReducer
        [(storeWithListener 2).currentState, incAction]
        (reducerEntry 1 incAction (storeWithListener 2)) = .raise e s2 →
      ∃ s1, dispatch listenerEnv 1 incAction (storeWithListener 2) = .raise e s1 ∧
        s1.currentState = (storeWithListener 2).currentState ∧
        s1.log = (storeWithListener 2).log ++
          [.reduce 1 (storeWithListener 2).currentReducer (storeWithListener 2).currentState
            incAction true]) ∧
    (ValidAction incAction → (storeWithListener 2).isDispatching = false → ∀ v s1,
      dispatch listenerEnv 1 incAction (storeWithListener 2) = .ok v s1 →
      ∃ w s2, callFn listenerEnv (dispatch listenerEnv 0) (storeWithListener 2).currentReducer
          [(storeWithListener 2).currentState, incAction]
          (reducerEntry 1 incAction (storeWithListener 2)) = .ok w s2 ∧
        eventsAt 1 s1.log = eventsAt 1 (storeWithListener 2).log ++
          [.reduce 1 (storeWithListener 2).currentReducer (storeWithListener 2).currentState
            incAction true, .assign 1 w] ++
          notifyEvents 1 ((storeWithListener 2).array (storeWithListener 2).nextListeners)) :=
  C7_failed_dispatch listenerEnv 0 incAction (storeWithListener 2) (by decide)

/-- C8: for a `dispatch` call D of a valid action on an idle store, if D
returns (no listener raised) then the listener calls D itself recorded are
exactly the entries of the listener array as it stood when D began, once each
and in order, and that array still holds the same entries afterwards, whatever
subscribe and unsubscribe calls the listeners made; and D does return when the
reducer call returns, the listeners return and the fuel exceeds the number of
listeners. -/
theorem C8_listener_snapshot (env : Env) (n : Nat) (a : Val) (s : Store)
    (ha : ValidAction a) (hidle : s.isDispatching = false)
    (hwf : s.nextListeners < s.arrays.length) :
    (∀ v s1, dispatch env (n + 1) a s = .ok v s1 →
      ∃ w, eventsAt (n + 1) s1.log = eventsAt (n + 1) s.log ++
          [.reduce (n + 1) s.currentReducer s.currentState a true, .assign (n + 1) w] ++
          notifyEvents (n + 1) (s.array s.nextListeners) ∧
        s1.array s.nextListeners = s.array s.nextListeners) ∧
    (∀ w s2, callFn env (dispatch env n) s.currentReducer [s.currentState, a]
        (reducerEntry (n + 1) a s) = .ok w s2 →
      (∀ l ∈ s.array s.nextListeners, ∀ s3 : Store, s3.isDispatching = false →
        (callFn env (dispatch env n) l [] s3).Returned) →
      (s.array s.nextListeners).length ≤ n →
      (dispatch env (n + 1) a s).Returned) := by
  refine ⟨?_, ?_⟩
  · intro v s1 h
    obtain ⟨w, s2, _, h2, h3, _⟩ := dispatch_returned_events env n a s ha hidle hwf v s1 h
    exact ⟨w, h2, h3⟩
  · intro w s2 hred hret hlen
    exact dispatch_returns env n a s ha hidle hwf w s2 hred hret hlen

theorem C8_witness :
    (∀ v s1, dispatch listenerEnv 2 incAction (storeWithListener 4) = .ok v s1 →
      ∃ w, eventsAt 2 s1.log = eventsAt 2 (storeWithListener 4).log ++
          [.reduce 2 (storeWithListener 4).currentReducer (storeWithListener 4).currentState
            incAction true, .assign 2 w] ++
          notifyEvents 2 ((storeWithListener 4).array (storeWithListener 4).nextListeners) ∧
        s1.array (storeWithListener 4).nextListeners =
          (storeWithListener 4).array (storeWithListener 4).nextListeners) ∧
    (∀ w s2, callFn listenerEnv (dispatch listenerEnv 1) (storeWithListener 4).currentReducer
        [(storeWithListener 4).currentState, incAction]
        (reducerEntry 2 incAction (storeWithListener 4)) = .ok w s2 →
      (∀ l ∈ (storeWithListener 4).array (storeWithListener 4).nextListeners, ∀ s3 : Store,
        s3.isDispatching = false → (callFn listenerEnv (dispatch listenerEnv 1) l [] s3).Returned) →
      ((storeWithListener 4).array (storeWithListener 4).nextListeners).length ≤ 1 →
      (dispatch listenerEnv 2 incAction (storeWithListener 4)).Returned) :=
  C8_listener_snapshot listenerEnv 1 incAction (storeWithListener 4)
    ⟨rfl, by simp [incAction, getProp, List.lookup]⟩ rfl (by decide)

theorem returned_of_eq {o : Outcome Val} {v : Val} (s : Store) (h : o = .ok v s) :
    o.Returned := by
  rw [h]; trivial

/-- The scenario of C8: listener 4 subscribes listener 2 while it is being
notified.  The dispatch in progress calls listener 4 only and its array is
left as it was; the subscription went to a fresh array, which the next
dispatch iterates, calling listener 4 and then listener 2. -/
theorem subscribe_during_notification :
    (dispatch listenerEnv 3 incAction (storeWithListener 4)).Returned ∧
    eventsAt 3 (dispatch listenerEnv 3 incAction (storeWithListener 4)).store.log =
      [.reduce 3 (.fn 0) (.num 0) incAction true, .assign 3 (.num 1),
       .notify 3 (.fn 4) [] false] ∧
    (dispatch listenerEnv 3 incAction (storeWithListener 4)).store.arrays =
      [[.fn 4], [.fn 4, .fn 2]] ∧
    (dispatch listenerEnv 3 incAction (storeWithListener 4)).store.nextListeners = 1 ∧
    (dispatch listenerEnv 3 incAction
        { (dispatch listenerEnv 3 incAction (storeWithListener 4)).store with
          log := [] }).Returned ∧
    eventsAt 3 (dispatch listenerEnv 3 incAction
        { (dispatch listenerEnv 3 incAction (storeWithListener 4)).store with log := [] }).store.log =
      [.reduce 3 (.fn 0) (.num 1) incAction true, .assign 3 (.num 2),
       .notify 3 (.fn 4) [] false, .notify 3 (.fn 2) [] false] :=
  ⟨returned_of_eq (dispatch listenerEnv 3 incAction (storeWithListener 4)).store rfl, rfl, rfl, rfl,
   returned_of_eq (dispatch listenerEnv 3 incAction
        { (dispatch listenerEnv 3 incAction (storeWithListener 4)).store with
          log := [] }).store rfl, rfl⟩

/-! ### Claims C9 and C10 -/

theorem subscribed_of_subscribe (l : Val) (s : Store) (hS : Subscribed s) :
    Subscribed (subscribe l s).store := by
  cases h : subscribe l s with
  | ok v s1 => exact subscribed_subscribe h hS
  | raise e s1 => rw [subscribe_raise h]; exact hS
  | diverge s1 => exact absurd h subscribe_diverge

theorem subscribed_of_unsubscribe (u : Nat) (s : Store) (hS : Subscribed s) :
    Subscribed (unsubscribe u s).store := by
  cases h : unsubscribe u s with
  | ok v s1 => exact subscribed_unsubscribe h hS
  | raise e s1 => rw [unsubscribe_raise h]; exact hS
  | diverge s1 => exact absurd h unsubscribe_diverge

theorem subscribe_store_idle (l : Val) (s : Store) (hidle : s.isDispatching = false) :
    (subscribe l s).store.isDispatching = false := by
  have h := subscribe_keepsFlag l s
  cases hs : subscribe l s with
  | ok v s1 => rw [hs] at h; exact Eq.trans h hidle
  | raise e s1 => rw [hs] at h; exact Eq.trans h hidle
  | diverge s1 => exact absurd hs subscribe_diverge

theorem unsubscribe_store_idle (u : Nat) (s : Store) (hidle : s.isDispatching = false) :
    (unsubscribe u s).store.isDispatching = false := by
  have h := unsubscribe_keepsFlag u s
  cases hs : unsubscribe u s with
  | ok v s1 => rw [hs] at h; exact Eq.trans h hidle
  | raise e s1 => rw [hs] at h; exact Eq.trans h hidle
  | diverge s1 => exact absurd hs unsubscribe_diverge

theorem applyCalls_subscribed (calls : List SubCall) :
    ∀ s : Store, s.isDispatching = false → Subscribed s →
      (applyCalls calls s).isDispatching = false ∧ Subscribed (applyCalls calls s) := by
  induction calls with
  | nil => intro s h1 h2; exact ⟨h1, h2⟩
  | cons c rest ih =>
    intro s h1 h2
    cases c with
    | subscribe l =>
      exact ih _ (subscribe_store_idle l s h1) (subscribed_of_subscribe l s h2)
    | unsubscribe u =>
      exact ih _ (unsubscribe_store_idle u s h1) (subscribed_of_unsubscribe u s h2)

theorem initialStore_subscribed (r p : Val) (k : Nat) :
    Subscribed { initialStore r p with allocated := k } := by
  refine ⟨?_, ?_, ?_, ?_⟩
  · intro c hc; simp [initialStore] at hc
  · simp [initialStore]
  · simp [initialStore, Store.array, activeListeners]
  · intro _; simp [initialStore, Store.array, activeListeners]

/-- A store returned by `createStore` is the store in which the bootstrap
`dispatch` returned, started from the initial closure variables. -/
theorem createStore_store (env : Env) (fuel : Nat) (reducer preloadedState enhancer : Val)
    (s : Store) (h : createStore env fuel reducer preloadedState enhancer = .store s) :
    ∃ p v, dispatch env fuel (initAction env) { initialStore reducer p with allocated := 1 } =
      .ok v s := by
  unfold createStore at h
  simp only [typeLiteral] at h
  repeat' split at h
  all_goals first
    | (rename_i v s1 hd
       injection h with h
       subst h
       exact ⟨_, v, hd⟩)
    | injection h

/-- Every store returned by `createStore` is idle and has a consistent
listener registry. -/
theorem createStore_subscribed (env : Env) (fuel : Nat) (reducer preloadedState enhancer : Val)
    (s : Store) (h : createStore env fuel reducer preloadedState enhancer = .store s) :
    s.isDispatching = false ∧ Subscribed s := by
  obtain ⟨p, v, hd⟩ := createStore_store env fuel reducer preloadedState enhancer s h
  have hk := dispatch_keepsFlag env fuel (initAction env)
    { initialStore reducer p with allocated := 1 }
  have hst := dispatch_stable env (stable_subscribed fuel) fuel (le_refl _) (initAction env)
    { initialStore reducer p with allocated := 1 } (initialStore_subscribed _ _ _)
  rw [hd] at hk hst
  exact ⟨hk, hst⟩

theorem idleStore_subscribed (f : Nat) : Subscribed (idleStore f) := by
  refine ⟨?_, ?_, ?_, ?_⟩
  · intro c hc; simp [idleStore] at hc
  · simp [idleStore]
  · simp [idleStore, Store.array, activeListeners]
  · intro _; simp [idleStore, Store.array, activeListeners]

theorem active_set_all (hs : List Handle) :
    ∀ (h : Nat) (c : Handle) (id : Nat), hs.get? h = some c → c.isSubscribed = true →
      c.listener = .fn id →
      (((hs.take h).filter (fun c => c.isSubscribed)).map (fun c => c.listener)).all
        (fun z => strictEq z (.fn id)) = true →
      Val.fn id :: ((hs.set h { c with isSubscribed := false }).filter
          (fun c => c.isSubscribed)).map (fun c => c.listener) =
        (hs.filter (fun c => c.isSubscribed)).map (fun c => c.listener) := by
  induction hs with
  | nil => intro h c id hc; simp at hc
  | cons c0 rest ih =>
    intro h c id hc hlive hfn hall
    cases h with
    | zero =>
      simp at hc
      subst hc
      simp [List.filter, hlive, hfn]
    | succ k =>
      have hc' : rest.get? k = some c := by simpa using hc
      cases h0 : c0.isSubscribed with
      | true =>
        simp only [List.take_succ_cons, List.filter_cons, h0, if_true, List.map_cons,
          List.all_cons, Bool.and_eq_true] at hall
        have e0 := strictEq_fn hall.1
        have := ih k c id hc' hlive hfn hall.2
        simp only [List.set_cons_succ, List.filter_cons, h0, if_true, List.map_cons]
        rw [← this, e0]
      | false =>
        simp only [List.take_succ_cons, List.filter_cons, h0, if_false, Bool.false_eq_true]
          at hall
        have := ih k c id hc' hlive hfn hall
        simp only [List.set_cons_succ, List.filter_cons, h0, if_false, Bool.false_eq_true]
        exact this

theorem active_set_trailing (hs : List Handle) :
    ∀ (h : Nat) (c : Handle) (id : Nat), hs.get? h = some c → c.isSubscribed = true →
      c.listener = .fn id →
      trailing (.fn id)
        (((hs.take h).filter (fun c => c.isSubscribed)).map (fun c => c.listener)) = true →
      ((hs.set h { c with isSubscribed := false }).filter (fun c => c.isSubscribed)).map
          (fun c => c.listener) =
        eraseFirst (.fn id) ((hs.filter (fun c => c.isSubscribed)).map (fun c => c.listener)) := by
  induction hs with
  | nil => intro h c id hc; simp at hc
  | cons c0 rest ih =>
    intro h c id hc hlive hfn htr
    cases h with
    | zero =>
      simp at hc
      subst hc
      simp [List.filter, hlive, eraseFirst, hfn, strictEq_fn_self]
    | succ k =>
      have hc' : rest.get? k = some c := by simpa using hc
      cases h0 : c0.isSubscribed with
      | true =>
        simp only [List.take_succ_cons, List.filter_cons, h0, if_true, List.map_cons,
          trailing] at htr
        by_cases hq : strictEq c0.listener (.fn id) = true
        · rw [if_pos hq] at htr
          have e0 := strictEq_fn hq
          have := active_set_all rest k c id hc' hlive hfn htr
          simp only [List.set_cons_succ, List.filter_cons, h0, if_true, List.map_cons,
            eraseFirst, hq]
          rw [e0]
          exact this
        · have hq2 : strictEq c0.listener (.fn id) = false := by simpa using hq
          rw [if_neg hq] at htr
          have := ih k c id hc' hlive hfn htr
          simp only [List.set_cons_succ, List.filter_cons, h0, if_true, List.map_cons,
            eraseFirst, hq2, Bool.false_eq_true, if_false]
          rw [this]
      | false =>
        simp only [List.take_succ_cons, List.filter_cons, h0, if_false, Bool.false_eq_true]
          at htr
        have := ih k c id hc' hlive hfn htr
        simp only [List.set_cons_succ, List.filter_cons, h0, if_false, Bool.false_eq_true]
        exact this

/-- A sequence of calls in which every unsubscribe call keeps the order
leaves the listener array in registration order. -/
theorem applyCalls_ordered (calls : List SubCall) :
    ∀ s : Store, s.isDispatching = false → Subscribed s →
      s.array s.nextListeners = activeListeners s → orderly calls s = true →
      (applyCalls calls s).array (applyCalls calls s).nextListeners =
        activeListeners (applyCalls calls s) := by
  induction calls with
  | nil => intro s _ _ h _; exact h
  | cons c rest ih =>
    intro s h1 h2 h3 h4
    cases c with
    | subscribe l =>
      refine ih _ (subscribe_store_idle l s h1) (subscribed_of_subscribe l s h2) ?_ h4
      cases hs : subscribe l s with
      | ok v s1 =>
        obtain ⟨_, r1, r2, _⟩ := subscribe_ok_registry hs h2.2.1
        show s1.array s1.nextListeners = activeListeners s1
        rw [r2, h3]
        simp only [activeListeners, r1]
        exact (active_append s.handles l).symm
      | raise e s1 => rw [subscribe_raise hs]; exact h3
      | diverge s1 => exact absurd hs subscribe_diverge
    | unsubscribe u =>
      simp only [orderly, Bool.and_eq_true] at h4
      refine ih _ (unsubscribe_store_idle u s h1) (subscribed_of_unsubscribe u s h2) ?_ h4.2
      cases hs : unsubscribe u s with
      | ok v s1 =>
        obtain ⟨a1, a2, a3, a4⟩ := h2
        obtain ⟨c, hc, q | q⟩ := unsubscribe_ok_registry hs a2
        · show s1.array s1.nextListeners = activeListeners s1
          rw [q.2]; exact h3
        · obtain ⟨hlive, _, r1, r2, r3⟩ := q
          obtain ⟨id, hid⟩ := eq_fn_of_typeOf (a1 c (List.get?_mem hc))
          have hperm := active_set_perm s.handles u c hc hlive
          have hmem : Val.fn id ∈ s.array s.nextListeners := by
            rw [← hid]
            exact (List.Perm.mem_iff a3).mpr
              ((List.Perm.mem_iff hperm).mpr (List.mem_cons_self _ _))
          obtain ⟨pre, post, p1, p2, p3⟩ := splice_indexOf id (s.array s.nextListeners) hmem
          have hk := h4.1
          simp only [keepsOrder, hc, hlive, Bool.not_true, Bool.false_or, hid] at hk
          show s1.array s1.nextListeners = activeListeners s1
          rw [r2, hid, p2, ← p3, h3]
          simp only [activeListeners, r1]
          exact (active_set_trailing s.handles u c id hc hlive hid hk).symm
      | raise e s1 => rw [unsubscribe_raise hs]; exact h3
      | diverge s1 => exact absurd hs unsubscribe_diverge


/-- A dispatch on a store without subscriptions leaves it without
subscriptions. -/
theorem dispatch_no_listeners (env : Env) (n : Nat) (a : Val) (s : Store)
    (hidle : s.isDispatching = false) (hh : s.handles = [])
    (harr : s.array s.nextListeners = []) (v : Val) (s1 : Store)
    (h : dispatch env (n + 1) a s = .ok v s1) :
    s1.handles = [] ∧ s1.array s1.nextListeners = [] := by
  have h0 : dispatchBody env (dispatch env n) (n + 1) a s = .ok v s1 := h
  have ha : ValidAction a := by
    by_cases h1 : isPlainObject a = true
    · by_cases h2 : typeOf (getProp a "type") = .undefined
      · simp [dispatchBody, h1, h2] at h0
      · exact ⟨h1, h2⟩
    · simp [dispatchBody, h1] at h0
  rw [dispatchBody_accepted env _ _ a s ha hidle] at h0
  have hb := callFn_busy env n s.currentReducer [s.currentState, a] (reducerEntry (n + 1) a s) rfl
  cases hc : callFn env (dispatch env n) s.currentReducer [s.currentState, a]
      (reducerEntry (n + 1) a s) with
  | diverge s2 => rw [hc] at h0; simp [afterReducer] at h0
  | raise e s2 => rw [hc] at h0; simp [afterReducer] at h0
  | ok w s2 =>
    rw [hc] at h0 hb
    have hb' : SameButReducer (reducerEntry (n + 1) a s) s2 := hb
    obtain ⟨_, b2, _, b4, _, b6, _⟩ := hb'
    have b2' : s2.arrays = s.arrays := b2
    have b4' : s2.nextListeners = s.nextListeners := b4
    have b6' : s2.handles = s.handles := b6
    have hA : (notifyEntry (n + 1) w s2).array s2.nextListeners = [] := by
      show s2.arrays.getD s2.nextListeners [] = []
      rw [b2', b4']; exact harr
    simp only [afterReducer] at h0
    unfold notifyListeners at h0
    rw [hA] at h0
    simp only [List.length_nil, Nat.lt_irrefl, if_false] at h0
    injection h0 with _ h5
    subst h5
    exact ⟨by show s2.handles = []; rw [b6', hh], hA⟩

/-- A store returned by `createStore` has no subscription and an empty
listener array. -/
theorem createStore_fresh (env : Env) (fuel : Nat) (reducer preloadedState enhancer : Val)
    (s : Store) (h : createStore env fuel reducer preloadedState enhancer = .store s) :
    s.handles = [] ∧ s.array s.nextListeners = [] := by
  obtain ⟨p, v, hd⟩ := createStore_store env fuel reducer preloadedState enhancer s h
  cases fuel with
  | zero => simp [dispatch] at hd
  | succ n =>
    exact dispatch_no_listeners env n (initAction env)
      { initialStore reducer p with allocated := 1 } rfl rfl rfl v s hd


/-- C9 (as stated) fails when a function is subscribed twice: after
subscribing functions 2, 5 and 2 again and unsubscribing the third
subscription, the live subscriptions are, in registration order, of function 2
and then function 5, but the next dispatch calls function 5 first and
function 2 second. -/
theorem C9_counterexample :
    activeListeners (applyCalls duplicateCalls (idleStore 0)) = [.fn 2, .fn 5] ∧
    (dispatch counterEnv 3 incAction (applyCalls duplicateCalls (idleStore 0))).Returned ∧
    eventsAt 3 (dispatch counterEnv 3 incAction
        (applyCalls duplicateCalls (idleStore 0))).store.log =
      [.reduce 3 (.fn 0) (.num 0) incAction true, .assign 3 (.num 1),
       .notify 3 (.fn 5) [] false, .notify 3 (.fn 2) [] false] :=
  ⟨rfl, returned_of_eq (dispatch counterEnv 3 incAction
      (applyCalls duplicateCalls (idleStore 0))).store rfl, rfl⟩

/-- C9 (amended): after any sequence of top-level subscribe and unsubscribe
calls on an idle store with a consistent registry, the array the next
dispatch iterates holds the listener of every live subscription, each function
as often as it has live subscriptions.  It holds them in registration order
when the array of the store the sequence started from did, as it does in every
store returned by `createStore`, and no unsubscribe call of the sequence
cancelled a subscription while a live subscription of another function stood
between it and an earlier live subscription of its own function; functions
subscribed several times, cancelled or not, are allowed.  A dispatch that
returns has recorded, at its level and in this order, the reducer call, the
replacement of the state, and one call with no argument of each entry of that
array; and it does return when the reducer call returns, the listeners return
and the fuel exceeds their number. -/
theorem C9_notification_order (env : Env) (n : Nat) (a : Val) (s0 : Store)
    (calls : List SubCall) (hidle : s0.isDispatching = false) (hS : Subscribed s0)
    (ha : ValidAction a) :
    List.Perm ((applyCalls calls s0).array (applyCalls calls s0).nextListeners)
      (activeListeners (applyCalls calls s0)) ∧
    (s0.array s0.nextListeners = activeListeners s0 → orderly calls s0 = true →
      (applyCalls calls s0).array (applyCalls calls s0).nextListeners =
        activeListeners (applyCalls calls s0)) ∧
    (∀ fuel r p u s, createStore env fuel r p u = .store s →
      s.isDispatching = false ∧ Subscribed s ∧
        s.array s.nextListeners = activeListeners s) ∧
    (((applyCalls calls s0).handles.map (fun c => c.listener)).Nodup →
      (applyCalls calls s0).array (applyCalls calls s0).nextListeners =
        activeListeners (applyCalls calls s0)) ∧
    (∀ v s1, dispatch env (n + 1) a (applyCalls calls s0) = .ok v s1 →
      ∃ w, eventsAt (n + 1) s1.log = eventsAt (n + 1) (applyCalls calls s0).log ++
        [.reduce (n + 1) (applyCalls calls s0).currentReducer
          (applyCalls calls s0).currentState a true, .assign (n + 1) w] ++
        notifyEvents (n + 1)
          ((applyCalls calls s0).array (applyCalls calls s0).nextListeners)) ∧
    (∀ w s2, callFn env (dispatch env n) (applyCalls calls s0).currentReducer
        [(applyCalls calls s0).currentState, a]
        (reducerEntry (n + 1) a (applyCalls calls s0)) = .ok w s2 →
      (∀ l ∈ (applyCalls calls s0).array (applyCalls calls s0).nextListeners, ∀ s3 : Store,
        s3.isDispatching = false → (callFn env (dispatch env n) l [] s3).Returned) →
      ((applyCalls calls s0).array (applyCalls calls s0).nextListeners).length ≤ n →
      (dispatch env (n + 1) a (applyCalls calls s0)).Returned) := by
  obtain ⟨h1, h2⟩ := applyCalls_subscribed calls s0 hidle hS
  obtain ⟨_, b2, b3, b4⟩ := h2
  refine ⟨b3, applyCalls_ordered calls s0 hidle hS, ?_, b4, ?_, ?_⟩
  · intro fuel r p u s hs
    obtain ⟨c1, c2⟩ := createStore_subscribed env fuel r p u s hs
    obtain ⟨c3, c4⟩ := createStore_fresh env fuel r p u s hs
    refine ⟨c1, c2, ?_⟩
    rw [c4]
    simp [activeListeners, c3]
  · intro v s1 h
    obtain ⟨w, s2, _, e2, _⟩ := dispatch_returned_events env n a _ ha h1 b2 v s1 h
    exact ⟨w, e2⟩
  · intro w s2 hred hret hlen
    exact dispatch_returns env n a _ ha h1 b2 w s2 hred hret hlen

theorem C9_witness :
    List.Perm ((applyCalls resubscribeCalls (idleStore 0)).array
        (applyCalls resubscribeCalls (idleStore 0)).nextListeners)
      (activeListeners (applyCalls resubscribeCalls (idleStore 0))) ∧
    ((idleStore 0).array (idleStore 0).nextListeners = activeListeners (idleStore 0) →
      orderly resubscribeCalls (idleStore 0) = true →
      (applyCalls resubscribeCalls (idleStore 0)).array
          (applyCalls resubscribeCalls (idleStore 0)).nextListeners =
        activeListeners (applyCalls resubscribeCalls (idleStore 0))) ∧
    (∀ fuel r p u s, createStore counterEnv fuel r p u = .store s →
      s.isDispatching = false ∧ Subscribed s ∧
        s.array s.nextListeners = activeListeners s) ∧
    (((applyCalls resubscribeCalls (idleStore 0)).handles.map (fun c => c.listener)).Nodup →
      (applyCalls resubscribeCalls (idleStore 0)).array
          (applyCalls resubscribeCalls (idleStore 0)).nextListeners =
        activeListeners (applyCalls resubscribeCalls (idleStore 0))) ∧
    (∀ v s1, dispatch counterEnv 3 incAction (applyCalls resubscribeCalls (idleStore 0)) =
        .ok v s1 →
      ∃ w, eventsAt 3 s1.log = eventsAt 3 (applyCalls resubscribeCalls (idleStore 0)).log ++
        [.reduce 3 (applyCalls resubscribeCalls (idleStore 0)).currentReducer
          (applyCalls resubscribeCalls (idleStore 0)).currentState incAction true,
          .assign 3 w] ++
        notifyEvents 3
          ((applyCalls resubscribeCalls (idleStore 0)).array
            (applyCalls resubscribeCalls (idleStore 0)).nextListeners)) ∧
    (∀ w s2, callFn counterEnv (dispatch counterEnv 2)
        (applyCalls resubscribeCalls (idleStore 0)).currentReducer
        [(applyCalls resubscribeCalls (idleStore 0)).currentState, incAction]
        (reducerEntry 3 incAction (applyCalls resubscribeCalls (idleStore 0))) = .ok w s2 →
      (∀ l ∈ (applyCalls resubscribeCalls (idleStore 0)).array
          (applyCalls resubscribeCalls (idleStore 0)).nextListeners, ∀ s3 : Store,
        s3.isDispatching = false → (callFn counterEnv (dispatch counterEnv 2) l [] s3).Returned) →
      ((applyCalls resubscribeCalls (idleStore 0)).array
        (applyCalls resubscribeCalls (idleStore 0)).nextListeners).length ≤ 2 →
      (dispatch counterEnv 3 incAction (applyCalls resubscribeCalls (idleStore 0))).Returned) :=
  C9_notification_order counterEnv 2 incAction (idleStore 0) resubscribeCalls rfl
    (idleStore_subscribed 0) ⟨rfl, by simp [incAction, getProp, List.lookup]⟩

/-- The sequences with a function subscribed twice that keep the order: a
function subscribed again after its subscription was cancelled, and a function
subscribed twice with neither subscription cancelled; both are orderly and the
dispatch calls the live subscriptions in registration order.  The sequence
that cancels the later of two subscriptions of function 2 around one of
function 5 is not orderly. -/
theorem repeated_listeners_in_order :
    orderly resubscribeCalls (idleStore 0) = true ∧
    activeListeners (applyCalls resubscribeCalls (idleStore 0)) = [.fn 2, .fn 5] ∧
    eventsAt 3 (dispatch counterEnv 3 incAction
        (applyCalls resubscribeCalls (idleStore 0))).store.log =
      [.reduce 3 (.fn 0) (.num 0) incAction true, .assign 3 (.num 1),
       .notify 3 (.fn 2) [] false, .notify 3 (.fn 5) [] false] ∧
    orderly repeatedCalls (idleStore 0) = true ∧
    activeListeners (applyCalls repeatedCalls (idleStore 0)) = [.fn 2, .fn 5, .fn 2] ∧
    eventsAt 4 (dispatch counterEnv 4 incAction
        (applyCalls repeatedCalls (idleStore 0))).store.log =
      [.reduce 4 (.fn 0) (.num 0) incAction true, .assign 4 (.num 1),
       .notify 4 (.fn 2) [] false, .notify 4 (.fn 5) [] false, .notify 4 (.fn 2) [] false] ∧
    orderly duplicateCalls (idleStore 0) = false :=
  ⟨rfl, rfl, rfl, rfl, rfl, rfl, rfl⟩

/-- With distinct listener functions the dispatch calls them in registration
order: function 2, then function 5. -/
theorem distinct_listeners_in_order :
    (dispatch counterEnv 3 incAction (applyCalls distinctCalls (idleStore 0))).Returned ∧
    eventsAt 3 (dispatch counterEnv 3 incAction
        (applyCalls distinctCalls (idleStore 0))).store.log =
      [.reduce 3 (.fn 0) (.num 0) incAction true, .assign 3 (.num 1),
       .notify 3 (.fn 2) [] false, .notify 3 (.fn 5) [] false] :=
  ⟨returned_of_eq (dispatch counterEnv 3 incAction
      (applyCalls distinctCalls (idleStore 0))).store rfl, rfl⟩

theorem stable_unsubscribed (n h : Nat) (l : Val) :
    Stable n (fun s => s.handles.get? h = some { listener := l, isSubscribed := false }) where
  log := fun _ _ _ hp => hp
  flag := fun _ _ hp => hp
  state := fun _ _ hp => hp
  reducer := fun _ _ hp => hp
  alloc := fun _ hp => hp
  promote := fun _ hp => hp
  subscribe := by
    intro s s1 l1 h1 hs hp
    obtain ⟨_, _, _, rfl⟩ := subscribe_ok hs
    have hlt : h < s.handles.length := by
      rcases Nat.lt_or_ge h s.handles.length with hlt | hge
      · exact hlt
      · rw [List.get?_eq_none.mpr hge] at hp; exact absurd hp (by simp)
    simp only [ensure_handles, List.get?_eq_getElem?] at hp ⊢
    rw [List.getElem?_append_left hlt]
    exact hp
  unsubscribe := by
    intro s s1 u hs hp
    obtain ⟨c, hc, h1 | h1⟩ := unsubscribe_ok hs
    · rw [h1.2]; exact hp
    · obtain ⟨hlive, _, rfl⟩ := h1
      have hne : u ≠ h := by
        intro heq
        subst heq
        rw [hc] at hp
        injection hp with hp
        rw [hp] at hlive
        exact absurd hlive (by simp)
      simp only [ensure_handles, List.get?_eq_getElem?] at hp ⊢
      rw [List.getElem?_set_ne hne]
      exact hp

theorem applyCalls_unsubscribed (h : Nat) (l : Val) (calls : List SubCall) :
    ∀ s : Store, s.handles.get? h = some { listener := l, isSubscribed := false } →
      (applyCalls calls s).handles.get? h = some { listener := l, isSubscribed := false } := by
  induction calls with
  | nil => intro s hp; exact hp
  | cons c rest ih =>
    intro s hp
    cases c with
    | subscribe l1 =>
      apply ih
      cases hs : subscribe l1 s with
      | ok v s1 => exact (stable_unsubscribed 0 h l).subscribe s s1 l1 v hs hp
      | raise e s1 => rw [subscribe_raise hs]; exact hp
      | diverge s1 => exact absurd hs subscribe_diverge
    | unsubscribe u =>
      apply ih
      cases hs : unsubscribe u s with
      | ok v s1 => exact (stable_unsubscribed 0 h l).unsubscribe s s1 u hs hp
      | raise e s1 => rw [unsubscribe_raise hs]; exact hp
      | diverge s1 => exact absurd hs unsubscribe_diverge

/-- C10: on an idle store with a consistent registry, the first call of the
unsubscribe function of a live subscription returns, having taken exactly one
occurrence of its listener out of the array reached through `nextListeners`,
the other entries keeping their order; the closure is then marked
unsubscribed, stays so through any later dispatch, subscribe or unsubscribe,
and every later call of that function returns leaving the store as it is,
whatever other subscriptions of the same listener exist.  The function
returned by `subscribe(listener)` is such a live subscription of `listener`. -/
theorem C10_unsubscribe (env : Env) (s : Store) (h : Nat) (c : Handle)
    (hidle : s.isDispatching = false) (hS : Subscribed s)
    (hc : s.handles.get? h = some c) (hlive : c.isSubscribed = true) :
    (∃ s1, unsubscribe h s = .ok () s1 ∧
      (∃ pre post, s.array s.nextListeners = pre ++ c.listener :: post ∧
        s1.array s1.nextListeners = pre ++ post) ∧
      s1.handles.get? h = some { c with isSubscribed := false } ∧
      s1.isDispatching = false ∧ Subscribed s1 ∧
      unsubscribe h s1 = .ok () s1 ∧
      (∀ fuel a, (dispatch env fuel a s1).store.handles.get? h =
        some { c with isSubscribed := false }) ∧
      (∀ calls, (applyCalls calls s1).handles.get? h = some { c with isSubscribed := false })) ∧
    (∀ s2 : Store, s2.handles.get? h = some { c with isSubscribed := false } →
      unsubscribe h s2 = .ok () s2) ∧
    (∀ (l : Val) (s0 s3 : Store) (h0 : Nat), subscribe l s0 = .ok h0 s3 →
      s3.handles.get? h0 = some { listener := l, isSubscribed := true }) := by
  have hdead : ∀ s2 : Store, s2.handles.get? h = some { c with isSubscribed := false } →
      unsubscribe h s2 = .ok () s2 := by
    intro s2 h2
    unfold unsubscribe
    rw [h2]
    simp
  refine ⟨?_, hdead, ?_⟩
  · cases hu : unsubscribe h s with
    | raise e s1 =>
      exfalso
      unfold unsubscribe at hu
      rw [hc] at hu
      simp [hlive, hidle] at hu
    | diverge s1 => exact absurd hu unsubscribe_diverge
    | ok u s1 =>
      obtain ⟨a1, a2, a3, a4⟩ := hS
      obtain ⟨c1, hc1, h1 | h1⟩ := unsubscribe_ok_registry hu a2
      · rw [hc] at hc1
        injection hc1 with hc1
        rw [← hc1, hlive] at h1
        exact absurd h1.1 (by simp)
      · rw [hc] at hc1
        injection hc1 with hc1
        subst hc1
        obtain ⟨_, _, r1, r2, r3⟩ := h1
        obtain ⟨id, hid⟩ := eq_fn_of_typeOf (a1 c (List.get?_mem hc))
        have hperm := active_set_perm s.handles h c hc hlive
        have hmem : Val.fn id ∈ s.array s.nextListeners := by
          rw [← hid]
          exact (List.Perm.mem_iff a3).mpr
            ((List.Perm.mem_iff hperm).mpr (List.mem_cons_self _ _))
        obtain ⟨pre, post, p1, p2, _⟩ := splice_indexOf id (s.array s.nextListeners) hmem
        have hget : s1.handles.get? h = some { c with isSubscribed := false } := by
          have hlt : h < s.handles.length := by
            rcases Nat.lt_or_ge h s.handles.length with hlt | hge
            · exact hlt
            · rw [List.get?_eq_none.mpr hge] at hc; exact absurd hc (by simp)
          rw [r1, List.get?_eq_getElem?, List.getElem?_set_self hlt]
        have hk := unsubscribe_keepsFlag h s
        rw [hu] at hk
        refine ⟨s1, rfl, ⟨pre, post, by rw [hid]; exact p1, by rw [r2, hid, p2]⟩, hget,
          Eq.trans hk hidle, subscribed_unsubscribe hu ⟨a1, a2, a3, a4⟩, hdead s1 hget, ?_, ?_⟩
        · intro fuel a
          exact dispatch_stable env (stable_unsubscribed fuel h c.listener) fuel (le_refl _) a s1
            hget
        · intro calls
          exact applyCalls_unsubscribed h c.listener calls s1 hget
  · intro l s0 s3 h0 hs
    obtain ⟨_, _, rfl, rfl⟩ := subscribe_ok hs
    simp [List.get?_eq_getElem?]

theorem C10_witness :
    (∃ s1, unsubscribe 0 (applyCalls duplicateCalls (idleStore 0)) = .ok () s1 ∧
      (∃ pre post, (applyCalls duplicateCalls (idleStore 0)).array
          (applyCalls duplicateCalls (idleStore 0)).nextListeners =
            pre ++ Val.fn 2 :: post ∧
        s1.array s1.nextListeners = pre ++ post) ∧
      s1.handles.get? 0 = some { listener := .fn 2, isSubscribed := false } ∧
      s1.isDispatching = false ∧ Subscribed s1 ∧
      unsubscribe 0 s1 = .ok () s1 ∧
      (∀ fuel a, (dispatch counterEnv fuel a s1).store.handles.get? 0 =
        some { listener := .fn 2, isSubscribed := false }) ∧
      (∀ calls, (applyCalls calls s1).handles.get? 0 =
        some { listener := .fn 2, isSubscribed := false })) ∧
    (∀ s2 : Store, s2.handles.get? 0 = some { listener := .fn 2, isSubscribed := false } →
      unsubscribe 0 s2 = .ok () s2) ∧
    (∀ (l : Val) (s0 s3 : Store) (h0 : Nat), subscribe l s0 = .ok h0 s3 →
      s3.handles.get? h0 = some { listener := l, isSubscribed := true }) :=
  C10_unsubscribe counterEnv (applyCalls duplicateCalls (idleStore 0)) 0
    { listener := .fn 2, isSubscribed := true } rfl
    (applyCalls_subscribed duplicateCalls (idleStore 0) rfl (idleStore_subscribed 0)).2 rfl rfl

/-! ### Claims C19 and C20 -/

theorem callFn_pure (env : Env) (disp : Val → Store → Outcome Val) (f : Nat)
    (r : Val → Val → Val) (hpure : PureReducer env f r) (st a : Val) (s : Store) :
    callFn env disp (.fn f) [st, a] s = .ok (r st a) s := by
  simp [callFn, hpure st a, run]

theorem replaceAction_valid (env : Env) (s : Store) : ValidAction (replaceAction env s) := by
  constructor
  · simp [replaceAction, isPlainObject, typeOf, strictEq, getPrototypeOf, protoLoop]
  · simp [replaceAction, getProp, List.lookup, typeOf]

theorem afterReducer_ok_store (env : Env) (disp : Val → Store → Outcome Val) (level : Nat)
    (a v : Val) (s2 : Store) :
    (afterReducer env disp level a (.ok v s2)).store =
      (notifyListeners env disp level s2.nextListeners level 0 (notifyEntry level v s2)).store := by
  simp only [afterReducer]
  cases notifyListeners env disp level s2.nextListeners level 0 (notifyEntry level v s2) <;> rfl

/-- A valid action dispatched to an idle store whose reducer is pure: the
record goes on with the reducer call and the replacement of the state by the
reducer's result. -/
theorem dispatch_pure_log (env : Env) (f : Nat) (r : Val → Val → Val)
    (hpure : PureReducer env f r) (m : Nat) (a : Val) (ha : ValidAction a) (s : Store)
    (hidle : s.isDispatching = false) (hred : s.currentReducer = .fn f) :
    ∃ t, (dispatch env (m + 1) a s).store.log =
      s.log ++ .reduce (m + 1) (.fn f) s.currentState a true ::
        .assign (m + 1) (r s.currentState a) :: t := by
  show ∃ t, (dispatchBody env (dispatch env m) (m + 1) a s).store.log = _
  rw [dispatchBody_accepted env _ _ a s ha hidle, hred,
    callFn_pure env _ f r hpure, afterReducer_ok_store]
  have hP := stable_logPrefix (m + 1)
    (s.log ++ [.reduce (m + 1) (.fn f) s.currentState a true,
      .assign (m + 1) (r s.currentState a)])
  obtain ⟨t, ht⟩ := notifyListeners_stable env (dispatch env m) hP
    (fun a s hs => dispatch_stable env hP m (by omega) a s hs) (dispatch_keepsFlag env m)
    (m + 1) (le_refl _) (reducerEntry (m + 1) a s).nextListeners (m + 1) 0
    (notifyEntry (m + 1) (r s.currentState a) (reducerEntry (m + 1) a s)) rfl
    ⟨[], by simp [notifyEntry, reducerEntry, hred]⟩
  exact ⟨t, by rw [ht]; simp⟩

/-- A notification pass over quiet listeners returns and leaves `currentState`
and `currentReducer` as they were. -/
theorem notifyListeners_quiet (env : Env) (n L : Nat) (A : List Val)
    (hq : ∀ l ∈ A, QuietListener env (dispatch env n) l) (gas : Nat) :
    ∀ (i : Nat) (s : Store), Frozen L A s → s.isDispatching = false → i ≤ A.length →
      A.length < gas + i →
      ∃ s1, notifyListeners env (dispatch env n) (n + 1) L gas i s = .ok () s1 ∧
        s1.currentState = s.currentState ∧ s1.currentReducer = s.currentReducer := by
  induction gas with
  | zero => intro i s _ _ h1 h2; omega
  | succ g ih =>
    intro i s hF hidle hi hg
    have hA : s.array L = A := hF.2.2
    unfold notifyListeners
    rw [hA]
    by_cases hlt : i < A.length
    · simp only [hlt, if_true]
      have hmem : A.getD i .undefined ∈ A := by
        rw [List.getD_eq_getElem?_getD, List.getElem?_eq_getElem hlt]
        exact List.getElem_mem hlt
      have hP1 := stable_frozen n L A
      have hd1 : ∀ a s, Frozen L A s → Frozen L A (dispatch env n a s).store :=
        fun a s hs => dispatch_stable env hP1 n (le_refl _) a s hs
      obtain ⟨v, s2, hc, q1, q2⟩ := hq _ hmem
        { s with log := s.log ++ [.notify (n + 1) (A.getD i .undefined) [] s.isDispatching] } hidle
      have c1 := callFn_stable env (dispatch env n) hP1 hd1 (A.getD i .undefined) []
        { s with log := s.log ++ [.notify (n + 1) (A.getD i .undefined) [] s.isDispatching] } hF
      have c3 := callFn_keepsFlag env (dispatch env n) (dispatch_keepsFlag env n)
        (A.getD i .undefined) []
        { s with log := s.log ++ [.notify (n + 1) (A.getD i .undefined) [] s.isDispatching] }
      rw [hc] at c1 c3
      simp only [hc]
      obtain ⟨s1, e1, e2, e3⟩ := ih (i + 1) s2 c1 (Eq.trans c3 hidle) hlt (by omega)
      exact ⟨s1, e1, e2.trans q1, e3.trans q2⟩
    · simp only [hlt, if_false]
      exact ⟨s, rfl, rfl, rfl⟩

/-- A valid action dispatched to an idle store with a pure reducer and quiet
listeners, with fuel above the number of listeners: the call returns the
action and the store holds the reducer's result. -/
theorem dispatch_quiet (env : Env) (f : Nat) (r : Val → Val → Val)
    (hpure : PureReducer env f r) (n : Nat) (a : Val) (ha : ValidAction a) (s : Store)
    (hidle : s.isDispatching = false) (hwf : s.nextListeners < s.arrays.length)
    (hred : s.currentReducer = .fn f)
    (hq : ∀ l ∈ s.array s.nextListeners, QuietListener env (dispatch env n) l)
    (hlen : (s.array s.nextListeners).length ≤ n) :
    ∃ s1, dispatch env (n + 1) a s = .ok a s1 ∧ s1.currentState = r s.currentState a ∧
      s1.currentReducer = .fn f ∧ s1.isDispatching = false ∧
      eventsAt (n + 1) s1.log = eventsAt (n + 1) s.log ++
        [.reduce (n + 1) (.fn f) s.currentState a true, .assign (n + 1) (r s.currentState a)] ++
        notifyEvents (n + 1) (s.array s.nextListeners) := by
  have hcall := callFn_pure env (dispatch env n) f r hpure s.currentState a
    (reducerEntry (n + 1) a s)
  have hF := notifyEntry_frozen (a := a) (n + 1) (r s.currentState a) s
    (reducerEntry (n + 1) a s) (sameButReducer_refl _) hwf
  obtain ⟨s1, e1, e2, e3⟩ := notifyListeners_quiet env n (reducerEntry (n + 1) a s).nextListeners
    (s.array s.nextListeners) hq (n + 1) 0
    (notifyEntry (n + 1) (r s.currentState a) (reducerEntry (n + 1) a s)) hF rfl
    (Nat.zero_le _) (by omega)
  have hd : dispatch env (n + 1) a s = .ok a s1 := by
    show dispatchBody env (dispatch env n) (n + 1) a s = _
    rw [dispatchBody_accepted env _ _ a s ha hidle, hred, hcall]
    simp only [afterReducer, e1]
  obtain ⟨w, s2, h1, h2, _, h4⟩ := dispatch_returned_events env n a s ha hidle hwf a s1 hd
  rw [hred, hcall] at h1
  injection h1 with h1 _
  subst h1
  refine ⟨s1, hd, e2, ?_, h4, ?_⟩
  · rw [e3]; exact hred
  · rw [h2, hred]

theorem quiet_of_ret (env : Env) (disp : Val → Store → Outcome Val) (id : Nat) (v : Val)
    (h : env.body id [] = .ret v) : QuietListener env disp (.fn id) := by
  intro s _
  exact ⟨v, s, by simp [callFn, h, run], rfl, rfl⟩

/-- `replaceReducer` with a pure reducer on an idle store with one listener,
given what the call of that listener does. -/
theorem replaceReducer_single (env : Env) (n f1 : Nat) (r1 : Val → Val → Val)
    (hpure : PureReducer env f1 r1) (s : Store) (l v : Val) (s2 : Store)
    (hidle : s.isDispatching = false) (hA : s.array s.nextListeners = [l])
    (hc : callFn env (dispatch env (n + 1)) l []
      { currentReducer := .fn f1, currentState := r1 s.currentState (replaceAction env s),
        arrays := s.arrays, currentListeners := s.nextListeners,
        nextListeners := s.nextListeners, isDispatching := false, handles := s.handles,
        allocated := s.allocated + 1,
        log := s.log ++ [.reduce (n + 2) (.fn f1) s.currentState (replaceAction env s) true] ++
          [.assign (n + 2) (r1 s.currentState (replaceAction env s))] ++
          [.notify (n + 2) l [] false] } = .ok v s2)
    (hA2 : s2.array s.nextListeners = [l]) :
    replaceReducer env (n + 2) (.fn f1) s = .ok () s2 := by
  have hcall := callFn_pure env (dispatch env (n + 1)) f1 r1 hpure s.currentState
    (replaceAction env s)
    (reducerEntry (n + 2) (replaceAction env s)
      { s with currentReducer := .fn f1, allocated := s.allocated + 1 })
  have hn : notifyListeners env (dispatch env (n + 1)) (n + 2) s.nextListeners (n + 2) 0
      (notifyEntry (n + 2) (r1 s.currentState (replaceAction env s))
        (reducerEntry (n + 2) (replaceAction env s)
          { s with currentReducer := .fn f1, allocated := s.allocated + 1 })) = .ok () s2 := by
    unfold notifyListeners
    have hA' : (notifyEntry (n + 2) (r1 s.currentState (replaceAction env s))
        (reducerEntry (n + 2) (replaceAction env s)
          { s with currentReducer := .fn f1, allocated := s.allocated + 1 })).array
          s.nextListeners = [l] := hA
    rw [hA']
    simp only [List.length_singleton, Nat.lt_one_iff, if_true, List.getD_cons_zero]
    have hc' : callFn env (dispatch env (n + 1)) l []
        { notifyEntry (n + 2) (r1 s.currentState (replaceAction env s))
            (reducerEntry (n + 2) (replaceAction env s)
              { s with currentReducer := .fn f1, allocated := s.allocated + 1 }) with
          log := (notifyEntry (n + 2) (r1 s.currentState (replaceAction env s))
            (reducerEntry (n + 2) (replaceAction env s)
              { s with currentReducer := .fn f1, allocated := s.allocated + 1 })).log ++
            [.notify (n + 2) l [] (notifyEntry (n + 2) (r1 s.currentState (replaceAction env s))
            (reducerEntry (n + 2) (replaceAction env s)
              { s with currentReducer := .fn f1, allocated := s.allocated + 1 })).isDispatching] }
        = .ok v s2 := hc
    rw [hc']
    simp only
    unfold notifyListeners
    rw [hA2]
    simp
  have hd : dispatch env (n + 2) (replaceAction env s)
      { s with currentReducer := .fn f1, allocated := s.allocated + 1 } =
      .ok (replaceAction env s) s2 := by
    show dispatchBody env (dispatch env (n + 1)) (n + 2) _ _ = _
    rw [dispatchBody_accepted env _ _ _
      { s with currentReducer := .fn f1, allocated := s.allocated + 1 }
      (replaceAction_valid env s) hidle]
    have hcall' : callFn env (dispatch env (n + 1)) (.fn f1) [s.currentState, replaceAction env s]
      (reducerEntry (n + 2) (replaceAction env s)
        { s with currentReducer := .fn f1, allocated := s.allocated + 1 }) = _ := hcall
    show afterReducer env (dispatch env (n + 1)) (n + 2) (replaceAction env s)
      (callFn env (dispatch env (n + 1)) (.fn f1) [s.currentState, replaceAction env s]
      (reducerEntry (n + 2) (replaceAction env s)
        { s with currentReducer := .fn f1, allocated := s.allocated + 1 })) = _
    rw [hcall']
    simp only [afterReducer]
    have hn' : notifyListeners env (dispatch env (n + 1)) (n + 2)
        (reducerEntry (n + 2) (replaceAction env s)
          { s with currentReducer := .fn f1, allocated := s.allocated + 1 }).nextListeners
        (n + 2) 0 (notifyEntry (n + 2) (r1 s.currentState (replaceAction env s))
        (reducerEntry (n + 2) (replaceAction env s)
          { s with currentReducer := .fn f1, allocated := s.allocated + 1 })) = .ok () s2 := hn
    rw [hn']
  simp only [replaceReducer, replaceReducerWith, typeOf_fn, ne_eq, not_true_eq_false,
    if_false, typeLiteral]
  have hd' : dispatch env (n + 2)
      (.obj (env.objRef s.allocated) [("type", .str (ActionTypes.REPLACE env))]
        [env.objectPrototype])
      { s with currentReducer := .fn f1, allocated := s.allocated + 1 } =
      .ok (replaceAction env s) s2 := hd
  rw [hd']

theorem rude_pure : PureReducer rudeEnv 0 counter := fun _ _ => rfl

set_option maxHeartbeats 4000000 in
/-- C19, the claim as stated fails, in three ways, each with `counter` passed
to `replaceReducer` on an idle store holding 0.  With a listener that
dispatches `{ type: 'INC' }` when it reads 0, the call returns, `counter`
gives 0 for the previous state and the replace action, but `getState()` is 1
and the listener was called twice.  With a listener that raises, subscribed
before a second listener, the call raises and one listener call was made, so
the second listener was not notified.  With a listener that cancels its
subscription and calls `replaceReducer` with the reducer
`(state, action) => state`, the call returns and a later dispatch of
`{ type: 'INC' }` leaves the state 0, where `counter` gives 1. -/
theorem C19_counterexample :
    ((storeWith 1 6).isDispatching = false ∧
      (storeWith 1 6).array (storeWith 1 6).nextListeners = [.fn 6] ∧
      replaceReducer eagerEnv 3 (.fn 0) (storeWith 1 6) =
        .ok () (replaceReducer eagerEnv 3 (.fn 0) (storeWith 1 6)).store ∧
      counter (storeWith 1 6).currentState (replaceAction eagerEnv (storeWith 1 6)) = .num 0 ∧
      getState (replaceReducer eagerEnv 3 (.fn 0) (storeWith 1 6)).store =
        .ok (.num 1) (replaceReducer eagerEnv 3 (.fn 0) (storeWith 1 6)).store ∧
      notifications (replaceReducer eagerEnv 3 (.fn 0) (storeWith 1 6)).store.log = 2) ∧
    ((storeWithTwo 1 6 2).isDispatching = false ∧
      (storeWithTwo 1 6 2).array (storeWithTwo 1 6 2).nextListeners = [.fn 6, .fn 2] ∧
      replaceReducer rudeEnv 3 (.fn 0) (storeWithTwo 1 6 2) =
        .raise (.thrown (.str "boom"))
          (replaceReducer rudeEnv 3 (.fn 0) (storeWithTwo 1 6 2)).store ∧
      notifications (replaceReducer rudeEnv 3 (.fn 0) (storeWithTwo 1 6 2)).store.log = 1) ∧
    ((storeWith 1 7).isDispatching = false ∧
      (storeWith 1 7).array (storeWith 1 7).nextListeners = [.fn 7] ∧
      replaceReducer rudeEnv 2 (.fn 0) (storeWith 1 7) = .ok () swappedStore ∧
      swappedStore.currentReducer = .fn 1 ∧
      getState swappedStore = .ok (.num 0) swappedStore ∧
      counter (.num 0) incAction = .num 1 ∧
      returnedWith (some (dispatch rudeEnv 2 incAction swappedStore)) =
        some (incAction, .num 0)) :=
  ⟨⟨rfl, rfl, rfl, rfl, rfl, rfl⟩, ⟨rfl, rfl, rfl, rfl⟩,
    ⟨rfl, rfl,
      replaceReducer_single rudeEnv 0 0 counter rude_pure (storeWith 1 7) (.fn 7) .undefined
        swappedStore rfl rfl rfl rfl,
      rfl, rfl, rfl, rfl⟩⟩

/-- C19 as amended: on an idle store whose listeners return and leave the
state and the reducer as they are, `replaceReducer(r1)` with a callable pure
`r1` and fuel above the number of listeners returns; afterwards `getState()`
is `r1(previous state, REPLACE action)`, `currentReducer` is `r1`, the call
recorded the reducer call, the state replacement and one call of each
listener, and every later dispatch of a valid action calls `r1` and replaces
the state by its result.  With an argument that is not callable
`replaceReducer` raises and leaves the store as it was. -/
theorem C19_replaceReducer (env : Env) (n : Nat) (s : Store) (f1 : Nat) (r1 : Val → Val → Val)
    (hidle : s.isDispatching = false) (hwf : s.nextListeners < s.arrays.length)
    (hpure : PureReducer env f1 r1) :
    ((∀ l ∈ s.array s.nextListeners, QuietListener env (dispatch env n) l) →
      (s.array s.nextListeners).length ≤ n →
      ∃ s1, replaceReducer env (n + 1) (.fn f1) s = .ok () s1 ∧
        getState s1 = .ok (r1 s.currentState (replaceAction env s)) s1 ∧
        s1.currentReducer = .fn f1 ∧
        eventsAt (n + 1) s1.log = eventsAt (n + 1) s.log ++
          [.reduce (n + 1) (.fn f1) s.currentState (replaceAction env s) true,
           .assign (n + 1) (r1 s.currentState (replaceAction env s))] ++
          notifyEvents (n + 1) (s.array s.nextListeners) ∧
        (∀ m a, ValidAction a → ∃ t, (dispatch env (m + 1) a s1).store.log =
          s1.log ++ .reduce (m + 1) (.fn f1) s1.currentState a true ::
            .assign (m + 1) (r1 s1.currentState a) :: t)) ∧
    (∀ v, typeOf v ≠ .function →
      replaceReducer env (n + 1) v s = .raise (.error msgNextReducer) s) := by
  refine ⟨?_, ?_⟩
  · intro hq hlen
    obtain ⟨s1, h1, h2, h3, h4, h5⟩ := dispatch_quiet env f1 r1 hpure n (replaceAction env s)
      (replaceAction_valid env s)
      { s with currentReducer := .fn f1, allocated := s.allocated + 1 } hidle hwf rfl hq hlen
    refine ⟨s1, ?_, ?_, h3, h5, ?_⟩
    · simp only [replaceReducer, replaceReducerWith, typeOf_fn, ne_eq, not_true_eq_false,
        if_false, typeLiteral]
      have h1' : dispatch env (n + 1)
          (.obj (env.objRef s.allocated) [("type", .str (ActionTypes.REPLACE env))]
            [env.objectPrototype])
          { s with currentReducer := .fn f1, allocated := s.allocated + 1 } =
          .ok (replaceAction env s) s1 := h1
      rw [h1']
    · simp only [getState, h4, Bool.false_eq_true, if_false]
      rw [h2]
    · intro m a ha
      have := dispatch_pure_log env f1 r1 hpure m a ha s1 h4 h3
      exact this
  · intro v hv
    simp [replaceReducer, replaceReducerWith, hv]

theorem C19_witness :
    ((∀ l ∈ (storeWith 1 2).array (storeWith 1 2).nextListeners,
        QuietListener readingEnv (dispatch readingEnv 1) l) →
      ((storeWith 1 2).array (storeWith 1 2).nextListeners).length ≤ 1 →
      ∃ s1, replaceReducer readingEnv 2 (.fn 0) (storeWith 1 2) = .ok () s1 ∧
        getState s1 = .ok (counter (storeWith 1 2).currentState
          (replaceAction readingEnv (storeWith 1 2))) s1 ∧
        s1.currentReducer = .fn 0 ∧
        eventsAt 2 s1.log = eventsAt 2 (storeWith 1 2).log ++
          [.reduce 2 (.fn 0) (storeWith 1 2).currentState
             (replaceAction readingEnv (storeWith 1 2)) true,
           .assign 2 (counter (storeWith 1 2).currentState
             (replaceAction readingEnv (storeWith 1 2)))] ++
          notifyEvents 2 ((storeWith 1 2).array (storeWith 1 2).nextListeners) ∧
        (∀ m a, ValidAction a → ∃ t, (dispatch readingEnv (m + 1) a s1).store.log =
          s1.log ++ .reduce (m + 1) (.fn 0) s1.currentState a true ::
            .assign (m + 1) (counter s1.currentState a) :: t)) ∧
    (∀ v, typeOf v ≠ .function →
      replaceReducer readingEnv 2 v (storeWith 1 2) =
        .raise (.error msgNextReducer) (storeWith 1 2)) :=
  C19_replaceReducer readingEnv 1 (storeWith 1 2) 0 counter rfl (by decide) (fun _ _ => rfl)

/-- The scenario of C19 evaluated: the store whose reducer is
`readingReducer`, holding 0 with one passive listener, gets `counter` as its
reducer; the state stays 0, the listener is called once, and a later
`dispatch({ type: 'INC' })` gives 1. -/
theorem replaceReducer_scenario :
    replaceReducer readingEnv 2 (.fn 0) (storeWith 1 2) =
      .ok () (replaceReducer readingEnv 2 (.fn 0) (storeWith 1 2)).store ∧
    (replaceReducer readingEnv 2 (.fn 0) (storeWith 1 2)).store.currentReducer = .fn 0 ∧
    (replaceReducer readingEnv 2 (.fn 0) (storeWith 1 2)).store.currentState = .num 0 ∧
    eventsAt 2 (replaceReducer readingEnv 2 (.fn 0) (storeWith 1 2)).store.log =
      [.reduce 2 (.fn 0) (.num 0) (replaceAction readingEnv (storeWith 1 2)) true,
       .assign 2 (.num 0), .notify 2 (.fn 2) [] false] ∧
    getState (dispatch readingEnv 2 incAction
        (replaceReducer readingEnv 2 (.fn 0) (storeWith 1 2)).store).store =
      .ok (.num 1) (dispatch readingEnv 2 incAction
        (replaceReducer readingEnv 2 (.fn 0) (storeWith 1 2)).store).store :=
  ⟨rfl, rfl, rfl, rfl, rfl⟩

/-- What does hold while a reducer is executing (`isDispatching` is true):
`dispatch`, `subscribe`, `unsubscribe` and `getState` leave the whole store as
it is, `replaceReducer` with an argument that is not callable too, and
`replaceReducer` with a callable argument leaves everything but
`currentReducer` and the allocation count as it is. -/
theorem busy_operations_frame (env : Env) (fuel : Nat) (s : Store)
    (hbusy : s.isDispatching = true) :
    (∀ a, (dispatch env fuel a s).store = s) ∧
    (∀ l, (subscribe l s).store = s) ∧
    (∀ h, (unsubscribe h s).store = s) ∧
    (getState s).store = s ∧
    (∀ v, typeOf v ≠ .function → (replaceReducer env fuel v s).store = s) ∧
    (∀ v, SameButReducer s (replaceReducer env fuel v s).store) := by
  refine ⟨fun a => dispatch_busy env fuel a s hbusy, fun l => subscribe_busy l s hbusy,
    fun h => unsubscribe_busy h s hbusy, getState_store s, ?_, ?_⟩
  · intro v hv
    simp [replaceReducer, replaceReducerWith, hv, Outcome.store]
  · intro v
    exact replaceReducerWith_busy env _ (fun a s hs => dispatch_busy env fuel a s hs) v s hbusy

/-- C20, the code at the failing input: called while a reducer is executing,
`replaceReducer(f)` with a callable `f` raises the reentrancy error of its
inner `dispatch` only after it has assigned `currentReducer`. -/
theorem C20_replaceReducer_writes_currentReducer (env : Env) (n : Nat) (s : Store) (f : Nat)
    (hbusy : s.isDispatching = true) :
    replaceReducer env (n + 1) (.fn f) s =
      .raise (.error msgDispatch)
        { s with currentReducer := .fn f, allocated := s.allocated + 1 } := by
  simp only [replaceReducer, replaceReducerWith, typeOf_fn, ne_eq, not_true_eq_false, if_false,
    typeLiteral]
  have h := dispatchBody_dispatching env (dispatch env n) (n + 1) (replaceAction env s)
    { s with currentReducer := .fn f, allocated := s.allocated + 1 }
    (replaceAction_valid env s) hbusy
  have h' : dispatch env (n + 1)
      (.obj (env.objRef s.allocated) [("type", .str (ActionTypes.REPLACE env))]
        [env.objectPrototype])
      { s with currentReducer := .fn f, allocated := s.allocated + 1 } =
      .raise (.error msgDispatch)
        { s with currentReducer := .fn f, allocated := s.allocated + 1 } := h
  rw [h']

theorem C20_witness :
    replaceReducer counterEnv 1 (.fn 7) busyStore =
      .raise (.error msgDispatch)
        { busyStore with currentReducer := .fn 7, allocated := busyStore.allocated + 1 } :=
  C20_replaceReducer_writes_currentReducer counterEnv 0 busyStore 7 rfl

/-- The failing input of C20 as a whole program: the reducer of the store is
`swappingReducer`, which calls `store.replaceReducer(counter)` and swallows
the exception.  `dispatch({ type: 'INC' })` returns, and the store is left
with `counter` as its reducer although no `replaceReducer` call returned and
no REPLACE action was handled. -/
theorem reducer_swaps_reducer :
    (dispatch swapEnv 2 incAction (idleStore 8)).Returned ∧
    (idleStore 8).currentReducer = .fn 8 ∧
    (dispatch swapEnv 2 incAction (idleStore 8)).store.currentReducer = .fn 0 ∧
    (dispatch swapEnv 2 incAction (idleStore 8)).store.log =
      [.reduce 2 (.fn 8) (.num 0) incAction true, .assign 2 (.num 0)] :=
  ⟨returned_of_eq (dispatch swapEnv 2 incAction (idleStore 8)).store rfl, rfl, rfl, rfl⟩

/-! ### Claim C15 -/

theorem foldl_compose_apply {m : Type → Type} [Monad m] [LawfulMonad m] {α : Type}
    (fs : List (α → m α)) :
    ∀ (f : α → m α) (x : α),
      fs.foldl (fun a b => fun args => b args >>= a) f x = applyRightToLeft fs x >>= f := by
  induction fs with
  | nil => intro f x; simp [applyRightToLeft]
  | cons g rest ih =>
    intro f x
    simp only [List.foldl_cons, ih, applyRightToLeft, List.foldr_cons, bind_assoc]

/-- In a lawful monad `compose` is right-to-left application. -/
theorem compose_eq_applyRightToLeft {m : Type → Type} [Monad m] [LawfulMonad m] {α : Type}
    (fs : List (α → m α)) (x : α) : compose fs x = applyRightToLeft fs x := by
  match fs with
  | [] => rfl
  | [f] => simp [compose, applyRightToLeft]
  | f :: g :: rest =>
    simp only [compose, foldl_compose_apply]
    simp [applyRightToLeft]

/-- C15: for unary functions that return or raise, `compose(...fs)(x)` is the
right-to-left application of `fs` to `x` (the right fold, the last function
applied first); `compose()` is the identity function, `compose(f)` is `f`
itself, and `compose(f, g, h)(x)` is `f(g(h(x)))`. -/
theorem C15_compose :
    (∀ (fs : List (Val → Except Err Val)) (x : Val),
      compose fs x = fs.foldr (fun f acc => acc >>= f) (pure x)) ∧
    (∀ x : Val, compose (m := Except Err) [] x = .ok x) ∧
    (∀ f : Val → Except Err Val, compose [f] = f) ∧
    (∀ (f g h : Val → Except Err Val) (x : Val),
      compose [f, g, h] x = h x >>= fun y => g y >>= fun z => f z) := by
  refine ⟨fun fs x => compose_eq_applyRightToLeft fs x, fun x => rfl, fun f => rfl, ?_⟩
  intro f g h x
  simp [compose]

/-! ### Claims C16, C17, C18 -/

theorem compose_id_foldr {α : Type} (fs : List (α → Id α)) (x : α) :
    compose (m := Id) fs x = fs.foldr (fun f acc => f acc) x := by
  rw [compose_eq_applyRightToLeft]
  induction fs with
  | nil => rfl
  | cons f rest ih =>
    simp only [applyRightToLeft, List.foldr_cons] at ih ⊢
    rw [← ih]
    rfl

/-- The composed dispatch is the chain of handlers around the store's
`dispatch`, the first handler outermost. -/
theorem composedDispatch_succ (store : StoreApi) (chain : List Handler) (depth : Nat) :
    composedDispatch store chain (depth + 1) =
      chain.foldr (fun h next => h (middlewareAPI store (composedDispatch store chain depth)) next)
        store.dispatch := by
  show compose (m := Id) _ _ = _
  rw [compose_id_foldr, List.foldr_map]

theorem mapSetup_length (api : MiddlewareAPI) (mws : List Middleware) :
    ∀ (s s1 : Store) (chain : List Handler), mapSetup api mws s = .ok chain s1 →
      chain.length = mws.length := by
  induction mws with
  | nil =>
    intro s s1 chain h
    simp only [mapSetup] at h
    injection h with h1 _
    subst h1; rfl
  | cons m rest ih =>
    intro s s1 chain h
    simp only [mapSetup] at h
    cases hm : runSetup api m s with
    | diverge t => rw [hm] at h; simp at h
    | raise e t => rw [hm] at h; simp at h
    | ok hd t =>
      rw [hm] at h
      simp only at h
      cases hr : mapSetup api rest t with
      | diverge t2 => rw [hr] at h; simp at h
      | raise e t2 => rw [hr] at h; simp at h
      | ok hs t2 =>
        rw [hr] at h
        injection h with h1 _
        subst h1
        simp [ih t t2 hs hr]

/-- How `applyMiddleware` ends when `createStore` returns a store and every
middleware returns its handler. -/
theorem applyMiddleware_store (env : Env) (fuel : Nat) (mws : List Middleware) (r p u : Val)
    (s0 s1 : Store) (chain : List Handler)
    (hc : createStore env fuel r p u = .store s0)
    (hs : mapSetup (middlewareAPI (storeApi env fuel) placeholderDispatch) mws s0 =
      .ok chain s1) :
    applyMiddleware env fuel mws r p u =
      .store { storeApi env fuel with
        dispatch := composedDispatch (storeApi env fuel) chain fuel } s1 := by
  simp only [applyMiddleware, hc, hs]

/-- C16: when `createStore` returns a store and every middleware returns its
handler, `applyMiddleware(m1..mn)(createStore)(...)` returns a store whose
`dispatch` is `h1(h2(... hn(store.dispatch)))`, with `hi` the handler returned
by the call `mi(middlewareAPI)`: the first handler is outermost and the
store's own `dispatch` innermost.  Every other field is the field of the
underlying store, and with no middleware the result is the underlying store. -/
theorem C16_applyMiddleware (env : Env) (n : Nat) (mws : List Middleware) (r p u : Val)
    (s0 s1 : Store) (chain : List Handler)
    (hc : createStore env (n + 1) r p u = .store s0)
    (hs : mapSetup (middlewareAPI (storeApi env (n + 1)) placeholderDispatch) mws s0 =
      .ok chain s1) :
    ∃ api, applyMiddleware env (n + 1) mws r p u = .store api s1 ∧
      chain.length = mws.length ∧
      api.dispatch = chain.foldr
        (fun h next => h (middlewareAPI (storeApi env (n + 1))
          (composedDispatch (storeApi env (n + 1)) chain n)) next)
        (dispatch env (n + 1)) ∧
      api.getState = getState ∧ api.subscribe = subscribe ∧
      api.replaceReducer = replaceReducer env (n + 1) ∧
      api.observable = (storeApi env (n + 1)).observable ∧
      (mws = [] → api = storeApi env (n + 1) ∧ s1 = s0) := by
  refine ⟨{ storeApi env (n + 1) with
    dispatch := composedDispatch (storeApi env (n + 1)) chain (n + 1) }, ?_,
    mapSetup_length _ mws s0 s1 chain hs, ?_, rfl, rfl, rfl, rfl, ?_⟩
  · simp only [applyMiddleware, hc, hs]
  · exact composedDispatch_succ _ _ _
  · intro hnil
    subst hnil
    simp only [mapSetup] at hs
    injection hs with h1 h2
    subst h1
    exact ⟨rfl, h2.symm⟩

theorem C16_witness :
    createStore counterEnv 2 (.fn 0) .undefined .undefined = .store (counterStore 2) ∧
    mapSetup (middlewareAPI (storeApi counterEnv 2) placeholderDispatch)
      [renameMiddleware "A" (actionOf 300 "B"), renameMiddleware "B" incAction]
      (counterStore 2) =
      .ok [renameHandler "A" (actionOf 300 "B"), renameHandler "B" incAction] (counterStore 2) ∧
    ∃ api, applyMiddleware counterEnv 2
        [renameMiddleware "A" (actionOf 300 "B"), renameMiddleware "B" incAction]
        (.fn 0) .undefined .undefined = .store api (counterStore 2) ∧
      [renameHandler "A" (actionOf 300 "B"), renameHandler "B" incAction].length =
        [renameMiddleware "A" (actionOf 300 "B"), renameMiddleware "B" incAction].length ∧
      api.dispatch = [renameHandler "A" (actionOf 300 "B"), renameHandler "B" incAction].foldr
        (fun h next => h (middlewareAPI (storeApi counterEnv 2)
          (composedDispatch (storeApi counterEnv 2)
            [renameHandler "A" (actionOf 300 "B"), renameHandler "B" incAction] 1)) next)
        (dispatch counterEnv 2) ∧
      api.getState = getState ∧ api.subscribe = subscribe ∧
      api.replaceReducer = replaceReducer counterEnv 2 ∧
      api.observable = (storeApi counterEnv 2).observable ∧
      ([renameMiddleware "A" (actionOf 300 "B"), renameMiddleware "B" incAction] = [] →
        api = storeApi counterEnv 2 ∧ counterStore 2 = counterStore 2) :=
  ⟨rfl, rfl, C16_applyMiddleware counterEnv 1
    [renameMiddleware "A" (actionOf 300 "B"), renameMiddleware "B" incAction]
    (.fn 0) .undefined .undefined (counterStore 2) (counterStore 2)
    [renameHandler "A" (actionOf 300 "B"), renameHandler "B" incAction] rfl rfl⟩

/-- The order of the chain, evaluated.  The first middleware turns an action
of type `'A'` into one of type `'B'`, the second turns `'B'` into `'INC'`:
`dispatch({ type: 'A' })` reaches `counter` as `'INC'` and the state becomes 1.
With the two middlewares listed the other way round the store receives `'B'`
and the state stays 0. -/
theorem middleware_order :
    returnedWith (enhancedDispatchOnce counterEnv 2
        [renameMiddleware "A" (actionOf 300 "B"), renameMiddleware "B" incAction]
        (.fn 0) (actionOf 301 "A")) = some (incAction, .num 1) ∧
    returnedWith (enhancedDispatchOnce counterEnv 2
        [renameMiddleware "B" incAction, renameMiddleware "A" (actionOf 300 "B")]
        (.fn 0) (actionOf 301 "A")) = some (actionOf 300 "B", .num 0) :=
  ⟨rfl, rfl⟩

/-! #### Forwarding middleware -/

theorem foldr_forwarding (api : MiddlewareAPI) (base : Dispatch)
    (hg : ∀ t, api.getState t = getState t)
    (hb : ∀ a t, t.isDispatching = false → KeepsFlag t (base a t)) :
    ∀ chain : List Handler, (∀ h ∈ chain, ForwardingHandler h) →
      ∀ a s, s.isDispatching = false →
        chain.foldr (fun h next => h api next) base a s = base a s := by
  intro chain
  induction chain with
  | nil => intro _ a s _; rfl
  | cons h rest ih =>
    intro hall a s hidle
    have ihr := ih (fun g hgm => hall g (List.mem_cons_of_mem _ hgm))
    have hk : ∀ a t, t.isDispatching = false →
        KeepsFlag t (rest.foldr (fun h next => h api next) base a t) := by
      intro a t ht
      rw [ihr a t ht]
      exact hb a t ht
    show h api (rest.foldr (fun h next => h api next) base) a s = base a s
    rw [hall h (List.mem_cons_self _ _) api _ hg hk a s hidle]
    exact ihr a s hidle

theorem mapSetup_forwarding (api : MiddlewareAPI) (mws : List Middleware)
    (hf : ∀ m ∈ mws, Forwarding m) (s : Store) :
    ∃ chain, mapSetup api mws s = .ok chain s ∧ ∀ h ∈ chain, ForwardingHandler h := by
  induction mws with
  | nil => exact ⟨[], rfl, fun h hm => absurd hm (List.not_mem_nil _)⟩
  | cons m rest ih =>
    obtain ⟨h, hm, hfw⟩ := hf m (List.mem_cons_self _ _)
    obtain ⟨chain, hc, hall⟩ := ih (fun g hgm => hf g (List.mem_cons_of_mem _ hgm))
    refine ⟨h :: chain, ?_, ?_⟩
    · subst hm
      simp only [mapSetup, runSetup, hc]
    · intro g hg
      rcases List.mem_cons.mp hg with rfl | hg
      · exact hfw
      · exact hall g hg

theorem dispatchEach_congr (d1 d2 : Dispatch)
    (heq : ∀ a s, s.isDispatching = false → d1 a s = d2 a s)
    (hk : ∀ a s, s.isDispatching = false → KeepsFlag s (d2 a s)) :
    ∀ (actions : List Val) (s : Store), s.isDispatching = false →
      dispatchEach d1 actions s = dispatchEach d2 actions s := by
  intro actions
  induction actions with
  | nil => intro s _; rfl
  | cons a rest ih =>
    intro s hidle
    have hks := hk a s hidle
    simp only [dispatchEach, heq a s hidle]
    cases hd : d2 a s with
    | diverge s1 => rfl
    | ok v s1 =>
      rw [hd] at hks
      have h1 : s1.isDispatching = false := by rw [← hidle]; exact hks
      simp only [ih s1 h1]
    | raise e s1 =>
      rw [hd] at hks
      have h1 : s1.isDispatching = false := by rw [← hidle]; exact hks
      simp only [ih s1 h1]

theorem getState_idle (s : Store) (h : s.isDispatching = false) :
    getState s = .ok s.currentState s := by
  simp [getState, h]

/-- The logging middleware forwards. -/
theorem logger_forwarding : Forwarding loggerMiddleware := by
  refine ⟨loggerHandler, rfl, ?_⟩
  intro api next hg hk a s hidle
  have hks := hk a s hidle
  simp only [loggerHandler, hg, getState_idle s hidle]
  cases hn : next a s with
  | diverge s1 => rfl
  | raise e s1 => rfl
  | ok v s1 =>
    rw [hn] at hks
    have h1 : s1.isDispatching = false := by rw [← hidle]; exact hks
    simp only [getState_idle s1 h1]

/-- C17: with middlewares that forward, `applyMiddleware(...)(createStore)`
returns a store in the state of the store `createStore` returns for the same
reducer and preloaded state; every sequence of dispatches gives, call by call,
the same outcome (value returned or exception raised, and store left) as on
that store; and a dispatch of a valid action that returns has called the
reducer once, replaced the state once and notified each listener once. -/
theorem C17_forwarding_middleware (env : Env) (n : Nat) (mws : List Middleware) (r p : Val)
    (s0 : Store) (hf : ∀ m ∈ mws, Forwarding m)
    (hc : createStore env (n + 1) r p .undefined = .store s0) :
    ∃ api, applyMiddleware env (n + 1) mws r p .undefined = .store api s0 ∧
      api.getState = getState ∧
      (∀ actions, dispatchEach api.dispatch actions s0 =
        dispatchEach (dispatch env (n + 1)) actions s0) ∧
      (∀ a s v s1, ValidAction a → s.isDispatching = false →
        s.nextListeners < s.arrays.length → api.dispatch a s = .ok v s1 →
        v = a ∧ ∃ w, eventsAt (n + 1) s1.log = eventsAt (n + 1) s.log ++
          [.reduce (n + 1) s.currentReducer s.currentState a true, .assign (n + 1) w] ++
          notifyEvents (n + 1) (s.array s.nextListeners)) := by
  obtain ⟨chain, hs, hall⟩ := mapSetup_forwarding
    (middlewareAPI (storeApi env (n + 1)) placeholderDispatch) mws hf s0
  have heq : ∀ a s, s.isDispatching = false →
      composedDispatch (storeApi env (n + 1)) chain (n + 1) a s = dispatch env (n + 1) a s := by
    intro a s hidle
    rw [composedDispatch_succ]
    exact foldr_forwarding _ (dispatch env (n + 1)) (fun t => rfl)
      (fun a t _ => dispatch_keepsFlag env (n + 1) a t) chain hall a s hidle
  have hidle0 : s0.isDispatching = false := (createStore_subscribed env _ r p _ s0 hc).1
  refine ⟨{ storeApi env (n + 1) with
    dispatch := composedDispatch (storeApi env (n + 1)) chain (n + 1) }, ?_, rfl, ?_, ?_⟩
  · simp only [applyMiddleware, hc, hs]
  · intro actions
    exact dispatchEach_congr _ _ heq (fun a t _ => dispatch_keepsFlag env (n + 1) a t)
      actions s0 hidle0
  · intro a s v s1 ha hidle hwf hd
    have hd' : dispatch env (n + 1) a s = .ok v s1 := by rw [← heq a s hidle]; exact hd
    obtain ⟨w, s2, _, hev, _, _⟩ := dispatch_returned_events env n a s ha hidle hwf v s1 hd'
    refine ⟨?_, w, hev⟩
    have h0 : dispatchBody env (dispatch env n) (n + 1) a s = .ok v s1 := hd'
    rw [dispatchBody_accepted env _ _ a s ha hidle] at h0
    revert h0
    cases callFn env (dispatch env n) s.currentReducer [s.currentState, a]
        (reducerEntry (n + 1) a s) with
    | diverge t => simp [afterReducer]
    | raise e t => simp [afterReducer]
    | ok w2 t =>
      simp only [afterReducer]
      cases notifyListeners env (dispatch env n) (n + 1) t.nextListeners (n + 1) 0
          (notifyEntry (n + 1) w2 t) with
      | diverge t2 => simp
      | raise e t2 => simp
      | ok u t2 =>
        intro h0
        injection h0 with h1 _
        exact h1.symm

theorem C17_witness :
    (∀ m ∈ [loggerMiddleware], Forwarding m) ∧
    createStore counterEnv 1 (.fn 0) .undefined .undefined = .store (counterStore 1) ∧
    ∃ api, applyMiddleware counterEnv 1 [loggerMiddleware] (.fn 0) .undefined .undefined =
        .store api (counterStore 1) ∧
      api.getState = getState ∧
      (∀ actions, dispatchEach api.dispatch actions (counterStore 1) =
        dispatchEach (dispatch counterEnv 1) actions (counterStore 1)) ∧
      (∀ a s v s1, ValidAction a → s.isDispatching = false →
        s.nextListeners < s.arrays.length → api.dispatch a s = .ok v s1 →
        v = a ∧ ∃ w, eventsAt 1 s1.log = eventsAt 1 s.log ++
          [.reduce 1 s.currentReducer s.currentState a true, .assign 1 w] ++
          notifyEvents 1 (s.array s.nextListeners)) :=
  ⟨fun m hm => by rw [List.mem_singleton.mp hm]; exact logger_forwarding, rfl,
   C17_forwarding_middleware counterEnv 0 [loggerMiddleware] (.fn 0) .undefined (counterStore 1)
    (fun m hm => by rw [List.mem_singleton.mp hm]; exact logger_forwarding) rfl⟩

/-- The scenario of C17 evaluated: behind the logging middleware,
`dispatch({ type: 'INC' })` returns the action, the state goes from 0 to 1,
and the record gains one reducer call and one state replacement. -/
theorem logger_scenario :
    returnedWith (enhancedDispatchOnce counterEnv 1 [loggerMiddleware] (.fn 0) incAction) =
      some (incAction, .num 1) ∧
    (enhancedDispatchOnce counterEnv 1 [loggerMiddleware] (.fn 0) incAction).map
        (fun o => o.store.log) =
      some ((counterStore 1).log ++
        [.reduce 1 (.fn 0) (.num 0) incAction true, .assign 1 (.num 1)]) ∧
    enhancedDispatchOnce counterEnv 1 [loggerMiddleware] (.fn 0) incAction =
      some (dispatch counterEnv 1 incAction (counterStore 1)) :=
  ⟨rfl, rfl, rfl⟩

/-! #### The API object's `dispatch` -/

theorem runSetup_placeholder (store : StoreApi) (a : Val) (k : Except Err Val → Middleware)
    (s : Store) :
    runSetup (middlewareAPI store placeholderDispatch) (.dispatch a k) s =
      runSetup (middlewareAPI store placeholderDispatch) (k (.error (.error msgConstructing))) s := by
  simp only [runSetup, middlewareAPI, placeholderDispatch]

theorem mapSetup_placeholder (store : StoreApi) (a : Val) (k : Except Err Val → Middleware)
    (rest : List Middleware) (pre : List Middleware) :
    ∀ s : Store,
      mapSetup (middlewareAPI store placeholderDispatch) (pre ++ .dispatch a k :: rest) s =
        mapSetup (middlewareAPI store placeholderDispatch)
          (pre ++ k (.error (.error msgConstructing)) :: rest) s := by
  induction pre with
  | nil =>
    intro s
    simp only [List.nil_append, mapSetup, runSetup_placeholder]
  | cons m pre ih =>
    intro s
    simp only [List.cons_append, mapSetup]
    cases runSetup (middlewareAPI store placeholderDispatch) m s with
    | diverge t => rfl
    | raise e t => rfl
    | ok h t =>
      simp only [List.append_eq]
      rw [ih t]

/-- C18: while `applyMiddleware` calls the middlewares, a call
`api.dispatch(a)` raises the construction error in the store as it stands,
whatever the action, the store and the middlewares: the middleware goes on
with that exception, and the whole construction is the one in which the call
is replaced by the raise.  Once `applyMiddleware` has returned a store, with
`chain` the handlers the calls of the middlewares returned, the `dispatch` of
that store is the chain around the store's `dispatch`, every handler holding
the API object; and a call `api.dispatch(a)` on that object is again the whole
chain, entered at the first handler, with the store's `dispatch` innermost. -/
theorem C18_api_dispatch (env : Env) (n : Nat) :
    (∀ (store : StoreApi) (a : Val) (s : Store),
      (middlewareAPI store placeholderDispatch).dispatch a s =
        .raise (.error msgConstructing) s) ∧
    (∀ (store : StoreApi) (a : Val) (k : Except Err Val → Middleware) (s : Store),
      runSetup (middlewareAPI store placeholderDispatch) (.dispatch a k) s =
        runSetup (middlewareAPI store placeholderDispatch)
          (k (.error (.error msgConstructing))) s) ∧
    (∀ (pre rest : List Middleware) (a : Val) (k : Except Err Val → Middleware) (r p u : Val),
      applyMiddleware env n (pre ++ .dispatch a k :: rest) r p u =
        applyMiddleware env n (pre ++ k (.error (.error msgConstructing)) :: rest) r p u) ∧
    (∀ (mws : List Middleware) (r p u : Val) (api : StoreApi) (s : Store),
      applyMiddleware env (n + 1) mws r p u = .store api s →
      ∃ (chain : List Handler) (s0 : Store),
        createStore env (n + 1) r p u = .store s0 ∧
        mapSetup (middlewareAPI (storeApi env (n + 1)) placeholderDispatch) mws s0 =
          .ok chain s ∧
        api.dispatch = chain.foldr
          (fun h next => h (middlewareAPI (storeApi env (n + 1))
            (composedDispatch (storeApi env (n + 1)) chain n)) next)
          (dispatch env (n + 1)) ∧
        (∀ a t, (middlewareAPI (storeApi env (n + 1))
            (composedDispatch (storeApi env (n + 1)) chain (n + 1))).dispatch a t =
          api.dispatch a t) ∧
        ∀ depth a t,
          (middlewareAPI (storeApi env (n + 1))
            (composedDispatch (storeApi env (n + 1)) chain (depth + 1))).dispatch a t =
            chain.foldr
              (fun h next => h (middlewareAPI (storeApi env (n + 1))
                (composedDispatch (storeApi env (n + 1)) chain depth)) next)
              (dispatch env (n + 1)) a t) := by
  refine ⟨fun _ _ _ => rfl, runSetup_placeholder, ?_, ?_⟩
  · intro pre rest a k r p u
    simp only [applyMiddleware, mapSetup_placeholder]
  · intro mws r p u api s h
    simp only [applyMiddleware] at h
    cases hc : createStore env (n + 1) r p u with
    | raised e => rw [hc] at h; simp at h
    | delegated e r1 p1 => rw [hc] at h; simp at h
    | diverged => rw [hc] at h; simp at h
    | store s0 =>
      rw [hc] at h
      simp only at h
      cases hs : mapSetup (middlewareAPI (storeApi env (n + 1)) placeholderDispatch) mws s0 with
      | raise e t => rw [hs] at h; simp at h
      | diverge t => rw [hs] at h; simp at h
      | ok chain t =>
        rw [hs] at h
        injection h with h1 h2
        subst h1
        subst h2
        refine ⟨chain, s0, rfl, hs, composedDispatch_succ _ _ _, fun _ _ => rfl, ?_⟩
        intro depth a u
        show composedDispatch (storeApi env (n + 1)) chain (depth + 1) a u = _
        rw [composedDispatch_succ]
        rfl

theorem C18_witness :
    applyMiddleware counterEnv 2 [renameMiddleware "A" incAction, twiceMiddleware]
      (.fn 0) .undefined .undefined =
      .store { storeApi counterEnv 2 with
        dispatch := composedDispatch (storeApi counterEnv 2)
          [renameHandler "A" incAction, twiceHandler] 2 } (counterStore 2) ∧
    ∃ (chain : List Handler) (s0 : Store),
      createStore counterEnv 2 (.fn 0) .undefined .undefined = .store s0 ∧
      mapSetup (middlewareAPI (storeApi counterEnv 2) placeholderDispatch)
        [renameMiddleware "A" incAction, twiceMiddleware] s0 = .ok chain (counterStore 2) ∧
      composedDispatch (storeApi counterEnv 2) [renameHandler "A" incAction, twiceHandler] 2 =
        chain.foldr
          (fun h next => h (middlewareAPI (storeApi counterEnv 2)
            (composedDispatch (storeApi counterEnv 2) chain 1)) next)
          (dispatch counterEnv 2) ∧
      (∀ a t, (middlewareAPI (storeApi counterEnv 2)
          (composedDispatch (storeApi counterEnv 2) chain 2)).dispatch a t =
        composedDispatch (storeApi counterEnv 2)
          [renameHandler "A" incAction, twiceHandler] 2 a t) ∧
      ∀ depth a t,
        (middlewareAPI (storeApi counterEnv 2)
          (composedDispatch (storeApi counterEnv 2) chain (depth + 1))).dispatch a t =
          chain.foldr
            (fun h next => h (middlewareAPI (storeApi counterEnv 2)
              (composedDispatch (storeApi counterEnv 2) chain depth)) next)
            (dispatch counterEnv 2) a t :=
  ⟨applyMiddleware_store counterEnv 2 _ _ _ _ _ _ _ rfl rfl,
   (C18_api_dispatch counterEnv 1).2.2.2
    [renameMiddleware "A" incAction, twiceMiddleware] (.fn 0) .undefined .undefined
    { storeApi counterEnv 2 with
      dispatch := composedDispatch (storeApi counterEnv 2)
        [renameHandler "A" incAction, twiceHandler] 2 } (counterStore 2)
    (applyMiddleware_store counterEnv 2 _ _ _ _ _ _ _ rfl rfl)⟩

theorem twice_inner (s : Store) (ref : Nat) :
    composedDispatch (storeApi counterEnv 2) [renameHandler "A" incAction, twiceHandler] 1
      (actionOf ref "A") s = dispatch counterEnv 2 incAction s := by
  rw [composedDispatch_succ]
  rfl

theorem twice_outer (s : Store) :
    composedDispatch (storeApi counterEnv 2) [renameHandler "A" incAction, twiceHandler] 2
      (actionOf 302 "TWICE") s =
    twiceHandler (middlewareAPI (storeApi counterEnv 2)
      (composedDispatch (storeApi counterEnv 2) [renameHandler "A" incAction, twiceHandler] 1))
      (dispatch counterEnv 2) (actionOf 302 "TWICE") s := by
  rw [composedDispatch_succ]
  rfl

theorem twice_unfold (api : MiddlewareAPI) (next : Dispatch) (s : Store) :
    twiceHandler api next (actionOf 302 "TWICE") s =
      match api.dispatch (actionOf 200 "A") s with
      | .diverge s1 => .diverge s1
      | .raise e s1 => .raise e s1
      | .ok _ s1 =>
        match api.dispatch (actionOf 201 "A") s1 with
        | .diverge s2 => .diverge s2
        | .raise e s2 => .raise e s2
        | .ok _ s2 => .ok (actionOf 302 "TWICE") s2 := rfl

theorem twice_result (s s1 s2 : Store)
    (a1 : dispatch counterEnv 2 incAction s = .ok incAction s1)
    (a2 : dispatch counterEnv 2 incAction s1 = .ok incAction s2) :
    composedDispatch (storeApi counterEnv 2) [renameHandler "A" incAction, twiceHandler] 2
      (actionOf 302 "TWICE") s = .ok (actionOf 302 "TWICE") s2 := by
  rw [twice_outer, twice_unfold]
  simp only [middlewareAPI, twice_inner, a1, a2]

/-- The two halves of C18 evaluated.  A middleware that calls
`api.dispatch` while it is set up makes `applyMiddleware` raise the
construction error.  A handler that calls `api.dispatch({ type: 'A' })` twice
when it receives `'TWICE'`, listed after a middleware that turns `'A'` into
`'INC'`: each of the two calls enters the chain at the first middleware, so
`counter` receives `'INC'` twice and the state becomes 2, whereas the store's
own `dispatch` leaves the state at 0 on `'A'`. -/
theorem api_dispatch_scenario :
    applyMiddleware counterEnv 2 [loggerMiddleware, eagerMiddleware] (.fn 0) .undefined
      .undefined = .raised (.error msgConstructing) ∧
    returnedWith (enhancedDispatchOnce counterEnv 2
        [renameMiddleware "A" incAction, twiceMiddleware] (.fn 0) (actionOf 302 "TWICE")) =
      some (actionOf 302 "TWICE", .num 2) ∧
    returnedWith (some (dispatch counterEnv 2 (actionOf 200 "A") (counterStore 2))) =
      some (actionOf 200 "A", .num 0) := by
  refine ⟨rfl, ?_, rfl⟩
  have hA := applyMiddleware_store counterEnv 2
    [renameMiddleware "A" incAction, twiceMiddleware] (.fn 0) .undefined .undefined
    (counterStore 2) (counterStore 2) [renameHandler "A" incAction, twiceHandler] rfl rfl
  have hd := twice_result (counterStore 2)
    (dispatch counterEnv 2 incAction (counterStore 2)).store
    (dispatch counterEnv 2 incAction (dispatch counterEnv 2 incAction (counterStore 2)).store).store
    rfl rfl
  unfold enhancedDispatchOnce
  rw [hA]
  show returnedWith (some (composedDispatch (storeApi counterEnv 2)
    [renameHandler "A" incAction, twiceHandler] 2 (actionOf 302 "TWICE") (counterStore 2))) = _
  rw [hd]
  rfl

/-! ### Reducer composition: the loops -/

theorem andProp_ok (env : Env) (v : Val) (key : String) : ∃ t, andProp env v key = .ok t := by
  cases v <;> simp [andProp, truthy, getPropE]
  all_goals split <;> simp

theorem childValue_ok (env : Env) (call : Calls) (state action : Val) (key : String)
    (reducer v : Val) (h : childValue env call state action (key, reducer) = .ok v) :
    ∃ prev id, getPropE env state key = .ok prev ∧ reducer = .fn id ∧
      call id [prev, action] = .ok v := by
  unfold childValue at h
  cases hg : getPropE env state key with
  | error e => rw [hg] at h; simp at h
  | ok prev =>
    rw [hg] at h
    cases reducer with
    | fn id => exact ⟨prev, id, rfl, rfl, h⟩
    | _ => simp at h

theorem collectReducers_fst (env : Env) (entries : List (String × Val)) :
    ∀ (final : List (String × Val)) (w : Effects),
      (collectReducers env entries final w).1 = final ++ callableEntries entries := by
  induction entries with
  | nil => intro final w; simp [collectReducers, callableEntries]
  | cons p rest ih =>
    intro final w
    obtain ⟨key, v⟩ := p
    simp only [collectReducers, ih, callableEntries, List.filter_cons]
    by_cases hv : typeOf v = .function <;> simp [hv]

/-- The loop of `combination` when every child returns a defined value: it
ends with an entry for each child in order, and `hasChanged` tells whether
some child returned a value that is not identical to its previous state. -/
theorem combineLoop_returns (env : Env) (call : Calls) (state action : Val)
    (entries : List (String × Val)) :
    ∀ (hasChanged : Bool) (nextState : List (String × Val)) (w : Effects),
      (∀ p ∈ entries, ReturnsDefined env call state action p) →
      ∃ fields changed w1,
        combineLoop env call state action entries hasChanged nextState w =
          (.ok (hasChanged || changed, nextState ++ fields), w1) ∧
        List.Forall₂ (fun p q => q.1 = p.1 ∧ childValue env call state action p = .ok q.2)
          entries fields ∧
        (changed = false ↔ ∀ p ∈ entries, Unchanged env call state action p) := by
  induction entries with
  | nil =>
    intro hasChanged nextState w _
    exact ⟨[], false, w, by simp [combineLoop], List.Forall₂.nil, by simp⟩
  | cons p rest ih =>
    intro hasChanged nextState w hall
    obtain ⟨key, reducer⟩ := p
    obtain ⟨v, hv, hdef⟩ := hall (key, reducer) (List.mem_cons_self _ _)
    obtain ⟨prev, id, hg, hr, hcall⟩ := childValue_ok env call state action key reducer v hv
    subst hr
    obtain ⟨fields, changed, w1, hloop, hf, hch⟩ :=
      ih (hasChanged || !strictEq v prev) (nextState ++ [(key, v)])
        { w with calls := w.calls ++ [(.fn id, [prev, action])] }
        (fun q hq => hall q (List.mem_cons_of_mem _ hq))
    refine ⟨(key, v) :: fields, !strictEq v prev || changed, w1, ?_, ?_, ?_⟩
    · simp only [combineLoop, hg, callTraced, hcall, hdef, if_false, hloop]
      simp [Bool.or_assoc]
    · exact List.Forall₂.cons ⟨rfl, hv⟩ hf
    · constructor
      · intro h
        have h1 : strictEq v prev = true := by
          cases hs : strictEq v prev <;> simp [hs] at h ⊢
        have h2 : changed = false := by
          cases hc : changed <;> simp [hc] at h ⊢
        intro q hq
        rcases List.mem_cons.mp hq with rfl | hq
        · exact ⟨prev, v, hg, hv, h1⟩
        · exact hch.mp h2 q hq
      · intro h
        obtain ⟨prev1, v1, e1, e2, e3⟩ := h (key, .fn id) (List.mem_cons_self _ _)
        rw [hg] at e1
        injection e1 with e1
        rw [hv] at e2
        injection e2 with e2
        subst e1 e2
        have h2 := hch.mpr (fun q hq => h q (List.mem_cons_of_mem _ hq))
        simp [e3, h2]

/-! ### The diagnostic step -/

theorem typeOf_function (v : Val) (h : typeOf v = .function) : ∃ id, v = .fn id := by
  cases v <;> simp [typeOf] at h
  exact ⟨_, rfl⟩

theorem lookup_mem (l : List (String × Val)) (k : String) (v : Val)
    (h : l.lookup k = some v) : (k, v) ∈ l := by
  induction l with
  | nil => simp at h
  | cons p rest ih =>
    obtain ⟨a, b⟩ := p
    rw [List.lookup_cons] at h
    by_cases hk : (k == a) = true
    · simp only [hk] at h
      injection h with h
      have : k = a := by simpa using hk
      subst this; subst h
      exact List.mem_cons_self _ _
    · have hk2 : (k == a) = false := by simpa using hk
      simp only [hk2] at h
      exact List.mem_cons_of_mem _ (ih h)

theorem hasOwnProperty_ok (call : Calls) (reducers : List (String × Val))
    (hret : ∀ p ∈ reducers, AlwaysReturns call p.2) (key : String) (w : Effects) :
    ∃ b w1, hasOwnProperty call reducers key w = (.ok b, w1) := by
  unfold hasOwnProperty
  cases hl : reducers.lookup "hasOwnProperty" with
  | none => exact ⟨_, _, rfl⟩
  | some f =>
    obtain ⟨id, hid, ht⟩ := hret _ (lookup_mem _ _ _ hl)
    have hid2 : f = .fn id := hid
    subst hid2
    obtain ⟨v, hv⟩ := ht [.str key]
    simp only [callTraced, hv]
    exact ⟨_, _, rfl⟩

theorem unexpectedKeysOf_ok (env : Env) (call : Calls)
    (reducers : List (String × Val)) (hret : ∀ p ∈ reducers, AlwaysReturns call p.2)
    (keys : List String) :
    ∀ w : Effects, ∃ ks w1, unexpectedKeysOf env call reducers keys w = (.ok ks, w1) := by
  induction keys with
  | nil => intro w; exact ⟨_, _, rfl⟩
  | cons key rest ih =>
    intro w
    obtain ⟨b, w1, hb⟩ := hasOwnProperty_ok call reducers hret key w
    obtain ⟨ks, w2, hk⟩ := ih w1
    simp only [unexpectedKeysOf, hb, hk]
    exact ⟨_, _, rfl⟩

theorem ownEntries_plain (v : Val) (h : isPlainObject v = true) :
    ∃ entries, ownEntries v = .ok entries := by
  cases v <;> simp [isPlainObject, typeOf, strictEq, ownEntries] at h ⊢

/-- When every child returns on every call, the diagnostic step of
`combination` returns. -/
theorem shapeWarning_ok (env : Env) (call : Calls) (c : Combined)
    (hret : ∀ p ∈ c.finalReducers, AlwaysReturns call p.2) (state action : Val) (w : Effects) :
    ∃ w1, shapeWarning env call c state action w = (.ok (), w1) := by
  unfold shapeWarning
  by_cases hp : env.production = true
  · simp [hp]
  · have hp2 : env.production = false := by simpa using hp
    simp only [hp2, Bool.not_false, if_true]
    suffices hs : ∃ r w1, getUnexpectedStateShapeWarningMessage env call state c.finalReducers
        action w = (.ok r, w1) by
      obtain ⟨r, w1, hr⟩ := hs
      rw [hr]
      cases r with
      | none => exact ⟨_, rfl⟩
      | some m => exact ⟨_, rfl⟩
    unfold getUnexpectedStateShapeWarningMessage
    obtain ⟨t, htp⟩ := andProp_ok env action "type"
    simp only [htp]
    by_cases h0 : (c.finalReducers.map Prod.fst).length = 0
    · simp only [h0, if_true]
      exact ⟨_, _, rfl⟩
    · simp only [h0, if_false]
      by_cases hpl : isPlainObject state = true
      · simp only [hpl, Bool.not_true, Bool.false_eq_true, if_false]
        obtain ⟨entries, he⟩ := ownEntries_plain state hpl
        obtain ⟨ks, w1, hk⟩ := unexpectedKeysOf_ok env call c.finalReducers hret
          (entries.map Prod.fst) w
        simp only [he, hk]
        split
        · exact ⟨_, _, rfl⟩
        · split
          · exact ⟨_, _, rfl⟩
          · exact ⟨_, _, rfl⟩
      · have hpl2 : isPlainObject state = false := by simpa using hpl
        simp only [hpl2, Bool.not_false, if_true]
        exact ⟨_, _, rfl⟩

/-! ### The composed reducer -/

/-- The composed reducer without a recorded shape error, with children that
return: when each child returns a defined value, `combination` returns the
state it was given if every child returned a value identical to its previous
state, and otherwise a new object holding the children's values under their
keys, in order. -/
theorem combination_returns (env : Env) (call : Calls) (c : Combined)
    (hret : ∀ p ∈ c.finalReducers, AlwaysReturns call p.2) (hr : c.raises = none)
    (state action : Val) (w : Effects)
    (hall : ∀ p ∈ c.finalReducers, ReturnsDefined env call (defaulted env state w) action p) :
    ∃ changed fields ref w1,
      combination env call c state action w =
        (.ok (if changed then .obj ref fields [env.objectPrototype]
          else defaulted env state w), w1) ∧
      List.Forall₂ (fun p q => q.1 = p.1 ∧
        childValue env call (defaulted env state w) action p = .ok q.2) c.finalReducers fields ∧
      (changed = false ↔
        ∀ p ∈ c.finalReducers, Unchanged env call (defaulted env state w) action p) := by
  unfold combination
  by_cases hu : typeOf state = .undefined
  · simp only [defaulted, hu, if_true] at hall ⊢
    simp only [hr]
    obtain ⟨w2, hw⟩ := shapeWarning_ok env call c hret (emptyObject env w).1 action
      (emptyObject env w).2
    simp only [hw]
    obtain ⟨fields, changed, w4, hloop, hf, hch⟩ := combineLoop_returns env call
      (emptyObject env w).1 action c.finalReducers false [] (emptyObject env w2).2 hall
    simp only [hloop]
    exact ⟨changed, fields, env.objRef w2.allocated, w4, by simp, hf, hch⟩
  · simp only [defaulted, hu, if_false] at hall ⊢
    simp only [hr]
    obtain ⟨w2, hw⟩ := shapeWarning_ok env call c hret state action w
    simp only [hw]
    obtain ⟨fields, changed, w4, hloop, hf, hch⟩ := combineLoop_returns env call
      state action c.finalReducers false [] (emptyObject env w2).2 hall
    simp only [hloop]
    exact ⟨changed, fields, env.objRef w2.allocated, w4, by simp, hf, hch⟩

/-! ### Construction -/

theorem combineReducers_eq (env : Env) (call : Calls) (reducers : Val) (w : Effects)
    (entries : List (String × Val)) (he : ownEntries reducers = .ok entries) :
    ∃ w3, combineReducers env call reducers w =
      match assertReducerShape env call (callableEntries entries) w3 with
      | (.ok _, w4) =>
        (.ok { finalReducers := callableEntries entries, shapeAssertionError := none }, w4)
      | (.error e, w4) =>
        (.ok { finalReducers := callableEntries entries, shapeAssertionError := some e }, w4) := by
  unfold combineReducers
  simp only [he]
  have h := collectReducers_fst env entries [] (emptyObject env w).2
  revert h
  generalize collectReducers env entries [] (emptyObject env w).2 = r
  obtain ⟨fr, w2⟩ := r
  intro h
  simp only [List.nil_append] at h
  subst h
  exact ⟨_, rfl⟩

theorem assertReducerShape_passes (env : Env) (call : Calls) (entries : List (String × Val)) :
    ∀ w : Effects, (∀ p ∈ entries, PassesProbes env call p.2) →
      ∃ w1, assertReducerShape env call entries w = (.ok (), w1) := by
  induction entries with
  | nil => intro w _; exact ⟨w, rfl⟩
  | cons p rest ih =>
    intro w hall
    obtain ⟨key, f⟩ := p
    obtain ⟨id, hid, h1, h2⟩ := hall (key, f) (List.mem_cons_self _ _)
    have hid2 : f = .fn id := hid
    subst hid2
    obtain ⟨v1, e1, d1⟩ := h1 w.allocated
    obtain ⟨v2, e2, d2⟩ := h2 (w.allocated + 1) w.probes
    have e1' : call id [.undefined, .obj (env.objRef w.allocated)
        [("type", .str (ActionTypes.INIT env))] [env.objectPrototype]] = .ok v1 := e1
    have e2' : call id [.undefined, .obj (env.objRef (w.allocated + 1))
        [("type", .str ("@@redux/PROBE_UNKNOWN_ACTION" ++ env.randomProbe w.probes))]
        [env.objectPrototype]] = .ok v2 := e2
    simp only [assertReducerShape, typeObject, callTraced, ActionTypes.PROBE_UNKNOWN_ACTION,
      e1', d1, if_false, e2', d2]
    exact ih _ (fun q hq => hall q (List.mem_cons_of_mem _ hq))

/-- The probes stop at the first child that returns `undefined`: the error
raised names its key. -/
theorem assertReducerShape_fails (env : Env) (call : Calls) (pre : List (String × Val))
    (key : String) (f : Val) (post : List (String × Val)) :
    ∀ w : Effects, (∀ p ∈ pre, PassesProbes env call p.2) →
      (FailsInit env call f → ∃ w1, assertReducerShape env call (pre ++ (key, f) :: post) w =
        (.error (.error (msgInitUndefined key)), w1)) ∧
      (FailsRandom env call f → ∃ w1, assertReducerShape env call (pre ++ (key, f) :: post) w =
        (.error (.error (msgProbeUndefined env key)), w1)) := by
  induction pre with
  | nil =>
    intro w _
    constructor
    · rintro ⟨id, hid, h1⟩
      subst hid
      have e1 : call id [.undefined, .obj (env.objRef w.allocated)
          [("type", .str (ActionTypes.INIT env))] [env.objectPrototype]] = .ok .undefined :=
        h1 w.allocated
      simp only [List.nil_append, assertReducerShape, typeObject, callTraced, e1,
        typeOf_undefined, if_true]
      exact ⟨_, rfl⟩
    · rintro ⟨id, hid, h1, h2⟩
      subst hid
      obtain ⟨v1, e1, d1⟩ := h1 w.allocated
      have e1' : call id [.undefined, .obj (env.objRef w.allocated)
          [("type", .str (ActionTypes.INIT env))] [env.objectPrototype]] = .ok v1 := e1
      have e2 : call id [.undefined, .obj (env.objRef (w.allocated + 1))
          [("type", .str ("@@redux/PROBE_UNKNOWN_ACTION" ++ env.randomProbe w.probes))]
          [env.objectPrototype]] = .ok .undefined := h2 (w.allocated + 1) w.probes
      simp only [List.nil_append, assertReducerShape, typeObject, callTraced,
        ActionTypes.PROBE_UNKNOWN_ACTION, e1', d1, if_false, e2, typeOf_undefined, if_true]
      exact ⟨_, rfl⟩
  | cons p rest ih =>
    intro w hall
    obtain ⟨k0, f0⟩ := p
    obtain ⟨id, hid, h1, h2⟩ := hall (k0, f0) (List.mem_cons_self _ _)
    have hid2 : f0 = .fn id := hid
    subst hid2
    obtain ⟨v1, e1, d1⟩ := h1 w.allocated
    obtain ⟨v2, e2, d2⟩ := h2 (w.allocated + 1) w.probes
    have e1' : call id [.undefined, .obj (env.objRef w.allocated)
        [("type", .str (ActionTypes.INIT env))] [env.objectPrototype]] = .ok v1 := e1
    have e2' : call id [.undefined, .obj (env.objRef (w.allocated + 1))
        [("type", .str ("@@redux/PROBE_UNKNOWN_ACTION" ++ env.randomProbe w.probes))]
        [env.objectPrototype]] = .ok v2 := e2
    simp only [List.cons_append, assertReducerShape, typeObject, callTraced,
      ActionTypes.PROBE_UNKNOWN_ACTION, e1', d1, if_false, e2', d2]
    exact ih _ (fun q hq => hall q (List.mem_cons_of_mem _ hq))

/-! ### Allocation -/

theorem hasOwnProperty_allocated (call : Calls) (reducers : List (String × Val)) (key : String)
    (w : Effects) : (hasOwnProperty call reducers key w).2.allocated = w.allocated := by
  unfold hasOwnProperty
  cases reducers.lookup "hasOwnProperty" with
  | none => rfl
  | some f =>
    cases f <;> simp only [callTraced] <;> try rfl
    rename_i id
    cases call id [.str key] <;> rfl

theorem unexpectedKeysOf_allocated (env : Env) (call : Calls) (reducers : List (String × Val))
    (keys : List String) :
    ∀ w : Effects, (unexpectedKeysOf env call reducers keys w).2.allocated = w.allocated := by
  induction keys with
  | nil => intro w; rfl
  | cons key rest ih =>
    intro w
    have h1 := hasOwnProperty_allocated call reducers key w
    simp only [unexpectedKeysOf]
    rcases hh : hasOwnProperty call reducers key w with ⟨res, w1⟩
    rw [hh] at h1
    cases res with
    | error e => exact h1
    | ok own =>
      have h2 := ih w1
      simp only
      rcases hu : unexpectedKeysOf env call reducers rest w1 with ⟨res2, w2⟩
      rw [hu] at h2
      cases res2 with
      | error e => exact Eq.trans h2 h1
      | ok ks => exact Eq.trans h2 h1

/-- The diagnostic step allocates at most the object of `{}.toString`. -/
theorem shapeWarning_allocated (env : Env) (call : Calls) (c : Combined) (state action : Val)
    (w : Effects) : w.allocated ≤ (shapeWarning env call c state action w).2.allocated := by
  unfold shapeWarning
  by_cases hp : env.production = true
  · simp [hp]
  · have hp2 : env.production = false := by simpa using hp
    simp only [hp2, Bool.not_false, if_true]
    have hs : w.allocated ≤ (getUnexpectedStateShapeWarningMessage env call state c.finalReducers
        action w).2.allocated := by
      unfold getUnexpectedStateShapeWarningMessage
      obtain ⟨t, htp⟩ := andProp_ok env action "type"
      simp only [htp]
      by_cases h0 : (c.finalReducers.map Prod.fst).length = 0
      · simp only [h0, if_true]; exact Nat.le_refl _
      · simp only [h0, if_false]
        by_cases hpl : isPlainObject state = true
        · simp only [hpl, Bool.not_true, Bool.false_eq_true, if_false]
          obtain ⟨entries, he⟩ := ownEntries_plain state hpl
          simp only [he]
          have h1 := unexpectedKeysOf_allocated env call c.finalReducers
            (entries.map Prod.fst) w
          rcases hu : unexpectedKeysOf env call c.finalReducers (entries.map Prod.fst) w with
            ⟨res, w1⟩
          rw [hu] at h1
          cases res with
          | error e => exact Nat.le_of_eq h1.symm
          | ok ks =>
            simp only
            split
            · exact Nat.le_of_eq h1.symm
            · split
              · exact Nat.le_of_eq h1.symm
              · exact Nat.le_of_eq h1.symm
        · have hpl2 : isPlainObject state = false := by simpa using hpl
          simp only [hpl2, Bool.not_false, if_true]
          exact Nat.le_succ _
    rcases hg : getUnexpectedStateShapeWarningMessage env call state c.finalReducers action w
      with ⟨res, w1⟩
    rw [hg] at hs
    cases res with
    | error e => exact hs
    | ok r =>
      cases r with
      | none => exact hs
      | some m =>
        simp only
        split
        · exact hs
        · exact hs

theorem combineLoop_allocated (env : Env) (call : Calls) (state action : Val)
    (entries : List (String × Val)) :
    ∀ (hasChanged : Bool) (nextState : List (String × Val)) (w : Effects),
      (combineLoop env call state action entries hasChanged nextState w).2.allocated =
        w.allocated := by
  induction entries with
  | nil => intro hasChanged nextState w; rfl
  | cons p rest ih =>
    intro hasChanged nextState w
    obtain ⟨key, reducer⟩ := p
    simp only [combineLoop]
    cases hg : getPropE env state key with
    | error e => rfl
    | ok prev =>
      simp only
      cases reducer with
      | fn id =>
        simp only [callTraced]
        cases hc : call id [prev, action] with
        | error e => rfl
        | ok v =>
          simp only
          by_cases hv : typeOf v = .undefined
          · simp only [hv, if_true]
            cases getUndefinedStateErrorMessage env key action <;> rfl
          · simp only [hv, if_false]
            exact ih _ _ _
      | _ => rfl

theorem defaultedEffects_allocated (env : Env) (state : Val) (w : Effects) :
    w.allocated ≤ (defaultedEffects env state w).allocated := by
  unfold defaultedEffects
  by_cases hu : typeOf state = .undefined
  · simp only [hu, if_true, emptyObject]; exact Nat.le_succ _
  · simp only [hu, if_false]; exact Nat.le_refl _

/-- The composed reducer without a recorded shape error, once the diagnostic
step returned in effects `wd`: when each child returns a defined value,
`combination` returns the state it was given if every child returned a value
identical to its previous state, and otherwise the object it allocated after
the diagnostic step, holding the children's values under their keys, in
order. -/
theorem combination_of (env : Env) (call : Calls) (c : Combined) (hr : c.raises = none)
    (state action : Val) (w wd : Effects)
    (hdiag : shapeWarning env call c (defaulted env state w) action
      (defaultedEffects env state w) = (.ok (), wd))
    (hall : ∀ p ∈ c.finalReducers, ReturnsDefined env call (defaulted env state w) action p) :
    ∃ changed fields w1,
      combination env call c state action w =
        (.ok (if changed then .obj (env.objRef wd.allocated) fields [env.objectPrototype]
          else defaulted env state w), w1) ∧
      w.allocated ≤ wd.allocated ∧ w1.allocated = wd.allocated + 1 ∧
      List.Forall₂ (fun p q => q.1 = p.1 ∧
        childValue env call (defaulted env state w) action p = .ok q.2) c.finalReducers fields ∧
      (changed = false ↔
        ∀ p ∈ c.finalReducers, Unchanged env call (defaulted env state w) action p) := by
  obtain ⟨fields, changed, w4, hloop, hf, hch⟩ := combineLoop_returns env call
    (defaulted env state w) action c.finalReducers false [] (emptyObject env wd).2 hall
  have ha := combineLoop_allocated env call (defaulted env state w) action c.finalReducers
    false [] (emptyObject env wd).2
  rw [hloop] at ha
  have hsa := shapeWarning_allocated env call c (defaulted env state w) action
    (defaultedEffects env state w)
  rw [hdiag] at hsa
  refine ⟨changed, fields, w4, ?_, Nat.le_trans (defaultedEffects_allocated env state w) hsa,
    ha, hf, hch⟩
  unfold combination
  have hd : (if typeOf state = .undefined then emptyObject env w else (state, w)) =
      (defaulted env state w, defaultedEffects env state w) := rfl
  rw [hd]
  simp only [hr, hdiag, hloop]
  simp

theorem diagnosticsReturn_iff (env : Env) (call : Calls) (c : Combined) (state action : Val)
    (w : Effects) :
    DiagnosticsReturn env call c state action w ↔
      ∃ wd, shapeWarning env call c (defaulted env state w) action
        (defaultedEffects env state w) = (.ok (), wd) := by
  unfold DiagnosticsReturn
  constructor
  · intro h
    rcases hs : shapeWarning env call c (defaulted env state w) action
      (defaultedEffects env state w) with ⟨res, wd⟩
    rw [hs] at h
    exact ⟨wd, by rw [show res = .ok () from h]⟩
  · rintro ⟨wd, h⟩
    rw [h]

/-! ### Claims C11 and C12 -/

theorem callFn_of_ret (env : Env) (disp : Val → Store → Outcome Val) (f : Nat)
    (args : List Val) (v : Val) (h : env.body f args = .ret v) (s : Store) :
    callFn env disp (.fn f) args s = .ok v s := by
  simp [callFn, h, run]

/-- A valid action dispatched to an idle store whose reducer returns `v` for
this state and action without touching the store, with quiet listeners and
fuel above their number: the call returns the action and the store holds `v`. -/
theorem dispatch_quiet_call (env : Env) (f : Nat) (v : Val) (n : Nat) (a : Val)
    (ha : ValidAction a) (s : Store)
    (hidle : s.isDispatching = false) (hwf : s.nextListeners < s.arrays.length)
    (hred : s.currentReducer = .fn f)
    (hbody : env.body f [s.currentState, a] = .ret v)
    (hq : ∀ l ∈ s.array s.nextListeners, QuietListener env (dispatch env n) l)
    (hlen : (s.array s.nextListeners).length ≤ n) :
    ∃ s1, dispatch env (n + 1) a s = .ok a s1 ∧ s1.currentState = v ∧
      s1.isDispatching = false := by
  have hcall := callFn_of_ret env (dispatch env n) f [s.currentState, a] v hbody
    (reducerEntry (n + 1) a s)
  have hF := notifyEntry_frozen (a := a) (n + 1) v s
    (reducerEntry (n + 1) a s) (sameButReducer_refl _) hwf
  obtain ⟨s1, e1, e2, _⟩ := notifyListeners_quiet env n (reducerEntry (n + 1) a s).nextListeners
    (s.array s.nextListeners) hq (n + 1) 0
    (notifyEntry (n + 1) v (reducerEntry (n + 1) a s)) hF rfl
    (Nat.zero_le _) (by omega)
  have hd : dispatch env (n + 1) a s = .ok a s1 := by
    show dispatchBody env (dispatch env n) (n + 1) a s = _
    rw [dispatchBody_accepted env _ _ a s ha hidle, hred, hcall]
    simp only [afterReducer, e1]
  have hk := dispatch_keepsFlag env (n + 1) a s
  rw [hd] at hk
  exact ⟨s1, hd, e2, Eq.trans hk hidle⟩

theorem defaulted_defined (env : Env) (state : Val) (w : Effects)
    (h : typeOf state ≠ .undefined) : defaulted env state w = state := by
  simp [defaulted, h]

/-- The reducer built from children that pass the probes records no error. -/
theorem combineReducers_passes (env : Env) (call : Calls) (m : Val)
    (entries : List (String × Val)) (w0 : Effects) (hm : ownEntries m = .ok entries)
    (hprobe : ∀ p ∈ callableEntries entries, PassesProbes env call p.2) :
    ∃ w1, combineReducers env call m w0 =
      (.ok { finalReducers := callableEntries entries, shapeAssertionError := none }, w1) := by
  obtain ⟨w3, h3⟩ := combineReducers_eq env call m w0 entries hm
  obtain ⟨w4, h4⟩ := assertReducerShape_passes env call (callableEntries entries) w3 hprobe
  rw [h3, h4]
  exact ⟨w4, rfl⟩

/-- A notification pass over listeners that leave the state alone leaves it
as it was, however the pass ends. -/
theorem notifyListeners_steady (env : Env) (n L : Nat) (A : List Val)
    (hq : ∀ l ∈ A, SteadyListener env (dispatch env n) l) (gas : Nat) :
    ∀ (i : Nat) (s : Store), Frozen L A s → s.isDispatching = false →
      (notifyListeners env (dispatch env n) (n + 1) L gas i s).store.currentState =
        s.currentState := by
  induction gas with
  | zero => intro i s _ _; rfl
  | succ g ih =>
    intro i s hF hidle
    have hA : s.array L = A := hF.2.2
    unfold notifyListeners
    rw [hA]
    by_cases hlt : i < A.length
    · simp only [hlt, if_true]
      have hmem : A.getD i .undefined ∈ A := by
        rw [List.getD_eq_getElem?_getD, List.getElem?_eq_getElem hlt]
        exact List.getElem_mem hlt
      have hP1 := stable_frozen n L A
      have hd1 : ∀ a s, Frozen L A s → Frozen L A (dispatch env n a s).store :=
        fun a s hs => dispatch_stable env hP1 n (le_refl _) a s hs
      have q1 := hq _ hmem
        { s with log := s.log ++ [.notify (n + 1) (A.getD i .undefined) [] s.isDispatching] } hidle
      have c1 := callFn_stable env (dispatch env n) hP1 hd1 (A.getD i .undefined) []
        { s with log := s.log ++ [.notify (n + 1) (A.getD i .undefined) [] s.isDispatching] } hF
      have c3 := callFn_keepsFlag env (dispatch env n) (dispatch_keepsFlag env n)
        (A.getD i .undefined) []
        { s with log := s.log ++ [.notify (n + 1) (A.getD i .undefined) [] s.isDispatching] }
      cases hc : callFn env (dispatch env n) (A.getD i .undefined) []
        { s with log := s.log ++ [.notify (n + 1) (A.getD i .undefined) [] s.isDispatching] } with
      | ok v s2 =>
        rw [hc] at q1 c1 c3
        simp only
        exact (ih (i + 1) s2 c1 (Eq.trans c3 hidle)).trans q1
      | raise e s2 =>
        rw [hc] at q1
        exact q1
      | diverge s2 =>
        rw [hc] at q1
        exact q1
    · simp only [hlt, if_false]
      rfl

/-- A dispatch whose reducer call returns `v` without touching the store,
with listeners that leave the state alone: the store holds `v` afterwards,
however the notification ends. -/
theorem dispatch_steady_call (env : Env) (f : Nat) (v : Val) (n : Nat) (a : Val)
    (ha : ValidAction a) (s : Store)
    (hidle : s.isDispatching = false) (hwf : s.nextListeners < s.arrays.length)
    (hred : s.currentReducer = .fn f)
    (hbody : env.body f [s.currentState, a] = .ret v)
    (hq : ∀ l ∈ s.array s.nextListeners, SteadyListener env (dispatch env n) l) :
    (dispatch env (n + 1) a s).store.currentState = v ∧
    ((dispatch env (n + 1) a s).Completed →
      getState (dispatch env (n + 1) a s).store = .ok v (dispatch env (n + 1) a s).store) := by
  have hcall := callFn_of_ret env (dispatch env n) f [s.currentState, a] v hbody
    (reducerEntry (n + 1) a s)
  have hF := notifyEntry_frozen (a := a) (n + 1) v s
    (reducerEntry (n + 1) a s) (sameButReducer_refl _) hwf
  have hst := notifyListeners_steady env n (reducerEntry (n + 1) a s).nextListeners
    (s.array s.nextListeners) hq (n + 1) 0
    (notifyEntry (n + 1) v (reducerEntry (n + 1) a s)) hF rfl
  have hd : dispatch env (n + 1) a s =
      afterReducer env (dispatch env n) (n + 1) a (.ok v (reducerEntry (n + 1) a s)) := by
    show dispatchBody env (dispatch env n) (n + 1) a s = _
    rw [dispatchBody_accepted env _ _ a s ha hidle, hred, hcall]
  have hcs : (dispatch env (n + 1) a s).store.currentState = v := by
    rw [hd]
    simp only [afterReducer]
    cases hn : notifyListeners env (dispatch env n) (n + 1)
        (reducerEntry (n + 1) a s).nextListeners (n + 1) 0
        (notifyEntry (n + 1) v (reducerEntry (n + 1) a s)) with
    | ok u s5 => rw [hn] at hst; exact hst
    | raise e s5 => rw [hn] at hst; exact hst
    | diverge s5 => rw [hn] at hst; exact hst
  refine ⟨hcs, ?_⟩
  intro hcomp
  have hk := dispatch_keepsFlag env (n + 1) a s
  have hflag : (dispatch env (n + 1) a s).store.isDispatching = false := by
    cases hdd : dispatch env (n + 1) a s with
    | ok u s5 => rw [hdd] at hk; exact Eq.trans hk hidle
    | raise e s5 => rw [hdd] at hk; exact Eq.trans hk hidle
    | diverge s5 => rw [hdd] at hcomp; exact absurd hcomp (by simp [Outcome.Completed])
  rw [getState_idle _ hflag, hcs]

/-- The children of the reducer `combineReducers` builds are the callable
entries of the mapping. -/
theorem combineReducers_final (env : Env) (call : Calls) (m : Val)
    (entries : List (String × Val)) (w0 w1 : Effects) (c : Combined)
    (hm : ownEntries m = .ok entries) (hc : combineReducers env call m w0 = (.ok c, w1)) :
    c.finalReducers = callableEntries entries := by
  obtain ⟨w3, h3⟩ := combineReducers_eq env call m w0 entries hm
  rw [hc] at h3
  rcases ha : assertReducerShape env call (callableEntries entries) w3 with ⟨res, w4⟩
  rw [ha] at h3
  cases res with
  | ok u =>
    simp only at h3
    injection h3 with h3 _
    injection h3 with h3
    rw [h3]
  | error e =>
    simp only at h3
    injection h3 with h3 _
    injection h3 with h3
    rw [h3]

set_option maxHeartbeats 4000000 in
/-- C11, the claim as stated fails, in four ways.  With the mapping
`{ a: counter, b: (state, action) => state }`, the state `{ a: 0, b: 1 }` and
`{ type: 'NOOP' }` every child returns a defined value identical to its
previous state, but the composed reducer raises the error recorded when `b`
returned `undefined` in the probe.  With a child declared under the key
`hasOwnProperty` that raises when called with one argument, every child again
returns its previous state, but the composed reducer raises that child's
exception, in the diagnostic step.  With no child and the state `undefined`
the composed reducer returns a new object `{}`, not `undefined`.  And a store
whose listener dispatches `{ type: 'INC' }` holds `{ count: 1 }` after the
dispatch of `{ type: 'NOOP' }`, for which the composed reducer returned the
state `{ count: 0 }` itself. -/
theorem C11_counterexample :
    ((combinedOf counterEnv exampleCalls identityReducers).1.finalReducers =
        [("a", .fn 0), ("b", .fn 1)] ∧
      Unchanged counterEnv exampleCalls pairState noopAction ("a", .fn 0) ∧
      ReturnsDefined counterEnv exampleCalls pairState noopAction ("a", .fn 0) ∧
      Unchanged counterEnv exampleCalls pairState noopAction ("b", .fn 1) ∧
      ReturnsDefined counterEnv exampleCalls pairState noopAction ("b", .fn 1) ∧
      (combination counterEnv exampleCalls (combinedOf counterEnv exampleCalls identityReducers).1
        pairState noopAction (combinedOf counterEnv exampleCalls identityReducers).2).1 =
        .error (.error (msgInitUndefined "b"))) ∧
    ((combinedOf counterEnv guardedCalls guardReducers).1 =
        { finalReducers := [("hasOwnProperty", .fn 4), ("count", .fn 2)],
          shapeAssertionError := none } ∧
      Unchanged counterEnv guardedCalls (guardState 0) noopAction ("hasOwnProperty", .fn 4) ∧
      ReturnsDefined counterEnv guardedCalls (guardState 0) noopAction
        ("hasOwnProperty", .fn 4) ∧
      Unchanged counterEnv guardedCalls (guardState 0) noopAction ("count", .fn 2) ∧
      ReturnsDefined counterEnv guardedCalls (guardState 0) noopAction ("count", .fn 2) ∧
      (combination counterEnv guardedCalls (combinedOf counterEnv guardedCalls guardReducers).1
        (guardState 0) noopAction (combinedOf counterEnv guardedCalls guardReducers).2).1 =
        .error (.thrown (.str "arity"))) ∧
    ((combinedOf counterEnv exampleCalls noReducers).1 =
        { finalReducers := [], shapeAssertionError := none } ∧
      (combination counterEnv exampleCalls (combinedOf counterEnv exampleCalls noReducers).1
        .undefined noopAction (combinedOf counterEnv exampleCalls noReducers).2).1 =
        .ok (.obj 3 [] [(0, [])])) ∧
    ((countStore 6).isDispatching = false ∧
      (countStore 6).currentState = countState ∧
      (countStore 6).array (countStore 6).nextListeners = [.fn 6] ∧
      listeningEnv.body 9 [countState, noopAction] = .ret countState ∧
      returnedWith (some (dispatch listeningEnv 3 noopAction (countStore 6))) =
        some (noopAction, .obj 61 [("count", .num 1)] [(0, [])]) ∧
      strictEq (.obj 61 [("count", .num 1)] [(0, [])]) countState = false) :=
  ⟨⟨rfl, ⟨_, _, rfl, rfl, rfl⟩, ⟨_, rfl, by decide⟩, ⟨_, _, rfl, rfl, rfl⟩,
      ⟨_, rfl, by decide⟩, rfl⟩,
    ⟨rfl, ⟨_, _, rfl, rfl, rfl⟩, ⟨_, rfl, by decide⟩, ⟨_, _, rfl, rfl, rfl⟩,
      ⟨_, rfl, by decide⟩, rfl⟩,
    ⟨rfl, rfl⟩,
    ⟨rfl, rfl, rfl, rfl, rfl, rfl⟩⟩

/-- C11 as amended: for a reducer `combineReducers` built that recorded no
shape error, a state and an action for which the diagnostic step returns: if
every child returns for its key a defined value identical to `s[key]`, the
composed reducer returns `s` itself, where `s` is the default `{}` when the
state passed is `undefined`.  Hence a store whose reducer it is and whose
listeners leave the state as it is holds the same state object once such an
action was dispatched, whether the listeners return or raise; and the dispatch
returns when the listeners return and the fuel exceeds their number. -/
theorem C11_identity_stable (env : Env) (call : Calls) (m : Val) (w0 w1 : Effects)
    (c : Combined) (state action : Val) (w : Effects)
    (hc : combineReducers env call m w0 = (.ok c, w1))
    (hr : c.raises = none)
    (hdiag : DiagnosticsReturn env call c state action w)
    (hsame : ∀ p ∈ c.finalReducers,
      ReturnsDefined env call (defaulted env state w) action p ∧
        Unchanged env call (defaulted env state w) action p) :
    (∃ w2, combination env call c state action w = (.ok (defaulted env state w), w2)) ∧
    (typeOf state ≠ .undefined → defaulted env state w = state) ∧
    (∀ (f n : Nat) (s : Store), ValidAction action →
      s.currentReducer = .fn f → s.currentState = state → s.isDispatching = false →
      s.nextListeners < s.arrays.length →
      env.body f [state, action] = Prog.ofResult (combination env call c state action w).1 →
      (∀ l ∈ s.array s.nextListeners, SteadyListener env (dispatch env n) l) →
      (dispatch env (n + 1) action s).store.currentState = defaulted env state w ∧
      ((dispatch env (n + 1) action s).Completed →
        getState (dispatch env (n + 1) action s).store =
          .ok (defaulted env state w) (dispatch env (n + 1) action s).store) ∧
      ((∀ l ∈ s.array s.nextListeners, ∀ s3 : Store, s3.isDispatching = false →
          (callFn env (dispatch env n) l [] s3).Returned) →
        (s.array s.nextListeners).length ≤ n →
        (dispatch env (n + 1) action s).Returned)) := by
  obtain ⟨wd, hd⟩ := (diagnosticsReturn_iff env call c state action w).mp hdiag
  obtain ⟨changed, fields, w4, h1, _, _, _, h3⟩ := combination_of env call c hr state action w
    wd hd (fun p hp => (hsame p hp).1)
  have hch : changed = false := h3.mpr (fun p hp => (hsame p hp).2)
  rw [hch] at h1
  simp only [Bool.false_eq_true, if_false] at h1
  refine ⟨⟨w4, h1⟩, defaulted_defined env state w, ?_⟩
  intro f n s ha hred hst hidle hwf hbody hq
  rw [h1] at hbody
  have hbody' : env.body f [s.currentState, action] = .ret (defaulted env state w) := by
    rw [hst]; exact hbody
  obtain ⟨e1, e2⟩ := dispatch_steady_call env f (defaulted env state w) n action ha s
    hidle hwf hred hbody' hq
  refine ⟨e1, e2, ?_⟩
  intro hret hlen
  have hcall := callFn_of_ret env (dispatch env n) f [s.currentState, action]
    (defaulted env state w) hbody' (reducerEntry (n + 1) action s)
  rw [← hred] at hcall
  exact dispatch_returns env n action s ha hidle hwf _ _ hcall hret hlen

/-- C12, the claim as stated fails.  With the mapping
`{ a: counter, b: (state, action) => state }`, the state `{ a: 0, b: 1 }` and
`{ type: 'INC' }` every child returns a defined value and the one at `a`
returns 1 for 0, but the composed reducer raises the error recorded in the
probe.  With a child declared under the key `hasOwnProperty` that raises when
called with one argument, the children return defined values, that child 0
for 1, but the composed reducer raises its exception, in the diagnostic
step. -/
theorem C12_counterexample :
    (ownEntries identityReducers = .ok [("a", .fn 0), ("b", .fn 1)] ∧
      childValue counterEnv exampleCalls pairState incAction ("a", .fn 0) = .ok (.num 1) ∧
      getPropE counterEnv pairState "a" = .ok (.num 0) ∧
      childValue counterEnv exampleCalls pairState incAction ("b", .fn 1) = .ok (.num 1) ∧
      (combination counterEnv exampleCalls (combinedOf counterEnv exampleCalls identityReducers).1
        pairState incAction (combinedOf counterEnv exampleCalls identityReducers).2).1 =
        .error (.error (msgInitUndefined "b"))) ∧
    (ownEntries guardReducers = .ok [("hasOwnProperty", .fn 4), ("count", .fn 2)] ∧
      (combinedOf counterEnv guardedCalls guardReducers).1.raises = none ∧
      childValue counterEnv guardedCalls (guardState 1) noopAction ("hasOwnProperty", .fn 4) =
        .ok (.num 0) ∧
      getPropE counterEnv (guardState 1) "hasOwnProperty" = .ok (.num 1) ∧
      childValue counterEnv guardedCalls (guardState 1) noopAction ("count", .fn 2) =
        .ok (.num 0) ∧
      (combination counterEnv guardedCalls (combinedOf counterEnv guardedCalls guardReducers).1
        (guardState 1) noopAction (combinedOf counterEnv guardedCalls guardReducers).2).1 =
        .error (.thrown (.str "arity"))) :=
  ⟨⟨rfl, rfl, rfl, rfl, rfl⟩, ⟨rfl, rfl, rfl, rfl, rfl, rfl⟩⟩

/-- C12 as amended: for a mapping `m`, the reducer `combineReducers(m)`
returned when it recorded no shape error, and a state and an action for which
the diagnostic step returns, every callable child returns a defined value and
some child returns a value that is not identical to `s[key]`: the composed
reducer returns an object it allocated during the call, whose keys are the
keys of the callable entries of `m`, in order, the value at key `k` being
`m[k](s[k], a)`, where `s` is `{}` when the state passed is `undefined`. -/
theorem C12_combination_builds (env : Env) (call : Calls) (m : Val)
    (entries : List (String × Val)) (w0 w1 : Effects) (c : Combined) (state action : Val)
    (w : Effects)
    (hm : ownEntries m = .ok entries)
    (hc : combineReducers env call m w0 = (.ok c, w1))
    (hr : c.raises = none)
    (hdiag : DiagnosticsReturn env call c state action w)
    (hdef : ∀ p ∈ callableEntries entries,
      ReturnsDefined env call (defaulted env state w) action p)
    (hdiff : ∃ p ∈ callableEntries entries,
      ¬ Unchanged env call (defaulted env state w) action p) :
    ∃ n fields w2,
      combination env call c state action w =
        (.ok (.obj (env.objRef n) fields [env.objectPrototype]), w2) ∧
      w.allocated ≤ n ∧ n < w2.allocated ∧
      fields.map Prod.fst = (entries.filter fun p => typeOf p.2 = .function).map Prod.fst ∧
      List.Forall₂ (fun p q => q.1 = p.1 ∧
        childValue env call (defaulted env state w) action p = .ok q.2)
        (entries.filter fun p => typeOf p.2 = .function) fields := by
  have hfin := combineReducers_final env call m entries w0 w1 c hm hc
  obtain ⟨wd, hd⟩ := (diagnosticsReturn_iff env call c state action w).mp hdiag
  obtain ⟨changed, fields, w2, h1, ha1, ha2, h2, h3⟩ := combination_of env call c hr state
    action w wd hd (by rw [hfin]; exact hdef)
  rw [hfin] at h2 h3
  have hch : changed = true := by
    cases hcb : changed with
    | true => rfl
    | false =>
      obtain ⟨p, hp, hnp⟩ := hdiff
      exact absurd (h3.mp hcb p hp) hnp
  rw [hch] at h1
  simp only [if_true] at h1
  refine ⟨wd.allocated, fields, w2, h1, ha1, by omega, ?_, h2⟩
  have hkeys : ∀ (l : List (String × Val)) (fs : List (String × Val)),
      List.Forall₂ (fun p q => q.1 = p.1 ∧
        childValue env call (defaulted env state w) action p = .ok q.2) l fs →
      fs.map Prod.fst = l.map Prod.fst := by
    intro l fs h
    induction h with
    | nil => rfl
    | cons hh _ ih => simp [hh.1, ih]
  exact hkeys _ _ h2

theorem exampleCalls_returns (id : Nat) : AlwaysReturns exampleCalls (.fn id) := by
  refine ⟨id, rfl, fun args => ?_⟩
  unfold exampleCalls
  split <;> exact ⟨_, rfl⟩

theorem counter_undefined (a : Val) : typeOf (counter .undefined a) ≠ .undefined := by
  unfold counter
  simp only [strictEq, if_true]
  split <;> simp

theorem counter_passes (env : Env) : PassesProbes env exampleCalls (.fn 0) :=
  ⟨0, rfl, fun _ => ⟨_, rfl, counter_undefined _⟩, fun _ _ => ⟨_, rfl, counter_undefined _⟩⟩

theorem callable_count (p : String × Val) (hp : p ∈ callableEntries [("count", Val.fn 0)]) :
    p = ("count", .fn 0) := by
  simpa [callableEntries] using hp

theorem C11_witness :
    (∃ w2, combination counterEnv exampleCalls
        { finalReducers := [("count", .fn 0)], shapeAssertionError := none }
        countState noopAction Effects.initial =
      (.ok (defaulted counterEnv countState Effects.initial), w2)) ∧
    (typeOf countState ≠ .undefined →
      defaulted counterEnv countState Effects.initial = countState) ∧
    (∀ (f n : Nat) (s : Store), ValidAction noopAction →
      s.currentReducer = .fn f → s.currentState = countState → s.isDispatching = false →
      s.nextListeners < s.arrays.length →
      counterEnv.body f [countState, noopAction] =
        Prog.ofResult (combination counterEnv exampleCalls
          { finalReducers := [("count", .fn 0)], shapeAssertionError := none }
          countState noopAction Effects.initial).1 →
      (∀ l ∈ s.array s.nextListeners, SteadyListener counterEnv (dispatch counterEnv n) l) →
      (dispatch counterEnv (n + 1) noopAction s).store.currentState =
        defaulted counterEnv countState Effects.initial ∧
      ((dispatch counterEnv (n + 1) noopAction s).Completed →
        getState (dispatch counterEnv (n + 1) noopAction s).store =
          .ok (defaulted counterEnv countState Effects.initial)
            (dispatch counterEnv (n + 1) noopAction s).store) ∧
      ((∀ l ∈ s.array s.nextListeners, ∀ s3 : Store, s3.isDispatching = false →
          (callFn counterEnv (dispatch counterEnv n) l [] s3).Returned) →
        (s.array s.nextListeners).length ≤ n →
        (dispatch counterEnv (n + 1) noopAction s).Returned)) :=
  C11_identity_stable counterEnv exampleCalls countReducers Effects.initial
    (combineReducers counterEnv exampleCalls countReducers Effects.initial).2
    { finalReducers := [("count", .fn 0)], shapeAssertionError := none }
    countState noopAction Effects.initial rfl rfl rfl
    (fun p hp => by
      have hp2 : p = ("count", Val.fn 0) := by simpa using hp
      rw [hp2]
      exact ⟨⟨.num 0, rfl, by simp⟩, ⟨.num 0, .num 0, rfl, rfl, rfl⟩⟩)

theorem C12_witness :
    ∃ n fields w2,
      combination counterEnv exampleCalls
        { finalReducers := [("count", .fn 0)], shapeAssertionError := none }
        countState incAction Effects.initial =
        (.ok (.obj (counterEnv.objRef n) fields [counterEnv.objectPrototype]), w2) ∧
      Effects.initial.allocated ≤ n ∧ n < w2.allocated ∧
      fields.map Prod.fst =
        ([("count", Val.fn 0)].filter fun p => typeOf p.2 = .function).map Prod.fst ∧
      List.Forall₂ (fun p q => q.1 = p.1 ∧
        childValue counterEnv exampleCalls (defaulted counterEnv countState Effects.initial)
          incAction p = .ok q.2)
        ([("count", Val.fn 0)].filter fun p => typeOf p.2 = .function) fields :=
  C12_combination_builds counterEnv exampleCalls countReducers [("count", .fn 0)]
    Effects.initial (combineReducers counterEnv exampleCalls countReducers Effects.initial).2
    { finalReducers := [("count", .fn 0)], shapeAssertionError := none }
    countState incAction Effects.initial rfl rfl rfl rfl
    (fun p hp => by
      rw [callable_count p hp]
      exact ⟨.num 1, rfl, by simp⟩)
    ⟨("count", .fn 0), by simp [callableEntries], by
      rintro ⟨prev, v, h1, h2, h3⟩
      have e1 : prev = .num 0 := by
        have : (Except.ok (Val.num 0) : Except Err Val) = .ok prev := h1
        injection this with this
        exact this.symm
      have e2 : v = .num 1 := by
        have : (Except.ok (Val.num 1) : Except Err Val) = .ok v := h2
        injection this with this
        exact this.symm
      subst e1 e2
      simp [strictEq] at h3⟩

set_option maxHeartbeats 4000000 in
/-- The scenario of C11 and C12 evaluated.  `combineReducers({ count: counter })`
records no error; on `{ count: 0 }` the composed reducer returns that very
object for `{ type: 'NOOP' }` and a new object `{ count: 1 }` for
`{ type: 'INC' }`.  With a mapping that also holds a number and `undefined`,
and a state that also holds an undeclared key, the result has the key
`count` only.  A store created with the composed reducer holds `{ count: 0 }`
and holds the same object after `dispatch({ type: 'NOOP' })`; after one
`dispatch({ type: 'INC' })` it holds a new object `{ count: 1 }` and after a
second one another new object `{ count: 2 }`. -/
theorem combine_scenario :
    (combinedOf counterEnv exampleCalls countReducers).1.shapeAssertionError = none ∧
    (combination counterEnv exampleCalls (combinedOf counterEnv exampleCalls countReducers).1
      countState noopAction (combinedOf counterEnv exampleCalls countReducers).2).1 =
      .ok countState ∧
    (combination counterEnv exampleCalls (combinedOf counterEnv exampleCalls countReducers).1
      countState incAction (combinedOf counterEnv exampleCalls countReducers).2).1 =
      .ok (.obj 5 [("count", .num 1)] [(0, [])]) ∧
    (combination counterEnv exampleCalls
      (combinedOf counterEnv exampleCalls
        (.obj 51 [("n", .num 3), ("count", .fn 0), ("u", .undefined)] [(0, [])])).1
      (.obj 61 [("count", .num 0), ("extra", .num 7)] [(0, [])]) incAction
      (combinedOf counterEnv exampleCalls
        (.obj 51 [("n", .num 3), ("count", .fn 0), ("u", .undefined)] [(0, [])])).2).1 =
      .ok (.obj 5 [("count", .num 1)] [(0, [])]) ∧
    returnedWith (match createStore combinedEnv 1 (.fn 9) .undefined .undefined with
      | .store s => some (dispatch combinedEnv 1 noopAction s)
      | _ => none) = some (noopAction, .obj 6 [("count", .num 0)] [(0, [])]) ∧
    (match createStore combinedEnv 1 (.fn 9) .undefined .undefined with
      | .store s => some s.currentState
      | _ => none) = some (.obj 6 [("count", .num 0)] [(0, [])]) ∧
    returnedWith (match createStore combinedEnv 1 (.fn 9) .undefined .undefined with
      | .store s => some (dispatch combinedEnv 1 incAction s)
      | _ => none) = some (incAction, .obj 7 [("count", .num 1)] [(0, [])]) ∧
    returnedWith (match createStore combinedEnv 1 (.fn 9) .undefined .undefined with
      | .store s => some (dispatch combinedEnv 1 incAction (dispatch combinedEnv 1 incAction s).store)
      | _ => none) = some (incAction, .obj 8 [("count", .num 2)] [(0, [])]) :=
  ⟨rfl, rfl, rfl, rfl, rfl, rfl, rfl, rfl⟩

/-! ### Claim C13 -/

theorem strictEq_typeOf (a b : Val) (h : strictEq a b = true) : typeOf a = typeOf b := by
  cases a <;> cases b <;> simp [strictEq, typeOf] at h ⊢

theorem lookup_of_mem_keys (l : List (String × Val)) (k : String)
    (h : k ∈ l.map Prod.fst) : ∃ x, l.lookup k = some x ∧ (k, x) ∈ l := by
  cases hl : l.lookup k with
  | some x => exact ⟨x, rfl, lookup_mem l k x hl⟩
  | none =>
    exfalso
    rw [List.lookup_eq_none_iff] at hl
    obtain ⟨p, hp, hk⟩ := List.mem_map.mp h
    have := hl p hp
    simp [hk] at this

theorem combineLoop_keeps_changed (env : Env) (call : Calls) (state action : Val)
    (entries : List (String × Val)) :
    ∀ (hasChanged : Bool) (nextState : List (String × Val)) (w w1 : Effects)
      (hasChanged1 : Bool) (nextState1 : List (String × Val)),
      combineLoop env call state action entries hasChanged nextState w =
        (.ok (hasChanged1, nextState1), w1) →
      hasChanged = true → hasChanged1 = true := by
  induction entries with
  | nil =>
    intro hasChanged nextState w w1 hasChanged1 nextState1 h ht
    simp only [combineLoop] at h
    injection h with h _
    injection h with h
    injection h with h1 _
    rw [← h1]; exact ht
  | cons p rest ih =>
    intro hasChanged nextState w w1 hasChanged1 nextState1 h ht
    obtain ⟨key, reducer⟩ := p
    simp only [combineLoop] at h
    cases hg : getPropE env state key with
    | error e => rw [hg] at h; simp at h
    | ok prev =>
      rw [hg] at h
      simp only at h
      cases hc : callTraced call reducer [prev, action] w with
      | mk res w2 =>
        rw [hc] at h
        cases res with
        | error e => simp at h
        | ok v =>
          simp only at h
          by_cases hv : typeOf v = .undefined
          · simp only [hv, if_true] at h
            cases hm : getUndefinedStateErrorMessage env key action <;> rw [hm] at h <;> simp at h
          · simp only [hv, if_false] at h
            exact ih _ _ _ _ _ _ h (by simp [ht])

/-- What a returning loop of `combination` has established. -/
theorem combineLoop_defined (env : Env) (call : Calls) (state action : Val)
    (entries : List (String × Val)) :
    ∀ (hasChanged : Bool) (nextState : List (String × Val)) (w w1 : Effects)
      (hasChanged1 : Bool) (nextState1 : List (String × Val)),
      combineLoop env call state action entries hasChanged nextState w =
        (.ok (hasChanged1, nextState1), w1) →
      ∃ fields, nextState1 = nextState ++ fields ∧
        fields.map Prod.fst = entries.map Prod.fst ∧
        (∀ q ∈ fields, typeOf q.2 ≠ .undefined) ∧
        (hasChanged1 = false → ∀ p ∈ entries, ∃ prev, getPropE env state p.1 = .ok prev ∧
          typeOf prev ≠ .undefined) := by
  induction entries with
  | nil =>
    intro hasChanged nextState w w1 hasChanged1 nextState1 h
    simp only [combineLoop] at h
    injection h with h _
    injection h with h
    injection h with _ h2
    exact ⟨[], by simp [h2], rfl, by simp, by simp⟩
  | cons p rest ih =>
    intro hasChanged nextState w w1 hasChanged1 nextState1 h
    obtain ⟨key, reducer⟩ := p
    simp only [combineLoop] at h
    cases hg : getPropE env state key with
    | error e => rw [hg] at h; simp at h
    | ok prev =>
      rw [hg] at h
      simp only at h
      cases hc : callTraced call reducer [prev, action] w with
      | mk res w2 =>
        rw [hc] at h
        cases res with
        | error e => simp at h
        | ok v =>
          simp only at h
          by_cases hv : typeOf v = .undefined
          · simp only [hv, if_true] at h
            cases hm : getUndefinedStateErrorMessage env key action <;> rw [hm] at h <;> simp at h
          · simp only [hv, if_false] at h
            obtain ⟨fields, e1, e2, e3, e4⟩ := ih _ _ _ _ _ _ h
            refine ⟨(key, v) :: fields, by simp [e1], by simp [e2], ?_, ?_⟩
            · intro q hq
              rcases List.mem_cons.mp hq with rfl | hq
              · exact hv
              · exact e3 q hq
            · intro hfalse q hq
              rcases List.mem_cons.mp hq with rfl | hq
              · refine ⟨prev, hg, ?_⟩
                have hs : strictEq v prev = true := by
                  have := combineLoop_keeps_changed env call state action rest _ _ _ _ _ _ h
                  cases hse : strictEq v prev with
                  | true => rfl
                  | false =>
                    have := this (by simp [hse])
                    rw [hfalse] at this
                    exact absurd this (by simp)
                rw [← strictEq_typeOf v prev hs]
                exact hv
              · exact e4 hfalse q hq

theorem getUndefinedStateErrorMessage_eq (env : Env) (key : String) (action : Val) :
    ∃ t, andProp env action "type" = .ok t ∧
      getUndefinedStateErrorMessage env key action =
        match actionDescriptionOf env t with
        | .ok description => .ok (undefinedStateMessage description key)
        | .error e => .error e := by
  obtain ⟨t, ht⟩ := andProp_ok env action "type"
  refine ⟨t, ht, ?_⟩
  simp only [getUndefinedStateErrorMessage, ht, actionDescriptionOf]
  cases truthy t with
  | false => rfl
  | true =>
    simp only [if_true]
    cases toStr env t <;> rfl

/-- The loop of `combination` when the children before the one at `key`
return defined values and that one returns `undefined`: the loop raises the
error built from the message of `getUndefinedStateErrorMessage`, or what
building that message raised, and the calls made are those of the children up
to and including that one, in order. -/
theorem combineLoop_raises (env : Env) (call : Calls) (state action : Val)
    (pre : List (String × Val)) (key : String) (id : Nat) (post : List (String × Val))
    (prev : Val)
    (hg : getPropE env state key = .ok prev) (hu : call id [prev, action] = .ok .undefined) :
    ∀ (hasChanged : Bool) (nextState : List (String × Val)) (w : Effects),
      (∀ p ∈ pre, ReturnsDefined env call state action p) →
      ∃ tr w1,
        combineLoop env call state action (pre ++ (key, .fn id) :: post) hasChanged nextState w =
          ((match getUndefinedStateErrorMessage env key action with
            | .ok msg => .error (.error msg)
            | .error e => .error e), w1) ∧
        w1.calls = w.calls ++ tr ++ [(.fn id, [prev, action])] ∧
        List.Forall₂ (fun p q => q.1 = p.2 ∧
          ∃ pv, getPropE env state p.1 = .ok pv ∧ q.2 = [pv, action]) pre tr := by
  induction pre with
  | nil =>
    intro hasChanged nextState w _
    refine ⟨[], { w with calls := w.calls ++ [(.fn id, [prev, action])] }, ?_, ?_,
      List.Forall₂.nil⟩
    · simp only [List.nil_append, combineLoop, hg, callTraced, hu, typeOf_undefined, if_true]
      cases getUndefinedStateErrorMessage env key action <;> rfl
    · simp
  | cons p rest ih =>
    intro hasChanged nextState w hall
    obtain ⟨k0, r0⟩ := p
    obtain ⟨v, hv, hdef⟩ := hall (k0, r0) (List.mem_cons_self _ _)
    obtain ⟨pv, id0, hg0, hr0, hcall0⟩ := childValue_ok env call state action k0 r0 v hv
    subst hr0
    obtain ⟨tr, w1, h1, h2, h3⟩ := ih (hasChanged || !strictEq v pv) (nextState ++ [(k0, v)])
      { w with calls := w.calls ++ [(.fn id0, [pv, action])] }
      (fun q hq => hall q (List.mem_cons_of_mem _ hq))
    refine ⟨(.fn id0, [pv, action]) :: tr, w1, ?_, ?_, ?_⟩
    · simp only [List.cons_append, combineLoop, hg0, callTraced, hcall0, hdef, if_false]
      exact h1
    · rw [h2]; simp
    · exact List.Forall₂.cons ⟨rfl, pv, hg0, rfl⟩ h3

theorem combination_unfold (env : Env) (call : Calls) (c : Combined) (state action : Val)
    (w : Effects) :
    combination env call c state action w =
      match c.raises with
      | some e => (.error e, defaultedEffects env state w)
      | none =>
        match shapeWarning env call c (defaulted env state w) action
            (defaultedEffects env state w) with
        | (.error e, w2) => (.error e, w2)
        | (.ok _, w2) =>
          match combineLoop env call (defaulted env state w) action c.finalReducers false []
              (emptyObject env w2).2 with
          | (.error e, w4) => (.error e, w4)
          | (.ok (hasChanged, nextState), w4) =>
            (.ok (if hasChanged then .obj (env.objRef w2.allocated) nextState [env.objectPrototype]
              else defaulted env state w), w4) := rfl

set_option maxHeartbeats 1000000 in
/-- C13, the claim as stated fails, in five ways.  The child `forgetful`
passes the probes and returns `undefined` for the action `{ type: 0 }`, whose
type is the number 0, not `undefined`, and the message of the error raised
says `an action`.  With the mapping `{ a: counter, b: (state, action) => state }`
and the state `{ count: 0 }` the child at `b` returns `undefined` for
`{ type: 'INC' }`, and the error raised is the one recorded in the probe,
whose message does not name the action.  With a child declared under the key
`hasOwnProperty` that raises when called with one argument, the child at
`count` returns `undefined` and the exception raised is that child's, from the
diagnostic step.  With a child that returns `undefined` for the action
`{ type: Object.create(null) }`, the exception raised is the `TypeError` of
`String(action.type)`.  And when the children at `count` and at `other` both
return `undefined`, the message names `count` only. -/
theorem C13_counterexample :
    ((combinedOf counterEnv exampleCalls forgetReducers).1.shapeAssertionError = none ∧
      getProp zeroTypeAction "type" = .num 0 ∧
      typeOf (getProp zeroTypeAction "type") ≠ .undefined ∧
      (combination counterEnv exampleCalls (combinedOf counterEnv exampleCalls forgetReducers).1
        countState zeroTypeAction (combinedOf counterEnv exampleCalls forgetReducers).2).1 =
        .error (.error ("Given an action, reducer \"count\" returned undefined. " ++
          "To ignore an action, you must explicitly return the previous state. " ++
          "If you want this reducer to hold no value, you can return null instead of " ++
          "undefined."))) ∧
    (childValue counterEnv exampleCalls countState incAction ("a", .fn 0) = .ok (.num 1) ∧
      childValue counterEnv exampleCalls countState incAction ("b", .fn 1) = .ok .undefined ∧
      (combination counterEnv exampleCalls (combinedOf counterEnv exampleCalls identityReducers).1
        countState incAction (combinedOf counterEnv exampleCalls identityReducers).2).1 =
        .error (.error (msgInitUndefined "b"))) ∧
    ((combinedOf counterEnv guardedCalls guardReducers).1 =
        { finalReducers := [("hasOwnProperty", .fn 4), ("count", .fn 2)],
          shapeAssertionError := none } ∧
      childValue counterEnv guardedCalls (guardState 0) zeroTypeAction
        ("hasOwnProperty", .fn 4) = .ok (.num 0) ∧
      childValue counterEnv guardedCalls (guardState 0) zeroTypeAction ("count", .fn 2) =
        .ok .undefined ∧
      (combination counterEnv guardedCalls (combinedOf counterEnv guardedCalls guardReducers).1
        (guardState 0) zeroTypeAction (combinedOf counterEnv guardedCalls guardReducers).2).1 =
        .error (.thrown (.str "arity"))) ∧
    ((combinedOf bareEnv guardedCalls objectTypeReducers).1 =
        { finalReducers := [("count", .fn 5)], shapeAssertionError := none } ∧
      childValue bareEnv guardedCalls countState bareTypeAction ("count", .fn 5) =
        .ok .undefined ∧
      (combination bareEnv guardedCalls (combinedOf bareEnv guardedCalls objectTypeReducers).1
        countState bareTypeAction (combinedOf bareEnv guardedCalls objectTypeReducers).2).1 =
        .error notPrimitive) ∧
    ((combinedOf counterEnv exampleCalls twoForgetReducers).1 =
        { finalReducers := [("count", .fn 2), ("other", .fn 2)],
          shapeAssertionError := none } ∧
      childValue counterEnv exampleCalls countState zeroTypeAction ("other", .fn 2) =
        .ok .undefined ∧
      (combination counterEnv exampleCalls (combinedOf counterEnv exampleCalls twoForgetReducers).1
        countState zeroTypeAction (combinedOf counterEnv exampleCalls twoForgetReducers).2).1 =
        .error (.error (undefinedStateMessage "an action" "count"))) :=
  ⟨⟨rfl, rfl, by decide, rfl⟩, ⟨rfl, rfl, rfl⟩, ⟨rfl, rfl, rfl, rfl⟩, ⟨rfl, rfl, rfl⟩,
    ⟨rfl, rfl, rfl⟩⟩

/-- C13 as amended: a value `combination` returns holds a defined value at
every declared key.  A recorded shape error is raised before any child is
called, and so is an exception of the diagnostic step.  Otherwise, when the
children before the one at `key` return defined values and that one returns
`undefined`, `combination` raises: when `action && action.type` is falsy, an
error whose message names `key` and says `an action`; when it is truthy, an
error whose message names `key` and the conversion `String(action.type)`, or
the exception that conversion raised.  The calls of children made are those
up to and including the one at `key`, so no later child is called. -/
theorem C13_undefined_child (env : Env) (call : Calls) (c : Combined) (state action : Val)
    (w : Effects) :
    (∀ v w1, combination env call c state action w = (.ok v, w1) →
      ∀ p ∈ c.finalReducers, ∃ x, getPropE env v p.1 = .ok x ∧ typeOf x ≠ .undefined) ∧
    (∀ e, c.raises = some e →
      combination env call c state action w = (.error e, defaultedEffects env state w)) ∧
    (∀ e wd, c.raises = none →
      shapeWarning env call c (defaulted env state w) action (defaultedEffects env state w) =
        (.error e, wd) →
      combination env call c state action w = (.error e, wd)) ∧
    (∀ (pre : List (String × Val)) (key : String) (id : Nat) (post : List (String × Val))
      (prev : Val) (wd : Effects), c.raises = none →
      shapeWarning env call c (defaulted env state w) action (defaultedEffects env state w) =
        (.ok (), wd) →
      c.finalReducers = pre ++ (key, .fn id) :: post →
      (∀ p ∈ pre, ReturnsDefined env call (defaulted env state w) action p) →
      getPropE env (defaulted env state w) key = .ok prev →
      call id [prev, action] = .ok .undefined →
      ∃ t tr w1, andProp env action "type" = .ok t ∧
        combination env call c state action w =
          ((if truthy t then
              match toStr env t with
              | .ok str =>
                .error (.error (undefinedStateMessage ("action \"" ++ str ++ "\"") key))
              | .error e => .error e
            else .error (.error (undefinedStateMessage "an action" key))), w1) ∧
        w1.calls = wd.calls ++ tr ++ [(.fn id, [prev, action])] ∧
        List.Forall₂ (fun p q => q.1 = p.2 ∧
          ∃ pv, getPropE env (defaulted env state w) p.1 = .ok pv ∧ q.2 = [pv, action])
          pre tr) := by
  refine ⟨?_, ?_, ?_, ?_⟩
  · intro v w1 h p hp
    rw [combination_unfold] at h
    cases hr : c.raises with
    | some e => rw [hr] at h; simp at h
    | none =>
      rw [hr] at h
      simp only at h
      cases hs : shapeWarning env call c (defaulted env state w) action
          (defaultedEffects env state w) with
      | mk res w2 =>
        rw [hs] at h
        cases res with
        | error e => simp at h
        | ok u =>
          simp only at h
          cases hl : combineLoop env call (defaulted env state w) action c.finalReducers false []
              (emptyObject env w2).2 with
          | mk res2 w4 =>
            rw [hl] at h
            cases res2 with
            | error e => simp at h
            | ok r =>
              obtain ⟨changed, fields0⟩ := r
              simp only at h
              injection h with h _
              injection h with h
              obtain ⟨fields, e1, e2, e3, e4⟩ := combineLoop_defined env call
                (defaulted env state w) action c.finalReducers _ _ _ _ _ _ hl
              simp only [List.nil_append] at e1
              rw [e1] at h
              cases changed with
              | false =>
                simp only [Bool.false_eq_true, if_false] at h
                subst h
                exact e4 rfl p hp
              | true =>
                simp only [if_true] at h
                subst h
                have hk : p.1 ∈ fields.map Prod.fst := by
                  rw [e2]; exact List.mem_map_of_mem _ hp
                obtain ⟨x, hx, hmem⟩ := lookup_of_mem_keys fields p.1 hk
                refine ⟨x, ?_, e3 _ hmem⟩
                simp [getPropE, getProp, hx]
  · intro e hr
    rw [combination_unfold, hr]
  · intro e wd hr hs
    rw [combination_unfold, hr]
    simp only [hs]
  · intro pre key id post prev wd hr hw hsplit hpre hg hu
    obtain ⟨t, ht, hmsg⟩ := getUndefinedStateErrorMessage_eq env key action
    obtain ⟨tr, w1, h1, h2, h3⟩ := combineLoop_raises env call (defaulted env state w) action
      pre key id post prev hg hu false [] (emptyObject env wd).2 hpre
    refine ⟨t, tr, w1, ht, ?_, ?_, h3⟩
    · rw [combination_unfold, hr]
      simp only [hw, hsplit, h1, hmsg, actionDescriptionOf]
      cases truthy t with
      | false => rfl
      | true =>
        simp only [if_true]
        cases toStr env t <;> rfl
    · rw [h2]; rfl

theorem C13_witness :
    (combinedOf counterEnv exampleCalls forgetReducers).1 =
      { finalReducers := [("count", .fn 2)], shapeAssertionError := none } ∧
    ∃ t tr w1, andProp counterEnv zeroTypeAction "type" = .ok t ∧
      combination counterEnv exampleCalls
        { finalReducers := [("count", .fn 2)], shapeAssertionError := none }
        countState zeroTypeAction Effects.initial =
        ((if truthy t then
            match toStr counterEnv t with
            | .ok str =>
              .error (.error (undefinedStateMessage ("action \"" ++ str ++ "\"") "count"))
            | .error e => .error e
          else .error (.error (undefinedStateMessage "an action" "count"))), w1) ∧
      w1.calls = (shapeWarning counterEnv exampleCalls
        { finalReducers := [("count", .fn 2)], shapeAssertionError := none }
        (defaulted counterEnv countState Effects.initial) zeroTypeAction
        (defaultedEffects counterEnv countState Effects.initial)).2.calls ++ tr ++
          [(.fn 2, [.num 0, zeroTypeAction])] ∧
      List.Forall₂ (fun p q => q.1 = p.2 ∧
        ∃ pv, getPropE counterEnv (defaulted counterEnv countState Effects.initial) p.1 = .ok pv ∧
          q.2 = [pv, zeroTypeAction]) ([] : List (String × Val)) tr :=
  ⟨rfl, (C13_undefined_child counterEnv exampleCalls
    { finalReducers := [("count", .fn 2)], shapeAssertionError := none }
    countState zeroTypeAction Effects.initial).2.2.2 [] "count" 2 [] (.num 0)
    (shapeWarning counterEnv exampleCalls
      { finalReducers := [("count", .fn 2)], shapeAssertionError := none }
      (defaulted counterEnv countState Effects.initial) zeroTypeAction
      (defaultedEffects counterEnv countState Effects.initial)).2
    rfl rfl rfl (fun p hp => absurd hp (List.not_mem_nil _)) rfl rfl⟩

/-- The words `an action` appear for every falsy type: for `{ type: '' }`
too, while `{ type: 'X' }` is described by its type, `{ type: 7 }` by the
digits of the number and `{ type: {} }` by what `String` makes of the object.
The child here returns `undefined` on every call, in a composed reducer taken
without the probes. -/
theorem action_description_scenario :
    (combination counterEnv exampleCalls
      { finalReducers := [("k", .fn 7)], shapeAssertionError := none }
      countState (actionOf 104 "") Effects.initial).1 =
      .error (.error (undefinedStateMessage "an action" "k")) ∧
    (combination counterEnv exampleCalls
      { finalReducers := [("k", .fn 7)], shapeAssertionError := none }
      countState (actionOf 105 "X") Effects.initial).1 =
      .error (.error (undefinedStateMessage "action \"X\"" "k")) ∧
    (combination counterEnv exampleCalls
      { finalReducers := [("k", .fn 7)], shapeAssertionError := none }
      countState (.obj 110 [("type", .num 7)] [(0, [])]) Effects.initial).1 =
      .error (.error (undefinedStateMessage "action \"7\"" "k")) ∧
    (combination counterEnv exampleCalls
      { finalReducers := [("k", .fn 7)], shapeAssertionError := none }
      countState (.obj 111 [("type", .obj 112 [] [(0, [])])] [(0, [])]) Effects.initial).1 =
      .error (.error (undefinedStateMessage "action \"[object Object]\"" "k")) :=
  ⟨rfl, rfl, rfl, rfl⟩

/-! ### Claim C14 -/

/-- `createStore` with a reducer that raises `e` on the bootstrap call raises
`e`. -/
theorem createStore_raises (env : Env) (g : Nat) (e : Err) (p : Val)
    (hp : typeOf p ≠ .function) (n : Nat)
    (hbody : env.body g [p, initAction env] = .throw e) :
    createStore env (n + 1) (.fn g) p .undefined = .raised e := by
  have hcall : callFn env (dispatch env n) (.fn g) [p, initAction env]
      (reducerEntry (n + 1) (initAction env) { initialStore (.fn g) p with allocated := 1 }) =
      .raise e (reducerEntry (n + 1) (initAction env)
        { initialStore (.fn g) p with allocated := 1 }) := by
    simp [callFn, hbody, run]
  have hd := (dispatch_reducer_raises env n (initAction env)
    { initialStore (.fn g) p with allocated := 1 } (initAction_valid env) rfl e _ hcall).1
  have hsh : (typeOf p = JsType.function) = False := by simp [hp]
  simp only [initAction, initialStore] at hd
  simp only [createStore, typeOf_undefined, typeOf_fn, typeLiteral, hsh, decide_False,
      Bool.false_and, Bool.false_eq_true, if_false, ne_eq, not_true_eq_false, reduceCtorEq,
      not_false_eq_true, if_true, initialStore, initAction, hd]

/-- A composed reducer with a recorded `Error` raises it on every call,
before it calls any user function. -/
theorem combination_recorded (env : Env) (call : Calls) (fr : List (String × Val))
    (msg : String) (state action : Val) (w : Effects) :
    ∃ w2, combination env call { finalReducers := fr, shapeAssertionError := some (.error msg) }
        state action w = (.error (.error msg), w2) ∧
      w2.calls = w.calls ∧ w2.warnings = w.warnings := by
  unfold combination
  by_cases hu : typeOf state = .undefined
  · simp only [hu, if_true, Combined.raises]
    exact ⟨_, rfl, rfl, rfl⟩
  · simp only [hu, if_false, Combined.raises]
    exact ⟨_, rfl, rfl, rfl⟩

/-- C14: `combineReducers` returns for every object, whatever its children
do.  When the callable children before the one at `key` pass the probes and
that one returns `undefined` for an undefined state and the bootstrap action,
or a defined value for it and `undefined` for the probe action, the reducer
returned has recorded an `Error` whose message names `key`; every call of it
raises that error without calling any child, and `createStore` with it as
reducer raises that error. -/
theorem C14_deferred_shape_error (env : Env) (call : Calls) (ref : Nat)
    (fs : List (String × Val)) (ps : List (Nat × List (String × Val))) (w0 : Effects) :
    (∃ c w1, combineReducers env call (.obj ref fs ps) w0 = (.ok c, w1)) ∧
    (∀ (pre : List (String × Val)) (key : String) (f : Val) (post : List (String × Val)),
      (fs.filter fun p => typeOf p.2 = .function) = pre ++ (key, f) :: post →
      (∀ p ∈ pre, PassesProbes env call p.2) →
      FailsInit env call f ∨ FailsRandom env call f →
      ∃ c w1 msg, combineReducers env call (.obj ref fs ps) w0 = (.ok c, w1) ∧
        ((FailsInit env call f ∧ msg = msgInitUndefined key) ∨
          (FailsRandom env call f ∧ msg = msgProbeUndefined env key)) ∧
        c.shapeAssertionError = some (.error msg) ∧
        (∀ state action w, ∃ w2,
          combination env call c state action w = (.error (.error msg), w2) ∧
          w2.calls = w.calls) ∧
        (∀ (n g : Nat) (p : Val), typeOf p ≠ .function →
          (∀ st a, ∃ w, env.body g [st, a] =
            Prog.ofResult (combination env call c st a w).1) →
          createStore env (n + 1) (.fn g) p .undefined = .raised (.error msg))) := by
  obtain ⟨w3, h3⟩ := combineReducers_eq env call (.obj ref fs ps) w0 fs rfl
  constructor
  · rw [h3]
    cases assertReducerShape env call (callableEntries fs) w3 with
    | mk res w4 =>
      cases res with
      | ok u => exact ⟨_, _, rfl⟩
      | error e => exact ⟨_, _, rfl⟩
  · intro pre key f post hsplit hpre hfail
    have hsplit' : callableEntries fs = pre ++ (key, f) :: post := hsplit
    have hshape := assertReducerShape_fails env call pre key f post w3 hpre
    have hmain : ∀ msg w4, assertReducerShape env call (callableEntries fs) w3 =
        (.error (.error msg), w4) →
        combineReducers env call (.obj ref fs ps) w0 =
          (.ok { finalReducers := callableEntries fs,
                 shapeAssertionError := some (.error msg) }, w4) := by
      intro msg w4 h
      rw [h3, h]
    have hrest : ∀ msg,
        (∀ state action w, ∃ w2, combination env call
          { finalReducers := callableEntries fs, shapeAssertionError := some (.error msg) }
          state action w = (.error (.error msg), w2) ∧ w2.calls = w.calls) ∧
        (∀ (n g : Nat) (p : Val), typeOf p ≠ .function →
          (∀ st a, ∃ w, env.body g [st, a] = Prog.ofResult (combination env call
            { finalReducers := callableEntries fs, shapeAssertionError := some (.error msg) }
            st a w).1) →
          createStore env (n + 1) (.fn g) p .undefined = .raised (.error msg)) := by
      intro msg
      constructor
      · intro state action w
        obtain ⟨w2, e1, e2, _⟩ := combination_recorded env call (callableEntries fs) msg
          state action w
        exact ⟨w2, e1, e2⟩
      · intro n g p hp hbody
        obtain ⟨w, hw⟩ := hbody p (initAction env)
        obtain ⟨w2, e1, _, _⟩ := combination_recorded env call (callableEntries fs) msg
          p (initAction env) w
        rw [e1] at hw
        exact createStore_raises env g (.error msg) p hp n hw
    rcases hfail with hf | hf
    · obtain ⟨w4, h4⟩ := hshape.1 hf
      rw [← hsplit'] at h4
      exact ⟨_, w4, msgInitUndefined key, hmain _ _ h4, Or.inl ⟨hf, rfl⟩, rfl,
        (hrest _).1, (hrest _).2⟩
    · obtain ⟨w4, h4⟩ := hshape.2 hf
      rw [← hsplit'] at h4
      exact ⟨_, w4, msgProbeUndefined env key, hmain _ _ h4, Or.inr ⟨hf, rfl⟩, rfl,
        (hrest _).1, (hrest _).2⟩

theorem C14_witness :
    ∃ c w1 msg, combineReducers counterEnv exampleCalls identityReducers Effects.initial =
        (.ok c, w1) ∧
      ((FailsInit counterEnv exampleCalls (.fn 1) ∧ msg = msgInitUndefined "b") ∨
        (FailsRandom counterEnv exampleCalls (.fn 1) ∧ msg = msgProbeUndefined counterEnv "b")) ∧
      c.shapeAssertionError = some (.error msg) ∧
      (∀ state action w, ∃ w2,
        combination counterEnv exampleCalls c state action w = (.error (.error msg), w2) ∧
        w2.calls = w.calls) ∧
      (∀ (n g : Nat) (p : Val), typeOf p ≠ .function →
        (∀ st a, ∃ w, counterEnv.body g [st, a] =
          Prog.ofResult (combination counterEnv exampleCalls c st a w).1) →
        createStore counterEnv (n + 1) (.fn g) p .undefined = .raised (.error msg)) :=
  (C14_deferred_shape_error counterEnv exampleCalls 53 [("a", .fn 0), ("b", .fn 1)] [(0, [])]
    Effects.initial).2 [("a", .fn 0)] "b" (.fn 1) [] rfl
    (fun p hp => by
      have hp2 : p = ("a", Val.fn 0) := by simpa using hp
      rw [hp2]; exact counter_passes counterEnv)
    (Or.inl ⟨1, rfl, fun _ => rfl⟩)

/-- The scenario of C14 evaluated.  With the identity reducer under key `b`
the composed reducer has recorded the initialization error naming `b`, and
`createStore` with it raises that error.  With a child under `b` that
answers the bootstrap action by name and otherwise returns its state, the
error recorded is the one of the random probe, naming `b`. -/
theorem shape_error_scenario :
    (combinedOf counterEnv exampleCalls identityReducers).1.shapeAssertionError =
      some (.error (msgInitUndefined "b")) ∧
    (combination counterEnv exampleCalls (combinedOf counterEnv exampleCalls identityReducers).1
      countState incAction (combinedOf counterEnv exampleCalls identityReducers).2).1 =
      .error (.error (msgInitUndefined "b")) ∧
    createStore (combinedEnvOf identityReducers) 1 (.fn 9) .undefined .undefined =
      .raised (.error (msgInitUndefined "b")) ∧
    (combinedOf counterEnv exampleCalls initOnlyReducers).1.shapeAssertionError =
      some (.error (msgProbeUndefined counterEnv "b")) ∧
    createStore (combinedEnvOf initOnlyReducers) 1 (.fn 9) .undefined .undefined =
      .raised (.error (msgProbeUndefined counterEnv "b")) :=
  ⟨rfl, rfl, rfl, rfl, rfl⟩

/-! ### Claim C21 -/

theorem bindEntries_spec (call : Calls) (d : Dispatch) (entries : List (String × Val)) :
    ∀ bound : List (String × Bound),
      bindEntries call d entries bound =
        bound ++ (entries.filter fun p => typeOf p.2 = .function).map
          fun p => (p.1, bindActionCreator call p.2 d) := by
  induction entries with
  | nil => intro bound; simp [bindEntries]
  | cons p rest ih =>
    intro bound
    obtain ⟨key, v⟩ := p
    simp only [bindEntries, ih, List.filter_cons]
    by_cases hv : typeOf v = .function <;> simp [hv]

/-- C21: for every `dispatch` function `d`, `bindActionCreators(f, d)` with a
callable `f` returns a function that, called with `args`, returns
`d(f(args))` (and raises what `f` raises); with an object it returns a new
object whose keys are the keys of the callable entries, in order, each
holding the function bound to that entry, and entries that are not callable
are left out without error; with any value that is neither callable nor a
non-null object it raises the error that names the type received. -/
theorem C21_bindActionCreators (env : Env) (call : Calls) (n : Nat) (d : Dispatch) :
    (∀ id, ∃ g, bindActionCreators env call n (.fn id) d = .ok (.function g) ∧
      ∀ args s, g args s =
        match call id args with
        | .ok action => d action s
        | .error e => .raise e s) ∧
    (∀ ref fs ps, ∃ fields,
      bindActionCreators env call n (.obj ref fs ps) d = .ok (.mapping (env.objRef n) fields) ∧
      fields.map Prod.fst = (fs.filter fun p => typeOf p.2 = .function).map Prod.fst ∧
      List.Forall₂ (fun p q => q.1 = p.1 ∧ ∃ id, p.2 = .fn id ∧
        ∀ args s, q.2 args s =
          match call id args with
          | .ok action => d action s
          | .error e => .raise e s)
        (fs.filter fun p => typeOf p.2 = .function) fields) ∧
    (∀ v, typeOf v ≠ .function → (typeOf v ≠ .object ∨ v = .null) →
      bindActionCreators env call n v d = .error (.error (msgBind v))) := by
  refine ⟨fun id => ⟨_, rfl, fun _ _ => rfl⟩, ?_, ?_⟩
  · intro ref fs ps
    refine ⟨bindEntries call d fs [], ?_, ?_, ?_⟩
    · simp [bindActionCreators, ownEntries, strictEq]
    · rw [bindEntries_spec]
      simp [List.map_map, Function.comp_def]
    · rw [bindEntries_spec]
      simp only [List.nil_append]
      have hl : ∀ l : List (String × Val), (∀ p ∈ l, typeOf p.2 = .function) →
          List.Forall₂ (fun p q => q.1 = p.1 ∧ ∃ id, p.2 = .fn id ∧
            ∀ args s, q.2 args s =
              match call id args with
              | .ok action => d action s
              | .error e => .raise e s)
            l (l.map fun p => (p.1, bindActionCreator call p.2 d)) := by
        intro l
        induction l with
        | nil => intro _; exact List.Forall₂.nil
        | cons p rest ih =>
          intro hall
          obtain ⟨id, hid⟩ := typeOf_function p.2 (hall p (List.mem_cons_self _ _))
          refine List.Forall₂.cons ⟨rfl, id, hid, ?_⟩
            (ih (fun q hq => hall q (List.mem_cons_of_mem _ hq)))
          intro args s
          simp only [bindActionCreator, hid]
      exact hl _ (fun p hp => by simpa using (List.mem_filter.mp hp).2)
  · intro v hf ho
    rcases ho with ho | ho
    · simp [bindActionCreators, hf, ho]
    · subst ho
      simp [bindActionCreators, strictEq]

theorem C21_witness :
    typeOf (Val.num 3) ≠ .function ∧ (typeOf (Val.num 3) ≠ .object ∨ Val.num 3 = .null) ∧
    bindActionCreators counterEnv creatorCalls 0 (.num 3) (dispatch counterEnv 1) =
      .error (.error (msgBind (.num 3))) :=
  ⟨by simp, Or.inl (by simp),
   (C21_bindActionCreators counterEnv creatorCalls 0 (dispatch counterEnv 1)).2.2 (.num 3)
    (by simp) (Or.inl (by simp))⟩

/-- The cases of C21 evaluated with the store's `dispatch` on the store
`createStore(counter)` returned.  The function bound under `inc` dispatches
`{ type: 'INC' }`: the state becomes 1.  The function bound under `named`
passes its argument to the action creator.  The entry `n`, a number, is left
out.  `null`, `undefined`, a number and a string are refused, each with the
message naming what was received. -/
theorem bind_scenario :
    callBound (bindActionCreators counterEnv creatorCalls 0 creators (dispatch counterEnv 1))
      "inc" [] (counterStore 1) = some (dispatch counterEnv 1 incAction (counterStore 1)) ∧
    returnedWith (callBound
      (bindActionCreators counterEnv creatorCalls 0 creators (dispatch counterEnv 1))
      "inc" [] (counterStore 1)) = some (incAction, .num 1) ∧
    returnedWith (callBound
      (bindActionCreators counterEnv creatorCalls 0 creators (dispatch counterEnv 1))
      "named" [.str "INC"] (counterStore 1)) = some (actionOf 400 "INC", .num 1) ∧
    callBound (bindActionCreators counterEnv creatorCalls 0 creators (dispatch counterEnv 1))
      "n" [] (counterStore 1) = none ∧
    returnedWith (callBound
      (bindActionCreators counterEnv creatorCalls 0 (.fn 0) (dispatch counterEnv 1))
      "" [] (counterStore 1)) = some (incAction, .num 1) ∧
    bindActionCreators counterEnv creatorCalls 0 .null (dispatch counterEnv 1) =
      .error (.error ("bindActionCreators expected an object or a function, " ++
        "instead received null. Did you write \"import ActionCreators from\" instead of " ++
        "\"import * as ActionCreators from\"?")) ∧
    bindActionCreators counterEnv creatorCalls 0 .undefined (dispatch counterEnv 1) =
      .error (.error ("bindActionCreators expected an object or a function, " ++
        "instead received undefined. Did you write \"import ActionCreators from\" instead of " ++
        "\"import * as ActionCreators from\"?")) ∧
    bindActionCreators counterEnv creatorCalls 0 (.str "x") (dispatch counterEnv 1) =
      .error (.error ("bindActionCreators expected an object or a function, " ++
        "instead received string. Did you write \"import ActionCreators from\" instead of " ++
        "\"import * as ActionCreators from\"?")) :=
  ⟨rfl, rfl, rfl, rfl, rfl, rfl, rfl, rfl⟩

/-! ### Claim C22 -/

theorem callTraced_warnings (call : Calls) (f : Val) (args : List Val) (w : Effects) :
    (callTraced call f args w).2.warnings = w.warnings := by
  cases f <;> rfl

theorem hasOwnProperty_warnings (call : Calls) (reducers : List (String × Val)) (key : String)
    (w : Effects) : (hasOwnProperty call reducers key w).2.warnings = w.warnings := by
  unfold hasOwnProperty
  cases hl : reducers.lookup "hasOwnProperty" with
  | none => rfl
  | some f =>
    dsimp only
    have h := callTraced_warnings call f [.str key] w
    rcases hc : callTraced call f [.str key] w with ⟨res, w1⟩
    rw [hc] at h
    cases res <;> exact h

theorem unexpectedKeysOf_warnings (env : Env) (call : Calls) (reducers : List (String × Val))
    (keys : List String) :
    ∀ w : Effects, (unexpectedKeysOf env call reducers keys w).2.warnings = w.warnings := by
  induction keys with
  | nil => intro w; rfl
  | cons key rest ih =>
    intro w
    have h1 := hasOwnProperty_warnings call reducers key w
    simp only [unexpectedKeysOf]
    rcases hc : hasOwnProperty call reducers key w with ⟨res, w1⟩
    rw [hc] at h1
    cases res with
    | error e => exact h1
    | ok own =>
      have h2 := ih w1
      simp only
      rcases hc2 : unexpectedKeysOf env call reducers rest w1 with ⟨res2, w2⟩
      rw [hc2] at h2
      cases res2 with
      | error e => exact h2.trans h1
      | ok ks => exact h2.trans h1

theorem combineLoop_warnings (env : Env) (call : Calls) (state action : Val)
    (entries : List (String × Val)) :
    ∀ (hasChanged : Bool) (nextState : List (String × Val)) (w : Effects),
      (combineLoop env call state action entries hasChanged nextState w).2.warnings =
        w.warnings := by
  induction entries with
  | nil => intro _ _ w; rfl
  | cons p rest ih =>
    intro hasChanged nextState w
    obtain ⟨key, reducer⟩ := p
    simp only [combineLoop]
    cases hg : getPropE env state key with
    | error e => rfl
    | ok prev =>
      simp only
      have h1 := callTraced_warnings call reducer [prev, action] w
      rcases hc : callTraced call reducer [prev, action] w with ⟨res, w1⟩
      rw [hc] at h1
      cases res with
      | error e => exact h1
      | ok v =>
        simp only
        by_cases hv : typeOf v = .undefined
        · simp only [hv, if_true]
          cases getUndefinedStateErrorMessage env key action <;> exact h1
        · simp only [hv, if_false]
          exact (ih _ _ w1).trans h1

/-- The diagnostic step for the replace action, a plain state and at least
one declared key: no message is passed to `warning`. -/
theorem shapeWarning_replace (env : Env) (call : Calls) (c : Combined) (state action : Val)
    (w : Effects) (hrep : IsReplace env action) (hkeys : c.finalReducers ≠ [])
    (hplain : isPlainObject state = true) :
    (shapeWarning env call c state action w).2.warnings = w.warnings := by
  obtain ⟨t, ht, hta, hts⟩ := hrep
  unfold shapeWarning
  by_cases hp : env.production = true
  · simp [hp]
  · have hp2 : env.production = false := by simpa using hp
    simp only [hp2, Bool.not_false, if_true]
    have hlen : ¬ (c.finalReducers.map Prod.fst).length = 0 := by
      simp only [List.length_map]
      intro h0
      exact hkeys (List.length_eq_zero.mp h0)
    obtain ⟨entries, he⟩ := ownEntries_plain state hplain
    have hu := unexpectedKeysOf_warnings env call c.finalReducers (entries.map Prod.fst) w
    unfold getUnexpectedStateShapeWarningMessage
    simp only [ht, hlen, if_false, hplain, Bool.not_true, Bool.false_eq_true, he, hta, hts,
      Bool.and_self, if_true]
    rcases hc : unexpectedKeysOf env call c.finalReducers (entries.map Prod.fst) w with
      ⟨res, w1⟩
    rw [hc] at hu
    cases res with
    | error e => exact hu
    | ok ks => exact hu

theorem defaultedEffects_warnings (env : Env) (state : Val) (w : Effects) :
    (defaultedEffects env state w).warnings = w.warnings := by
  unfold defaultedEffects
  split <;> rfl

/-- The messages `combination` passes to `warning` are those of its
diagnostic step; with a recorded error there are none. -/
theorem combination_warnings (env : Env) (call : Calls) (c : Combined) (state action : Val)
    (w : Effects) :
    (c.raises = none → (combination env call c state action w).2.warnings =
      (shapeWarning env call c (defaulted env state w) action
        (defaultedEffects env state w)).2.warnings) ∧
    (∀ e, c.raises = some e → (combination env call c state action w).2.warnings =
      w.warnings) := by
  have hd : (if typeOf state = .undefined then emptyObject env w else (state, w)) =
      (defaulted env state w, defaultedEffects env state w) := rfl
  constructor
  · intro hr
    unfold combination
    rw [hd]
    simp only [hr]
    rcases hs : shapeWarning env call c (defaulted env state w) action
      (defaultedEffects env state w) with ⟨res, w2⟩
    cases res with
    | error e => rfl
    | ok u =>
      simp only
      have hl := combineLoop_warnings env call (defaulted env state w) action c.finalReducers
        false [] (emptyObject env w2).2
      rcases hc : combineLoop env call (defaulted env state w) action c.finalReducers false []
        (emptyObject env w2).2 with ⟨res2, w4⟩
      rw [hc] at hl
      cases res2 with
      | error e => exact hl
      | ok r => exact hl
  · intro e hr
    unfold combination
    rw [hd]
    simp only [hr]
    exact defaultedEffects_warnings env state w

theorem append_quote_ne (s : String) : s ++ "\"" ≠ "" := by
  intro h
  have h1 := congrArg String.length h
  rw [String.length_append] at h1
  have h2 : ("\"" : String).length = 1 := rfl
  have h3 : ("" : String).length = 0 := rfl
  omega

/-- C22, the claim as stated fails, in a build that is not a production
build.  The reducer built from `{}` passes the message that the store has no
valid reducer to `warning` when it is called with the replace action, and the
reducer built from `{ count: counter }` passes the message about the type of
the state when it is called with the number 5 and the replace action. -/
theorem C22_counterexample :
    counterEnv.production = false ∧
    getProp replaceExample "type" = .str (ActionTypes.REPLACE counterEnv) ∧
    (combinedOf counterEnv exampleCalls noReducers).2.warnings = [] ∧
    (combination counterEnv exampleCalls (combinedOf counterEnv exampleCalls noReducers).1
      countState replaceExample (combinedOf counterEnv exampleCalls noReducers).2).2.warnings =
      ["Store does not have a valid reducer. Make sure the argument passed " ++
        "to combineReducers is an object whose values are reducers."] ∧
    (combinedOf counterEnv exampleCalls countReducers).2.warnings = [] ∧
    (combination counterEnv exampleCalls (combinedOf counterEnv exampleCalls countReducers).1
      (.num 5) replaceExample (combinedOf counterEnv exampleCalls countReducers).2).2.warnings =
      ["The previous state received by the reducer has unexpected type of \"Number\". " ++
        "Expected argument to be an object with the following keys: \"count\""] :=
  ⟨rfl, rfl, rfl, rfl, rfl, rfl⟩

/-- C22 as amended: called with the replace action, a composed reducer with
at least one declared key passes no message to `warning` when the state is a
plain object (or `undefined`, which stands for `{}`), whatever the keys of
the state are.  In a build that is not a production build and with no error
recorded, a composed reducer without declared keys passes the message that
the store has no valid reducer, and one whose state is not a plain object
passes one message, also for the replace action. -/
theorem C22_replace_diagnostics (env : Env) (call : Calls) (c : Combined) (state action : Val)
    (w : Effects) (hrep : IsReplace env action) :
    (c.finalReducers ≠ [] → isPlainObject (defaulted env state w) = true →
      (combination env call c state action w).2.warnings = w.warnings) ∧
    (env.production = false → c.raises = none → c.finalReducers = [] →
      (combination env call c state action w).2.warnings = w.warnings ++ [msgNoReducer]) ∧
    (env.production = false → c.raises = none → c.finalReducers ≠ [] →
      isPlainObject (defaulted env state w) = false →
      ∃ m, (combination env call c state action w).2.warnings = w.warnings ++ [m]) := by
  have hcw := combination_warnings env call c state action w
  refine ⟨?_, ?_, ?_⟩
  · intro hkeys hplain
    cases hr : c.raises with
    | some e => exact hcw.2 e hr
    | none =>
      rw [hcw.1 hr, shapeWarning_replace env call c _ action _ hrep hkeys hplain]
      exact defaultedEffects_warnings env state w
  · intro hp hr hnil
    obtain ⟨t, ht, _, _⟩ := hrep
    rw [hcw.1 hr]
    simp only [shapeWarning, hp, Bool.not_false, if_true,
      getUnexpectedStateShapeWarningMessage, ht, hnil, List.map_nil, List.length_nil]
    simp [warning, msgNoReducer, defaultedEffects_warnings]
  · intro hp hr hkeys hplain
    obtain ⟨t, ht, _, _⟩ := hrep
    have hlen : ¬ (c.finalReducers.map Prod.fst).length = 0 := by
      simp only [List.length_map]
      intro h0
      exact hkeys (List.length_eq_zero.mp h0)
    rw [hcw.1 hr]
    simp only [shapeWarning, hp, Bool.not_false, if_true,
      getUnexpectedStateShapeWarningMessage, ht, hlen, if_false, hplain]
    simp only [warning, emptyObject, defaultedEffects_warnings, Bool.not_false, if_true,
      bne_iff_ne, ne_eq, append_quote_ne, not_false_eq_true]
    exact ⟨_, rfl⟩

theorem C22_witness :
    IsReplace counterEnv replaceExample ∧
    ((combinedOf counterEnv exampleCalls countReducers).1.finalReducers ≠ [] →
      isPlainObject (defaulted counterEnv extraState Effects.initial) = true →
      (combination counterEnv exampleCalls (combinedOf counterEnv exampleCalls countReducers).1
        extraState replaceExample Effects.initial).2.warnings = Effects.initial.warnings) ∧
    (counterEnv.production = false →
      (combinedOf counterEnv exampleCalls countReducers).1.raises = none →
      (combinedOf counterEnv exampleCalls countReducers).1.finalReducers = [] →
      (combination counterEnv exampleCalls (combinedOf counterEnv exampleCalls countReducers).1
        extraState replaceExample Effects.initial).2.warnings =
        Effects.initial.warnings ++ [msgNoReducer]) ∧
    (counterEnv.production = false →
      (combinedOf counterEnv exampleCalls countReducers).1.raises = none →
      (combinedOf counterEnv exampleCalls countReducers).1.finalReducers ≠ [] →
      isPlainObject (defaulted counterEnv extraState Effects.initial) = false →
      ∃ m, (combination counterEnv exampleCalls
        (combinedOf counterEnv exampleCalls countReducers).1
        extraState replaceExample Effects.initial).2.warnings =
        Effects.initial.warnings ++ [m]) :=
  ⟨⟨.str (ActionTypes.REPLACE counterEnv), rfl, rfl, rfl⟩,
   C22_replace_diagnostics counterEnv exampleCalls
    (combinedOf counterEnv exampleCalls countReducers).1 extraState replaceExample
    Effects.initial ⟨.str (ActionTypes.REPLACE counterEnv), rfl, rfl, rfl⟩⟩

/-- The diagnostic on unexpected keys, evaluated for the reducer built from
`{ count: counter }` and the state `{ count: 0, extra: 7 }`.  With the replace
action no message is passed to `warning` and the key `extra` is recorded as
seen; with `{ type: 'NOOP' }` the message naming `extra` is passed. -/
theorem unexpected_keys_scenario :
    (combination counterEnv exampleCalls (combinedOf counterEnv exampleCalls countReducers).1
      extraState replaceExample (combinedOf counterEnv exampleCalls countReducers).2).2.warnings =
      [] ∧
    (combination counterEnv exampleCalls (combinedOf counterEnv exampleCalls countReducers).1
      extraState replaceExample
      (combinedOf counterEnv exampleCalls countReducers).2).2.unexpectedKeyCache =
      [("extra", .bool true)] ∧
    (combination counterEnv exampleCalls (combinedOf counterEnv exampleCalls countReducers).1
      extraState noopAction (combinedOf counterEnv exampleCalls countReducers).2).2.warnings =
      ["Unexpected key \"extra\" found in previous state received by the reducer. " ++
        "Expected to find one of the known reducer keys instead: \"count\". " ++
        "Unexpected keys will be ignored."] :=
  ⟨rfl, rfl, rfl⟩

/-! ### Claim C23 -/

theorem stable_reachable (env : Env) (n : Nat) : Stable n (Reachable env) where
  log := fun s e _ h => Reachable.log s e h
  flag := fun s b h => Reachable.flag s b h
  state := fun s v h => Reachable.state s v h
  reducer := fun s r h => Reachable.reducer s r h
  alloc := fun s h => Reachable.alloc s h
  promote := fun s h => Reachable.promote s h
  subscribe := fun s s1 l h hs hr => Reachable.subscribe s s1 l h hs hr
  unsubscribe := fun s s1 h hs hr => Reachable.unsubscribe s s1 h hs hr

/-- The registry of every reachable store is consistent. -/
theorem reachable_subscribed (env : Env) (s : Store) (hr : Reachable env s) : Subscribed s := by
  induction hr with
  | create fuel r p e s hc => exact (createStore_subscribed env fuel r p e s hc).2
  | log s e _ ih => exact ih
  | flag s b _ ih => exact ih
  | state s v _ ih => exact ih
  | reducer s r _ ih => exact ih
  | alloc s _ ih => exact ih
  | promote s _ ih => exact (stable_subscribed 0).promote s ih
  | subscribe s s1 l h hs _ ih => exact subscribed_subscribe hs ih
  | unsubscribe s s1 h hs _ ih => exact subscribed_unsubscribe hs ih

/-- The top-level operations lead from reachable stores to reachable stores. -/
theorem reachable_closed (env : Env) (s : Store) (hr : Reachable env s) :
    (∀ fuel a, Reachable env (dispatch env fuel a s).store) ∧
    (∀ fuel r, Reachable env (replaceReducer env fuel r s).store) ∧
    (∀ l, Reachable env (subscribe l s).store) ∧
    (∀ h, Reachable env (unsubscribe h s).store) ∧
    (∀ fuel prog, Reachable env (run env (dispatch env fuel) prog s).store) := by
  refine ⟨?_, ?_, ?_, ?_, ?_⟩
  · intro fuel a
    exact dispatch_stable env (stable_reachable env fuel) fuel (le_refl _) a s hr
  · intro fuel r
    exact replaceReducerWith_stable env (dispatch env fuel) (stable_reachable env fuel)
      (fun a t ht => dispatch_stable env (stable_reachable env fuel) fuel (le_refl _) a t ht)
      r s hr
  · intro l
    cases h : subscribe l s with
    | ok v s1 => exact Reachable.subscribe s s1 l v h hr
    | raise e s1 => rw [subscribe_raise h]; exact hr
    | diverge s1 => exact absurd h subscribe_diverge
  · intro u
    cases h : unsubscribe u s with
    | ok v s1 => exact Reachable.unsubscribe s s1 u h hr
    | raise e s1 => rw [unsubscribe_raise h]; exact hr
    | diverge s1 => exact absurd h unsubscribe_diverge
  · intro fuel prog
    exact run_stable env (dispatch env fuel) (stable_reachable env fuel)
      (fun a t ht => dispatch_stable env (stable_reachable env fuel) fuel (le_refl _) a t ht)
      prog s hr

/-- C23: in every reachable store, each function occurs in the array reached
through `nextListeners` as often as it has live subscriptions; the listener
of every unsubscribe closure that has not yet taken effect is in that array,
so the `indexOf` of `unsubscribe` finds it (the index is not `-1`) and the
`splice` takes out one entry, the first that is this very function; and the
array `unsubscribe` searches after `ensureCanMutateNextListeners` is that
array.  The store `createStore` returns is reachable and every operation
leads from reachable stores to reachable stores, also when it is called by a
reducer or a listener. -/
theorem C23_registry_invariant (env : Env) (s : Store) (hr : Reachable env s) :
    (∀ l, occurrences l (s.array s.nextListeners) = occurrences l (activeListeners s)) ∧
    (∀ h c, s.handles.get? h = some c → c.isSubscribed = true →
      c.listener ∈ s.array s.nextListeners ∧
      1 ≤ occurrences c.listener (s.array s.nextListeners) ∧
      indexOf (s.array s.nextListeners) c.listener ≠ -1 ∧
      (∃ pre post, s.array s.nextListeners = pre ++ c.listener :: post ∧
        indexOf (s.array s.nextListeners) c.listener = (pre.length : Int) ∧
        (∀ x ∈ pre, strictEq x c.listener = false) ∧
        splice (s.array s.nextListeners) (indexOf (s.array s.nextListeners) c.listener) 1 =
          pre ++ post) ∧
      (ensureCanMutateNextListeners
          { s with handles := s.handles.set h { c with isSubscribed := false } }).array
        (ensureCanMutateNextListeners
          { s with handles := s.handles.set h { c with isSubscribed := false } }).nextListeners =
        s.array s.nextListeners) ∧
    ((∀ fuel a, Reachable env (dispatch env fuel a s).store) ∧
      (∀ fuel r, Reachable env (replaceReducer env fuel r s).store) ∧
      (∀ l, Reachable env (subscribe l s).store) ∧
      (∀ h, Reachable env (unsubscribe h s).store) ∧
      (∀ fuel prog, Reachable env (run env (dispatch env fuel) prog s).store)) ∧
    (∀ fuel r p e s0, createStore env fuel r p e = .store s0 → Reachable env s0) := by
  obtain ⟨a1, a2, a3, a4⟩ := reachable_subscribed env s hr
  refine ⟨fun l => List.Perm.countP_eq _ a3, ?_, reachable_closed env s hr,
    fun fuel r p e s0 h => Reachable.create fuel r p e s0 h⟩
  intro h c hc hlive
  obtain ⟨id, hid⟩ := eq_fn_of_typeOf (a1 c (List.get?_mem hc))
  have hperm := active_set_perm s.handles h c hc hlive
  have hmem : Val.fn id ∈ s.array s.nextListeners := by
    rw [← hid]
    exact (List.Perm.mem_iff a3).mpr ((List.Perm.mem_iff hperm).mpr (List.mem_cons_self _ _))
  obtain ⟨pre, post, p1, p2, p3⟩ := indexOfFrom_first id (s.array s.nextListeners) 0 hmem
  have hidx : indexOf (s.array s.nextListeners) (.fn id) = (pre.length : Int) := by
    unfold indexOf
    rw [p2]
    simp
  rw [hid]
  refine ⟨hmem, ?_, ?_, ⟨pre, post, p1, hidx, p3, ?_⟩, ?_⟩
  · unfold occurrences
    exact List.countP_pos_iff.mpr ⟨.fn id, hmem, strictEq_fn_self id⟩
  · rw [hidx]
    omega
  · rw [hidx]
    conv => lhs; rw [p1]
    exact splice_one pre post (.fn id)
  · exact ensure_array _

theorem C23_witness :
    Reachable counterEnv threeSubscriptions ∧
    (∀ l, occurrences l (threeSubscriptions.array threeSubscriptions.nextListeners) =
      occurrences l (activeListeners threeSubscriptions)) ∧
    (∀ h c, threeSubscriptions.handles.get? h = some c → c.isSubscribed = true →
      c.listener ∈ threeSubscriptions.array threeSubscriptions.nextListeners ∧
      1 ≤ occurrences c.listener (threeSubscriptions.array threeSubscriptions.nextListeners) ∧
      indexOf (threeSubscriptions.array threeSubscriptions.nextListeners) c.listener ≠ -1 ∧
      (∃ pre post, threeSubscriptions.array threeSubscriptions.nextListeners =
          pre ++ c.listener :: post ∧
        indexOf (threeSubscriptions.array threeSubscriptions.nextListeners) c.listener =
          (pre.length : Int) ∧
        (∀ x ∈ pre, strictEq x c.listener = false) ∧
        splice (threeSubscriptions.array threeSubscriptions.nextListeners)
          (indexOf (threeSubscriptions.array threeSubscriptions.nextListeners) c.listener) 1 =
          pre ++ post) ∧
      (ensureCanMutateNextListeners
          { threeSubscriptions with
            handles := threeSubscriptions.handles.set h { c with isSubscribed := false } }).array
        (ensureCanMutateNextListeners
          { threeSubscriptions with
            handles := threeSubscriptions.handles.set h
              { c with isSubscribed := false } }).nextListeners =
        threeSubscriptions.array threeSubscriptions.nextListeners) :=
  have hr : Reachable counterEnv threeSubscriptions :=
    (reachable_closed counterEnv _
      ((reachable_closed counterEnv _
        ((reachable_closed counterEnv _
          (Reachable.create 1 (.fn 0) .undefined .undefined (counterStore 1) rfl)).2.2.1
            (.fn 2))).2.2.1 (.fn 5))).2.2.1 (.fn 2)
  ⟨hr, (C23_registry_invariant counterEnv threeSubscriptions hr).1,
    (C23_registry_invariant counterEnv threeSubscriptions hr).2.1⟩

/-- The registry after `subscribe(f2)`, `subscribe(f5)`, `subscribe(f2)`,
evaluated: the array is `[f2, f5, f2]`, `f2` occurs twice and has two live
subscriptions, `indexOf` finds `f5` at index 1, and the unsubscribe function
of the third subscription takes out the first `f2`, an entry of the same
function, leaving `[f5, f2]`. -/
theorem registry_scenario :
    threeSubscriptions.array threeSubscriptions.nextListeners = [.fn 2, .fn 5, .fn 2] ∧
    activeListeners threeSubscriptions = [.fn 2, .fn 5, .fn 2] ∧
    occurrences (.fn 2) (threeSubscriptions.array threeSubscriptions.nextListeners) = 2 ∧
    indexOf (threeSubscriptions.array threeSubscriptions.nextListeners) (.fn 5) = 1 ∧
    (unsubscribe 2 threeSubscriptions).store.array
      (unsubscribe 2 threeSubscriptions).store.nextListeners = [.fn 5, .fn 2] ∧
    activeListeners (unsubscribe 2 threeSubscriptions).store = [.fn 2, .fn 5] :=
  ⟨rfl, rfl, rfl, rfl, rfl, rfl⟩

end Redux
